import Mathlib

/-!
# Audio-and-video player: queues, master clock, speed control, controller flags,
demuxer loop, decoder loop, audio pull callback, video refresh

Shallow embedding of the pipeline runtime of the player
(`src/Windows/code/*.h, *.cpp` and the Android `queue.cpp`), with the
properties of its specification stated and settled over it.

Conventions of the embedding.

* A method of a C++ object is a function from the object's state (a structure
  with the members the method touches) to the new state, paired with the
  returned value; an output reference parameter `T& val` is passed in and
  handed back.
* The queue operations are the behaviour one thread observes while no other
  thread runs: a wait on the condition variable ends with the state it began
  with (at once when the predicate holds, at the timeout otherwise).
* Calls into SDL and libavfilter are recorded as a list of `Call`s; whether a
  library call succeeds is an input of the model.
* What the frame queue, the filter graph and the resampler hand to the audio
  callback is an input too: a list of `Refill`s, one for each refill of the
  buffer; the packets the container reader returns are a list; a codec is a
  function from the packets submitted so far to its reply to the last one.
* Seconds (values of type `double` in the clock and the refresh loop) are exact
  rationals. The letterbox rectangle is computed as the source does, in IEEE
  754 binary64 arithmetic; conversion to `int` truncates toward zero.
-/

namespace AVPlayer

/-! ## `Queue<T>` (src/Windows/code/queue.h) -/

/-- State of a `Queue<T>`: the `abort_` flag (0 running, 1 aborted) and the
contents of the underlying `std::queue`, head first. -/
structure Queue (T : Type) where
  abort_ : Int
  queue_ : List T
deriving DecidableEq, Repr

namespace Queue

variable {T : Type}

/-- A default-constructed queue: `abort_ = 0`, no items. -/
def new : Queue T := { abort_ := 0, queue_ := [] }

/-- Method `Queue::Abort`: sets the flag (and wakes the waiters). -/
def Abort (q : Queue T) : Queue T := { q with abort_ := 1 }

/-- Method `Queue::Push`: -1 on an aborted queue, otherwise appends and returns 0. -/
def Push (q : Queue T) (val : T) : Int × Queue T :=
  if 1 = q.abort_ then (-1, q)
  else (0, { q with queue_ := q.queue_ ++ [val] })

/-- Method `Queue::Pop(T& val, timeout)`: the result is the status, the content
of `val` afterwards, and the queue. On an empty queue the call first waits up
to `timeout` ms; seen by one thread the wait changes nothing. -/
def Pop (q : Queue T) (val : T) (_timeout : Int) : Int × T × Queue T :=
  if 1 = q.abort_ then (-1, val, q)
  else
    match q.queue_ with
    | [] => (-2, val, q)
    | x :: rest => (0, x, { q with queue_ := rest })

/-- Method `Queue::Front(T& val)`: status, content of `val` afterwards, and the
queue (which the method does not write). -/
def Front (q : Queue T) (val : T) : Int × T × Queue T :=
  if 1 = q.abort_ then (-1, val, q)
  else
    match q.queue_ with
    | [] => (-2, val, q)
    | x :: _ => (0, x, q)

/-- Method `Queue::Size`: the number of held items (the conversion of
`queue_.size()` to `int` is exact below 2^31 items). -/
def Size (q : Queue T) : Int := (q.queue_.length : Int)

/-- One call on a queue, for traces of calls. -/
inductive Op (T : Type) where
  | abort
  | push (val : T)
  | pop (val : T) (timeout : Int)
  | front (val : T)
  | size

/-- The queue after one call. -/
def applyOp (q : Queue T) : Op T → Queue T
  | .abort => q.Abort
  | .push v => (q.Push v).2
  | .pop v t => (q.Pop v t).2.2
  | .front v => (q.Front v).2.2
  | .size => q

/-- The queue after a sequence of calls. -/
def run (q : Queue T) (ops : List (Op T)) : Queue T := ops.foldl applyOp q

/-- Pushes the items in order; the statuses returned and the final queue. -/
def pushAll (q : Queue T) : List T → List Int × Queue T
  | [] => ([], q)
  | x :: xs =>
    let r := q.Push x
    let rest := pushAll r.2 xs
    (r.1 :: rest.1, rest.2)

/-- One `Pop` per listed timeout, each into a variable holding `val`; the
(status, delivered value) pairs in call order and the final queue. -/
def popEach (q : Queue T) (val : T) : List Int → List (Int × T) × Queue T
  | [] => ([], q)
  | t :: ts =>
    let r := q.Pop val t
    let rest := popEach r.2.2 val ts
    ((r.1, r.2.1) :: rest.1, rest.2)

end Queue

/-! ## `PacketQueue` (Android, queue.cpp) -/

/-- State of the Android `PacketQueue`; `P` stands for a non-null `AVPacket*`. -/
structure PacketQueue (P : Type) where
  queue : List P
  abort_request : Bool
deriving DecidableEq, Repr

namespace PacketQueue

variable {P : Type}

/-- The constructor: no items, `abort_request = false`. -/
def new : PacketQueue P := { queue := [], abort_request := false }

/-- Method `PacketQueue::push`: nothing on an aborted queue, otherwise appends. -/
def push (q : PacketQueue P) (pkt : P) : PacketQueue P :=
  if q.abort_request then q else { q with queue := q.queue ++ [pkt] }

/-- Method `PacketQueue::pop`: `cv.wait` has no timeout, so on an empty queue that
is not aborted the call does not return while no other thread runs (`none`);
otherwise it returns `nullptr` (inner `none`) when aborted, else the head. -/
def pop (q : PacketQueue P) : Option (Option P × PacketQueue P) :=
  if q.abort_request then some (none, q)
  else
    match q.queue with
    | [] => none
    | x :: rest => some (some x, { q with queue := rest })

/-- The loop of `PacketQueue::clear` on the contents: frees the head and pops
it until the queue is empty; returns the packets freed, in the order freed. -/
def clearLoop : List P → List P
  | [] => []
  | pkt :: rest => pkt :: clearLoop rest

/-- Method `PacketQueue::clear`: the packets passed to `av_packet_free`, in
order, and the emptied queue. -/
def clear (q : PacketQueue P) : List P × PacketQueue P :=
  (clearLoop q.queue, { q with queue := [] })

/-- Method `PacketQueue::abort`: sets `abort_request` (and wakes the waiters). -/
def abort (q : PacketQueue P) : PacketQueue P := { q with abort_request := true }

/-- Method `PacketQueue::isEmpty`. -/
def isEmpty (q : PacketQueue P) : Bool := q.queue.isEmpty

/-- One call on a packet queue. -/
inductive Op (P : Type) where
  | push (pkt : P)
  | pop
  | clear
  | abort
  | isEmpty

/-- The queue after one call; a `pop` that does not return leaves it as it is. -/
def applyOp (q : PacketQueue P) : Op P → PacketQueue P
  | .push p => q.push p
  | .pop => match q.pop with
    | some r => r.2
    | none => q
  | .clear => q.clear.2
  | .abort => q.abort
  | .isEmpty => q

/-- The queue after a sequence of calls. -/
def run (q : PacketQueue P) (ops : List (Op P)) : PacketQueue P := ops.foldl applyOp q

/-- Pushes the packets in order. -/
def pushAll (q : PacketQueue P) (pkts : List P) : PacketQueue P := pkts.foldl push q

/-- Calls `pop` `n` times; `none` as soon as one call does not return, else the
returned pointers in call order and the final queue. -/
def popN (q : PacketQueue P) : Nat → Option (List (Option P) × PacketQueue P)
  | 0 => some ([], q)
  | n + 1 =>
    match q.pop with
    | none => none
    | some r =>
      match popN r.2 n with
      | none => none
      | some rest => some (r.1 :: rest.1, rest.2)

end PacketQueue

/-! ## `AVSync` (src/Windows/code/avsync.h) -/

/-- State of the master clock: the drift in seconds. Seconds are exact
rationals (the source computes in `double`). -/
structure AVSync where
  pts_drift_ : ℚ
deriving DecidableEq, Repr

namespace AVSync

/-- Method `AVSync::NowSec`, with the value `us` that `av_gettime_relative()`
returns (microseconds of the monotonic clock) as input. -/
def NowSec (us : Int) : ℚ := (us : ℚ) / 1000000

/-- Method `AVSync::SetClock(pts)`, called when the monotonic clock reads `us`. -/
def SetClock (_c : AVSync) (pts : ℚ) (us : Int) : AVSync :=
  let now := NowSec us
  { pts_drift_ := pts - now }

/-- Method `AVSync::ResetClock(pts)`, called when the monotonic clock reads `us`. -/
def ResetClock (_c : AVSync) (pts : ℚ) (us : Int) : AVSync :=
  let now := NowSec us
  { pts_drift_ := pts - now }

/-- Method `AVSync::InitClock`. -/
def InitClock (c : AVSync) (us : Int) : AVSync := c.ResetClock 0 us

/-- Method `AVSync::GetClock`, called when the monotonic clock reads `us`: the
value returned and the clock (which the method does not write). -/
def GetClock (c : AVSync) (us : Int) : ℚ × AVSync :=
  let now := NowSec us
  (c.pts_drift_ + now, c)

end AVSync

/-! ## Values of type `float` -/

/-- Values of the C++ type `float` as far as the player uses them (it only
copies and compares speeds): a finite value is the rational it denotes, plus
the two infinities and NaN. -/
inductive F32 where
  | nan
  | negInf
  | fin (q : ℚ)
  | posInf
deriving DecidableEq, Repr

namespace F32

/-- The comparison `a < b` of two floats: false when either is NaN. -/
def lt : F32 → F32 → Bool
  | .nan, _ => false
  | _, .nan => false
  | .negInf, .negInf => false
  | .negInf, _ => true
  | .fin _, .negInf => false
  | .fin a, .fin b => decide (a < b)
  | .fin _, .posInf => true
  | .posInf, _ => false

/-- The comparison `a == b` of two floats: false when either is NaN. -/
def eq : F32 → F32 → Bool
  | .nan, _ => false
  | _, .nan => false
  | a, b => decide (a = b)

/-- The literal `0.5f`. -/
def half : F32 := .fin (1 / 2)

/-- The literal `1.0f`. -/
def one : F32 := .fin 1

/-- The value lies in the closed interval [0.5, 1.0]. -/
def inRange : F32 → Prop
  | .fin q => 1 / 2 ≤ q ∧ q ≤ 1
  | _ => False

instance (x : F32) : Decidable (inRange x) := by
  cases x <;> unfold inRange <;> infer_instance

/-- The clamp of the specification: `s` clamped to [0.5, 1.0], that is 0.5 below
the interval and 1.0 above it. -/
def clamp (s : F32) : F32 :=
  if lt s half then half else if lt one s then one else s

end F32

/-! ## `AudioOutput::SetSpeed` (src/Windows/code/audiooutput.cpp) -/

/-- Record `AudioParams`: sample rate, channel layout (number of channels) and
sample format (the `AVSampleFormat` enumerator). -/
structure AudioParams where
  freq : Int
  ch_layout : Nat
  fmt : Int
deriving DecidableEq, Repr

/-- A filter graph `abuffer -> atempo -> abuffersink` held by `filter_graph_`,
known by the tempo its `atempo` node was created with. -/
structure FilterGraph where
  tempo : F32
deriving DecidableEq, Repr

/-- Calls into SDL and libavfilter, in the order made. -/
inductive Call where
  | SDL_PauseAudio (pause_on : Int)
  | avfilter_graph_free
  | avfilter_graph_alloc
  | create_abuffer
  | create_atempo (tempo : F32)
  | create_abuffersink
  | avfilter_link_src_atempo
  | avfilter_link_atempo_sink
  | avfilter_graph_config
deriving DecidableEq, Repr

/-- What happens in libavfilter during one rebuild of the graph: the first
call that fails, or none. -/
inductive Rebuild where
  | allocFails
  | abufferFails
  | atempoFails
  | abuffersinkFails
  | linkSrcFails
  | linkSinkFails
  | configFails
  | ok
deriving DecidableEq, Repr

/-- State of an `AudioOutput`. A pointer to a library object is modelled by
whether it is non-null (`filter_graph_` also by the tempo of the graph it
points to); `audio_buf_` by the bytes it points to, `none` for `NULL`.
The field `sdl_paused` is the pause state of the SDL audio device. -/
structure AudioOutput where
  src_tgt_ : AudioParams
  dst_tgt_ : AudioParams
  swr_ctx_ : Bool
  audio_buf_ : Option (List Nat)
  audio_buf_size : Nat
  audio_buf_index : Nat
  pts : ℚ
  paused_ : Bool
  speed_ : F32
  original_freq_ : Int
  filter_graph_ : Option FilterGraph
  abuffer_ctx_ : Bool
  atempo_ctx_ : Bool
  abuffersink_ctx_ : Bool
  sdl_paused : Bool
deriving DecidableEq, Repr

namespace AudioOutput

/-- The constructor `AudioOutput::AudioOutput`; `dst0` is the content of the
member `dst_tgt_`, which the constructor does not initialise. The audio device
is not open yet (`sdl_paused`). -/
def new (audio_params dst0 : AudioParams) : AudioOutput :=
  { src_tgt_ := audio_params
    dst_tgt_ := dst0
    swr_ctx_ := false
    audio_buf_ := none
    audio_buf_size := 0
    audio_buf_index := 0
    pts := 0
    paused_ := false
    speed_ := F32.one
    original_freq_ := 0
    filter_graph_ := none
    abuffer_ctx_ := false
    atempo_ctx_ := false
    abuffersink_ctx_ := false
    sdl_paused := true }

/-- Method `AudioOutput::GetSpeed`. -/
def GetSpeed (a : AudioOutput) : F32 := a.speed_

/-- Method `AudioOutput::Pause`. -/
def Pause (a : AudioOutput) : AudioOutput := { a with paused_ := true }

/-- Method `AudioOutput::Resume`. -/
def Resume (a : AudioOutput) : AudioOutput := { a with paused_ := false }

/-- Method `AudioOutput::isPaused`. -/
def isPaused (a : AudioOutput) : Bool := a.paused_

/-- Step 3 of `SetSpeed`: frees the old graph when there is one and nulls the
four pointers. -/
def destroyGraph (a : AudioOutput) : AudioOutput × List Call :=
  if a.filter_graph_.isSome then
    ({ a with filter_graph_ := none, abuffer_ctx_ := false, atempo_ctx_ := false,
              abuffersink_ctx_ := false }, [Call.avfilter_graph_free])
  else (a, [])

/-- A failure exit of the rebuild in `SetSpeed`: `avfilter_graph_free` nulls
`filter_graph_`, `SDL_PauseAudio(0)` resumes the device, return. -/
def failExit (a : AudioOutput) : AudioOutput × List Call :=
  ({ a with filter_graph_ := none, sdl_paused := false },
   [Call.avfilter_graph_free, Call.SDL_PauseAudio 0])

/-- Steps 4 to 6 of `SetSpeed` (from `avfilter_graph_alloc` on), run on the state
in which the old graph is gone. A filter creation that fails leaves its
context pointer null; one that succeeds leaves it non-null, also after the
graph is freed again. -/
def rebuildGraph (a : AudioOutput) : Rebuild → AudioOutput × List Call
  | .allocFails =>
    ({ a with filter_graph_ := none, sdl_paused := false },
     [Call.avfilter_graph_alloc, Call.SDL_PauseAudio 0])
  | .abufferFails =>
    let r := failExit { a with abuffer_ctx_ := false }
    (r.1, [Call.avfilter_graph_alloc, Call.create_abuffer] ++ r.2)
  | .atempoFails =>
    let r := failExit { a with abuffer_ctx_ := true, atempo_ctx_ := false }
    (r.1, [Call.avfilter_graph_alloc, Call.create_abuffer,
           Call.create_atempo a.speed_] ++ r.2)
  | .abuffersinkFails =>
    let r := failExit { a with abuffer_ctx_ := true, atempo_ctx_ := true,
                               abuffersink_ctx_ := false }
    (r.1, [Call.avfilter_graph_alloc, Call.create_abuffer,
           Call.create_atempo a.speed_, Call.create_abuffersink] ++ r.2)
  | .linkSrcFails =>
    let r := failExit { a with abuffer_ctx_ := true, atempo_ctx_ := true,
                               abuffersink_ctx_ := true }
    (r.1, [Call.avfilter_graph_alloc, Call.create_abuffer,
           Call.create_atempo a.speed_, Call.create_abuffersink,
           Call.avfilter_link_src_atempo] ++ r.2)
  | .linkSinkFails =>
    let r := failExit { a with abuffer_ctx_ := true, atempo_ctx_ := true,
                               abuffersink_ctx_ := true }
    (r.1, [Call.avfilter_graph_alloc, Call.create_abuffer,
           Call.create_atempo a.speed_, Call.create_abuffersink,
           Call.avfilter_link_src_atempo, Call.avfilter_link_atempo_sink] ++ r.2)
  | .configFails =>
    let r := failExit { a with abuffer_ctx_ := true, atempo_ctx_ := true,
                               abuffersink_ctx_ := true }
    (r.1, [Call.avfilter_graph_alloc, Call.create_abuffer,
           Call.create_atempo a.speed_, Call.create_abuffersink,
           Call.avfilter_link_src_atempo, Call.avfilter_link_atempo_sink,
           Call.avfilter_graph_config] ++ r.2)
  | .ok =>
    ({ a with filter_graph_ := some { tempo := a.speed_ }
              abuffer_ctx_ := true, atempo_ctx_ := true, abuffersink_ctx_ := true
              audio_buf_index := 0, audio_buf_size := 0, audio_buf_ := none
              sdl_paused := false },
     [Call.avfilter_graph_alloc, Call.create_abuffer,
      Call.create_atempo a.speed_, Call.create_abuffersink,
      Call.avfilter_link_src_atempo, Call.avfilter_link_atempo_sink,
      Call.avfilter_graph_config, Call.SDL_PauseAudio 0])

/-- Method `AudioOutput::SetSpeed(s)`: the state afterwards and the library
calls made. `ext` says how libavfilter behaves should the graph be rebuilt.
The tempo handed to `atempo` is `speed_` (printed with `%f` into its
argument string). -/
def SetSpeed (a : AudioOutput) (s : F32) (ext : Rebuild) : AudioOutput × List Call :=
  let s := if F32.lt s F32.half then F32.half else s
  if F32.eq s a.speed_ then (a, [])
  else
    let a1 := { a with speed_ := s, sdl_paused := true }
    let d := destroyGraph a1
    let r := rebuildGraph d.1 ext
    (r.1, [Call.SDL_PauseAudio 1] ++ d.2 ++ r.2)

end AudioOutput

/-! ## `MainController` (src/Windows/code/maincontroller.cpp) -/

/-- Modelled from the spec: the method `Abort` of `AVPacketQueue` and of
`AVFrameQueue` (wrappers of `Queue<T>` whose .cpp files are not among the
sources): "abort() — irreversible; frees all held items in FIFO order using
the element's release hook, wakes all waiters". Returns the items released,
in order, and the wrapped queue. -/
def AVQueueAbort (q : Queue Nat) : List Nat × Queue Nat :=
  (q.queue_, ({ q with queue_ := [] } : Queue Nat).Abort)

/-- How the body of the play thread that `start` launches gets on: the step of
`InitAll` that returns a negative value, or `StartAllThreads` doing so, or
both succeeding. -/
inductive InitResult where
  | demuxInitFails
  | audioDecodeInitFails
  | videoDecodeInitFails
  | audioOutputInitFails
  | videoOutputInitFails
  | startAllThreadsFails
  | ok
deriving DecidableEq, Repr

/-- What `AudioOutput::Init` leaves behind when it returns 0: it does not check
the libavfilter calls that build the graph, so the four pointers are inputs. -/
structure GraphBuilt where
  filter_graph_ : Bool
  abuffer_ctx_ : Bool
  atempo_ctx_ : Bool
  abuffersink_ctx_ : Bool
deriving DecidableEq, Repr

/-- Method `AudioOutput::Init` returning 0: sets the sink format (stereo, S16,
source rate), builds the graph with `tempo = speed_`, starts the device. -/
def AudioOutput.InitOk (a : AudioOutput) (g : GraphBuilt) : AudioOutput :=
  { a with dst_tgt_ := { freq := a.src_tgt_.freq, ch_layout := 2, fmt := 1 }
           original_freq_ := a.src_tgt_.freq
           filter_graph_ := if g.filter_graph_ then some { tempo := a.speed_ } else none
           abuffer_ctx_ := g.abuffer_ctx_
           atempo_ctx_ := g.atempo_ctx_
           abuffersink_ctx_ := g.abuffersink_ctx_
           sdl_paused := false }

/-- State of a `MainController`. Packets and frames are numbered handles. A
component pointer is modelled by whether it is non-null (`audio_output` by the
state of the object). `initialising` counts the play threads that have been
launched and are still in `InitAll` / `StartAllThreads`, `looping` those inside
the video main loop. -/
structure MainController where
  audio_packet_queue : Queue Nat
  video_packet_queue : Queue Nat
  audio_frame_queue : Queue Nat
  video_frame_queue : Queue Nat
  avsync : AVSync
  demux_thread : Bool
  audio_decode_thread : Bool
  video_decode_thread : Bool
  audio_output : Option AudioOutput
  video_output : Bool
  started : Bool
  paused : Bool
  speed_ : F32
  initialising : Nat
  looping : Nat
deriving DecidableEq, Repr

namespace MainController

/-- The constructor: four fresh queues, no components, `started = paused = false`,
`speed_ = 1.0f`; `clock0` is the clock as `AVSync()` built it. -/
def new (clock0 : AVSync) : MainController :=
  { audio_packet_queue := Queue.new
    video_packet_queue := Queue.new
    audio_frame_queue := Queue.new
    video_frame_queue := Queue.new
    avsync := clock0
    demux_thread := false
    audio_decode_thread := false
    video_decode_thread := false
    audio_output := none
    video_output := false
    started := false
    paused := false
    speed_ := F32.one
    initialising := 0
    looping := 0 }

/-- Method `MainController::getSpeed`. -/
def getSpeed (c : MainController) : F32 := c.speed_

/-- Method `MainController::isPaused`. -/
def isPaused (c : MainController) : Bool := c.paused

/-- Method `MainController::isStarted`. -/
def isStarted (c : MainController) : Bool := c.started

/-- Method `MainController::start` up to its return: sets `started` and launches
the (detached) play thread, unless already started. -/
def start (c : MainController) : MainController :=
  if c.started then c
  else { c with started := true, initialising := c.initialising + 1 }

/-- Method `MainController::pause`. -/
def pause (c : MainController) : MainController :=
  if !c.started then c else { c with paused := true }

/-- Method `MainController::resume`. -/
def resume (c : MainController) : MainController :=
  if !c.started then c else { c with paused := false }

/-- Method `MainController::setSpeed(s)`; `ext` is the behaviour of libavfilter
should the audio output rebuild its graph. -/
def setSpeed (c : MainController) (s : F32) (ext : Rebuild) : MainController :=
  let c1 := { c with speed_ := s }
  match c1.audio_output with
  | some a => { c1 with audio_output := some (a.SetSpeed s ext).1 }
  | none => c1

/-- Method `MainController::StopAndClean`. -/
def StopAndClean (c : MainController) : MainController :=
  if !c.started then c
  else
    { c with
      paused := false
      audio_output := none
      video_output := false
      audio_frame_queue := (AVQueueAbort c.audio_frame_queue).2
      video_frame_queue := (AVQueueAbort c.video_frame_queue).2
      audio_packet_queue := (AVQueueAbort c.audio_packet_queue).2
      video_packet_queue := (AVQueueAbort c.video_packet_queue).2
      audio_decode_thread := false
      video_decode_thread := false
      demux_thread := false
      started := false }

/-- Method `MainController::stop`. -/
def stop (c : MainController) : MainController := c.StopAndClean

/-- Method `MainController::InitAll` as far as it gets for the given result: the
components constructed before the failing step (the failing one included)
stay in place. `us` is the monotonic time at `InitClock`; `dst0` and `g` are
the inputs of the audio output's construction and `Init`. -/
def InitAll (c : MainController) (r : InitResult) (us : Int) (dst0 : AudioParams)
    (src : AudioParams) (g : GraphBuilt) : MainController :=
  let c1 := { c with demux_thread := true }
  if r = .demuxInitFails then c1 else
  let c2 := { c1 with audio_decode_thread := true }
  if r = .audioDecodeInitFails then c2 else
  let c3 := { c2 with video_decode_thread := true }
  if r = .videoDecodeInitFails then c3 else
  let c4 := { c3 with avsync := c3.avsync.InitClock us }
  let c5 := { c4 with audio_output := some (AudioOutput.new src dst0) }
  if r = .audioOutputInitFails then c5 else
  let c6 := { c5 with audio_output := some ((AudioOutput.new src dst0).InitOk g)
                      video_output := true }
  c6

/-- The body of the play thread up to the main loop: `InitAll`, then
`StartAllThreads`; a failure of either resets `started` and ends the thread,
otherwise the thread enters the video main loop. Nothing happens when no
play thread is in that phase. -/
def playThreadInit (c : MainController) (r : InitResult) (us : Int)
    (dst0 src : AudioParams) (g : GraphBuilt) : MainController :=
  if c.initialising = 0 then c
  else
    let c1 := c.InitAll r us dst0 src g
    if r = .ok then
      { c1 with initialising := c1.initialising - 1, looping := c1.looping + 1 }
    else
      { c1 with started := false, initialising := c1.initialising - 1 }

/-- The end of the play thread: the video main loop returns (window closed)
and `MainLoop` calls `stop()`. Nothing happens when no play thread is in the
main loop. -/
def mainLoopReturns (c : MainController) : MainController :=
  if c.looping = 0 then c
  else ({ c with looping := c.looping - 1 } : MainController).stop

/-- The events of a controller's life: the five commands, and the two steps
of a play thread. -/
inductive Action where
  | start
  | pause
  | resume
  | setSpeed (s : F32) (ext : Rebuild)
  | stop
  | playThreadInit (r : InitResult) (us : Int) (dst0 src : AudioParams) (g : GraphBuilt)
  | mainLoopReturns
deriving DecidableEq, Repr

/-- The controller after one event. -/
def step (c : MainController) : Action → MainController
  | .start => c.start
  | .pause => c.pause
  | .resume => c.resume
  | .setSpeed s ext => c.setSpeed s ext
  | .stop => c.stop
  | .playThreadInit r us dst0 src g => c.playThreadInit r us dst0 src g
  | .mainLoopReturns => c.mainLoopReturns

/-- The controller after a sequence of events. -/
def run (c : MainController) (as : List Action) : MainController := as.foldl step c

/-- The `setSpeed` arguments of a sequence of events all lie in [0.5, 1.0]. -/
def speedsInRange : List Action → Prop
  | [] => True
  | .setSpeed s _ :: rest => F32.inRange s ∧ speedsInRange rest
  | _ :: rest => speedsInRange rest

end MainController

end AVPlayer

namespace AVPlayer

/-! ## The play thread and `DemuxThread::Init` -/

/-- Calls the play thread makes on the components, in the order of `InitAll`,
`StartAllThreads` and `MainLoop`. -/
inductive PlayCall where
  | demux_Init
  | audio_decode_Init
  | video_decode_Init
  | avsync_InitClock
  | audio_output_Init
  | video_output_Init
  | demux_Start
  | audio_decode_Start
  | video_decode_Start
  | video_MainLoop
deriving DecidableEq, Repr

/-- The component calls made by the body of the play thread (the lambda of
`MainController::start`) for a given result: `InitAll` stops at its first failing
step, `StartAllThreads` is reached only when `InitAll` returned 0, the main loop
only when both did. For `startAllThreadsFails` the list ends with the first
`Start`; the later ones are called when that one returned 0. -/
def MainController.playThreadCalls : InitResult → List PlayCall
  | .demuxInitFails => [.demux_Init]
  | .audioDecodeInitFails => [.demux_Init, .audio_decode_Init]
  | .videoDecodeInitFails => [.demux_Init, .audio_decode_Init, .video_decode_Init]
  | .audioOutputInitFails =>
    [.demux_Init, .audio_decode_Init, .video_decode_Init, .avsync_InitClock,
     .audio_output_Init]
  | .videoOutputInitFails =>
    [.demux_Init, .audio_decode_Init, .video_decode_Init, .avsync_InitClock,
     .audio_output_Init, .video_output_Init]
  | .startAllThreadsFails =>
    [.demux_Init, .audio_decode_Init, .video_decode_Init, .avsync_InitClock,
     .audio_output_Init, .video_output_Init, .demux_Start]
  | .ok =>
    [.demux_Init, .audio_decode_Init, .video_decode_Init, .avsync_InitClock,
     .audio_output_Init, .video_output_Init, .demux_Start, .audio_decode_Start,
     .video_decode_Start, .video_MainLoop]

/-- The members of a `DemuxThread` that `Init` and `Run` use: whether `ifmt_ctx_` is
non-null, the two stream indices, and the `abort_` flag. -/
structure DemuxThread where
  ifmt_ctx_ : Bool
  audio_stream_ : Int
  video_stream_ : Int
  abort_ : Bool
deriving DecidableEq, Repr

/-- What `DemuxThread::Init` meets: whether `url` is null, whether
`avformat_alloc_context` succeeds, the values returned by `avformat_open_input`
and `avformat_find_stream_info`, and the values `av_find_best_stream` returns for
audio and for video (negative when the file has no such stream). -/
structure OpenEnv where
  url_null : Bool
  alloc_ok : Bool
  open_ret : Int
  find_stream_info_ret : Int
  best_audio : Int
  best_video : Int
deriving DecidableEq, Repr

namespace DemuxThread

/-- A constructed `DemuxThread`: no context, both indices -1, `abort_ = false`. -/
def new : DemuxThread :=
  { ifmt_ctx_ := false, audio_stream_ := -1, video_stream_ := -1, abort_ := false }

/-- Method `DemuxThread::Init(url)`: the value returned and the object. (A failing
`avformat_open_input` frees the context and nulls the pointer.) -/
def Init (d : DemuxThread) (e : OpenEnv) : Int × DemuxThread :=
  if e.url_null then (-1, d)
  else if !e.alloc_ok then (-1, { d with ifmt_ctx_ := false })
  else if e.open_ret < 0 then (-1, { d with ifmt_ctx_ := false })
  else if e.find_stream_info_ret < 0 then (-1, { d with ifmt_ctx_ := true })
  else
    let d2 := { d with ifmt_ctx_ := true, audio_stream_ := e.best_audio,
                       video_stream_ := e.best_video }
    if d2.audio_stream_ < 0 ∨ d2.video_stream_ < 0 then (-1, d2) else (0, d2)

end DemuxThread

/-! ## `DemuxThread::Run` (src/Windows/code/demuxthread.cpp) -/

/-- An `AVPacket` as the demuxer sees it: its `stream_index`, and a number
standing for the rest of it. -/
structure Packet where
  stream_index : Int
  id : Nat
deriving DecidableEq, Repr

/-- Modelled from the spec: the method `Push` of `AVPacketQueue` / `AVFrameQueue`
(their .cpp files are not among the sources): "push(item) — transfer ownership of
item; wake one waiter. If aborted, drop and release the item." It is the `Push`
of the wrapped `Queue<T>`. -/
def AVQueuePush {T : Type} (q : Queue T) (val : T) : Int × Queue T := q.Push val

/-- Modelled from the spec: the method `Size` of `AVPacketQueue` / `AVFrameQueue`:
"size() — sampled count", the `Size` of the wrapped `Queue<T>`. -/
def AVQueueSize {T : Type} (q : Queue T) : Int := q.Size

/-- Modelled from the spec: the method `Pop(timeout)` of `AVPacketQueue` /
`AVFrameQueue`: "pop(timeout) — block until an item is available, timeout
elapses, or abort is signalled. Returns one of { item, timed-out, aborted }":
the item of the wrapped queue's `Pop` when that returns 0, else `nullptr`. -/
def AVQueuePop {T : Type} (q : Queue T) (timeout : Int) : Option T × Queue T :=
  match q.queue_ with
  | [] => (none, q)
  | x :: _ =>
    let r := q.Pop x timeout
    if r.1 = 0 then (some r.2.1, r.2.2) else (none, r.2.2)

/-- The demuxer at work: the thread object, whether the loop of `Run` is still
going, the two packet queues it was constructed with, the packets the
container reader will still return (`av_read_frame` fails when there are none
left), and the log of what the loop did: packets read, packets passed to the
audio and to the video queue's `Push`, packets released with
`av_packet_unref`, each in order. -/
structure DemuxSys where
  demux : DemuxThread
  running : Bool
  audio_queue_ : Queue Packet
  video_queue_ : Queue Packet
  reader : List Packet
  read : List Packet
  pushed_audio : List Packet
  pushed_video : List Packet
  released : List Packet
deriving DecidableEq, Repr

namespace DemuxSys

/-- The start: an initialised demuxer with the given stream indices, empty
running queues, the reader about to return `pkts`, nothing done yet. -/
def init (audio_stream video_stream : Int) (pkts : List Packet) : DemuxSys :=
  { demux := { ifmt_ctx_ := true, audio_stream_ := audio_stream,
               video_stream_ := video_stream, abort_ := false }
    running := true
    audio_queue_ := Queue.new
    video_queue_ := Queue.new
    reader := pkts
    read := []
    pushed_audio := []
    pushed_video := []
    released := [] }

/-- One pass through the loop of `DemuxThread::Run`; `paused` is what
`controller_ && controller_->isPaused()` reads. The loop ends when `abort_` is
set or `av_read_frame` fails; a paused pass waits and a pass that finds more
than 100 packets in either queue sleeps, both without reading. -/
def iterate (s : DemuxSys) (paused : Bool) : DemuxSys :=
  if !s.running then s
  else if s.demux.abort_ then { s with running := false }
  else if paused then s
  else if AVQueueSize s.audio_queue_ > 100 ∨ AVQueueSize s.video_queue_ > 100 then s
  else
    match s.reader with
    | [] => { s with running := false }
    | packet :: rest =>
      let s1 := { s with reader := rest, read := s.read ++ [packet] }
      if packet.stream_index = s1.demux.audio_stream_ then
        { s1 with audio_queue_ := (AVQueuePush s1.audio_queue_ packet).2
                  pushed_audio := s1.pushed_audio ++ [packet] }
      else if packet.stream_index = s1.demux.video_stream_ then
        { s1 with video_queue_ := (AVQueuePush s1.video_queue_ packet).2
                  pushed_video := s1.pushed_video ++ [packet] }
      else
        { s1 with released := s1.released ++ [packet] }

/-- The steps of the system: a pass of the demuxer loop, a `Pop` by the consumer
of either queue (the decoders), and `DemuxThread::Stop` setting `abort_`. -/
inductive Step where
  | demuxIter (paused : Bool)
  | audioPop (timeout : Int)
  | videoPop (timeout : Int)
  | stop
deriving DecidableEq, Repr

/-- The system after one step. -/
def step (s : DemuxSys) : Step → DemuxSys
  | .demuxIter paused => s.iterate paused
  | .audioPop t => { s with audio_queue_ := (AVQueuePop s.audio_queue_ t).2 }
  | .videoPop t => { s with video_queue_ := (AVQueuePop s.video_queue_ t).2 }
  | .stop => { s with demux := { s.demux with abort_ := true } }

/-- The system after a sequence of steps. -/
def run (s : DemuxSys) (steps : List Step) : DemuxSys := steps.foldl step s

/-- What the consumer of the audio queue receives at one step: the packet its
`Pop` hands over, when the step is such a `Pop` and it returns one. -/
def audioGot (s : DemuxSys) : Step → List Packet
  | .audioPop t => (AVQueuePop s.audio_queue_ t).1.toList
  | _ => []

/-- What the consumer of the video queue receives at one step. -/
def videoGot (s : DemuxSys) : Step → List Packet
  | .videoPop t => (AVQueuePop s.video_queue_ t).1.toList
  | _ => []

/-- The packets the consumer of the audio queue receives during the steps, in
order. -/
def audioTaken (s : DemuxSys) : List Step → List Packet
  | [] => []
  | st :: rest => s.audioGot st ++ audioTaken (s.step st) rest

/-- The packets the consumer of the video queue receives during the steps, in
order. -/
def videoTaken (s : DemuxSys) : List Step → List Packet
  | [] => []
  | st :: rest => s.videoGot st ++ videoTaken (s.step st) rest

end DemuxSys

end AVPlayer

namespace AVPlayer

/-! ## The pull callback `sdl_audio_callback` (src/Windows/code/audiooutput.cpp) -/

/-- Conversion of an integer value to `uint32_t`. -/
def toU32 (x : Int) : Nat := (x % 4294967296).toNat

/-- Conversion of an integer value to `int` (32 bits, two's complement). -/
def toI32 (x : Int) : Int :=
  if x % 4294967296 < 2147483648 then x % 4294967296 else x % 4294967296 - 4294967296

/-- A frame read from the filter sink and what the resampler makes of it:
`filt_frame->pts`; its format, sample rate and channel layout; whether
`swr_alloc_set_opts2` and `swr_init` succeed should the callback call them; the
value of the first `av_samples_get_buffer_size`; the value of `swr_convert`; the
value of `av_samples_get_buffer_size` for the converted samples; and the PCM
bytes that end up in `audio_buf1_` (`av_fast_malloc` is taken to succeed). -/
structure Filtered where
  pts : Int
  params : AudioParams
  swr_init_ok : Bool
  out_bytes : Int
  len2 : Int
  conv_bytes : Int
  data : List Nat
deriving DecidableEq, Repr

/-- What the frame queue and the filter graph do at one refill of the callback:
`Pop(2)` returns no frame; or a frame that `av_buffersrc_add_frame` rejects; or
one for which `av_buffersink_get_frame` yields nothing; or a filtered frame. -/
inductive Refill where
  | noFrame
  | addFrameFails
  | getFrameFails
  | filtered (f : Filtered)
deriving DecidableEq, Repr

/-- How an invocation of the callback ends: the loop ran to `len = 0` (and
`SetClock` follows); the return of the pause branch; the three early returns
of the resampling code; a `memset`/`memcpy` with a negative length or past the
end of the buffer (undefined behaviour); or the model ran out of fuel. -/
inductive CbExit where
  | filled
  | paused
  | swrInitFailed
  | bufferSizeFailed
  | convertFailed
  | undefinedCopy
  | outOfFuel
deriving DecidableEq, Repr

/-- Where the refill block of the callback leaves control: on to the copy
step, back to the head of the loop (`continue`), or out (`return`). -/
inductive RefillOutcome where
  | proceed (a : AudioOutput)
  | again (a : AudioOutput)
  | leave (a : AudioOutput) (e : CbExit)
deriving DecidableEq, Repr

/-- The refill block of the callback (the body of `if (audio_buf_index ==
audio_buf_size)` after the index reset and the `Pop`); `tb` is
`av_q2d(time_base_)`, fixed at construction. -/
def AudioOutput.refill (a : AudioOutput) (tb : ℚ) : Refill → RefillOutcome
  | .noFrame => .proceed { a with audio_buf_ := none, audio_buf_size := 512 }
  | .addFrameFails => .again a
  | .getFrameFails => .again { a with audio_buf_ := none, audio_buf_size := 512 }
  | .filtered f =>
    let a1 := { a with pts := (f.pts : ℚ) * tb }
    let differs : Bool :=
      decide (f.params.fmt ≠ a1.dst_tgt_.fmt) || decide (f.params.freq ≠ a1.dst_tgt_.freq)
        || decide (f.params.ch_layout ≠ a1.dst_tgt_.ch_layout)
    if differs && !a1.swr_ctx_ && !f.swr_init_ok then .leave a1 .swrInitFailed
    else
      let a2 := if differs && !a1.swr_ctx_ then { a1 with swr_ctx_ := true } else a1
      if a2.swr_ctx_ then
        if f.out_bytes < 0 then .leave a2 .bufferSizeFailed
        else if f.len2 < 0 then .leave a2 .convertFailed
        else .proceed { a2 with audio_buf_size := toU32 f.conv_bytes, audio_buf_ := some f.data }
      else
        let a3 := { a2 with audio_buf_ := some f.data, audio_buf_size := toU32 f.out_bytes }
        if f.out_bytes < 0 then .leave a3 .undefinedCopy
        else .proceed a3

/-- The copy step of the callback for a remaining request of `len` bytes: the
state, the bytes written to the sink buffer, and the request still open.
`none` when the length `len3` is negative or the copy would read past the
bytes of `audio_buf_`. -/
def AudioOutput.copyStep (a : AudioOutput) (len : Int) :
    Option (AudioOutput × List Nat × Int) :=
  let len3 := toI32 ((a.audio_buf_size : Int) - (a.audio_buf_index : Int))
  let len3 := if len3 > len then len else len3
  if len3 < 0 then none
  else
    let a1 := { a with audio_buf_index := toU32 ((a.audio_buf_index : Int) + len3) }
    match a.audio_buf_ with
    | none => some (a1, List.replicate len3.toNat 0, len - len3)
    | some buf =>
      if a.audio_buf_index + len3.toNat ≤ buf.length then
        some (a1, (buf.drop a.audio_buf_index).take len3.toNat, len - len3)
      else none

/-- The variables of the callback loop: the output object, the behaviours the
queue and filters still have in store (when the list is used up the queue is
drained: `Pop` returns no frame), the request still open, the bytes written to
the sink buffer so far, and the number of frames popped. -/
structure CbVars where
  out : AudioOutput
  script : List Refill
  len : Int
  stream : List Nat
  popped : Nat
deriving DecidableEq, Repr

/-- One pass through the body of `while (len > 0)`: the variables afterwards,
and the exit taken when the pass returns. -/
inductive LoopStep where
  | next (v : CbVars)
  | stop (v : CbVars) (e : CbExit)
deriving DecidableEq, Repr

/-- The copy step inside the loop. -/
def copyPass (v : CbVars) (a : AudioOutput) : LoopStep :=
  match a.copyStep v.len with
  | none => .stop { v with out := a } .undefinedCopy
  | some r => .next { v with out := r.1, stream := v.stream ++ r.2.1, len := r.2.2 }

/-- The body of `while (len > 0)` in `sdl_audio_callback`. -/
def loopBody (tb : ℚ) (v : CbVars) : LoopStep :=
  if v.out.isPaused then
    .stop { v with stream := v.stream ++ List.replicate v.len.toNat 0 } .paused
  else if v.out.audio_buf_index = v.out.audio_buf_size then
    let a0 := { v.out with audio_buf_index := 0 }
    let r := v.script.headD .noFrame
    let v1 := { v with script := v.script.tail
                       popped := match r with
                         | .noFrame => v.popped
                         | _ => v.popped + 1 }
    match a0.refill tb r with
    | .again a1 => .next { v1 with out := a1 }
    | .leave a1 e => .stop { v1 with out := a1 } e
    | .proceed a1 => copyPass v1 a1
  else copyPass v v.out

/-- The loop `while (len > 0)` of the callback, with fuel for the passes. -/
def callbackLoop (tb : ℚ) : Nat → CbVars → CbVars × CbExit
  | 0, v => (v, .outOfFuel)
  | fuel + 1, v =>
    if v.len ≤ 0 then (v, .filled)
    else
      match loopBody tb v with
      | .next v1 => callbackLoop tb fuel v1
      | .stop v1 e => (v1, e)

/-- The result of one invocation of the callback: the output object, the master
clock, the bytes written to the sink buffer, the behaviours not used, the
number of frames popped, the argument of the final `SetClock` when it was
called, and how the invocation ended. -/
structure CbResult where
  out : AudioOutput
  clock : AVSync
  stream : List Nat
  rest : List Refill
  popped : Nat
  set_clock : Option ℚ
  exit : CbExit
deriving DecidableEq, Repr

/-- The function `sdl_audio_callback(userdata, stream, len)` on the output `a`
with master clock `clock`; `us` is the monotonic time at which the final
`SetClock` runs. Every pass of the loop that goes on uses up a listed behaviour
or shortens the request, so the fuel given is enough. -/
def sdl_audio_callback (a : AudioOutput) (tb : ℚ) (clock : AVSync) (us : Int)
    (script : List Refill) (len : Int) : CbResult :=
  let r := callbackLoop tb (script.length + len.toNat + 1)
    { out := a, script := script, len := len, stream := [], popped := 0 }
  { out := r.1.out
    clock := if r.2 = .filled then clock.SetClock r.1.out.pts us else clock
    stream := r.1.stream
    rest := r.1.script
    popped := r.1.popped
    set_clock := if r.2 = .filled then some r.1.out.pts else none
    exit := r.2 }

/-- The numeric invariant of the buffer cursor alone, for the `uint32_t` members:
`audio_buf_index ≤ audio_buf_size < 2^32`. -/
def AudioOutput.cursorInBounds (a : AudioOutput) : Prop :=
  a.audio_buf_index ≤ a.audio_buf_size ∧ a.audio_buf_size < 4294967296

end AVPlayer

namespace AVPlayer

/-! ## `VideoOutput` (src/Windows/code/videooutput.cpp) -/

/-- Conversion of a `double` to `int`: truncation toward zero. Seconds are exact
rationals (the source computes in `double`). -/
def truncToInt (x : ℚ) : Int := if 0 ≤ x then ⌊x⌋ else ⌈x⌉

/-- The record `SDL_Rect`. -/
structure SDL_Rect where
  x : Int
  y : Int
  w : Int
  h : Int
deriving DecidableEq, Repr

/-- The constant `WINDOW_W`. -/
def WINDOW_W : Int := 1280

/-- The constant `WINDOW_H`. -/
def WINDOW_H : Int := 720

/-- The constant `REFRESH_RATE`, in seconds. -/
def REFRESH_RATE : ℚ := 1 / 100

/-! ### Values of type `double` in `CalcLetterBoxRect`

The arithmetic of `CalcLetterBoxRect` is that of IEEE 754 binary64, round to
nearest, ties to even. The values that occur are finite and not negative, and
far from overflow and underflow, so a value is a significand and an exponent
(not bounded here), and every operation is the exact result rounded to 53
significant bits. -/

/-- A finite non-negative value of type `double`: `mant * 2 ^ exp`. -/
structure Dbl where
  mant : Nat
  exp : Int
deriving DecidableEq, Repr

/-- The position of the highest set bit of `n`, with fuel for the halvings. -/
def log2Aux : Nat → Nat → Nat
  | 0, _ => 0
  | fuel + 1, n => if n < 2 then 0 else log2Aux fuel (n / 2) + 1

/-- The position of the highest set bit of `n`: `2 ^ floorLog2 n ≤ n < 2 ^ (floorLog2 n + 1)`
for `n ≠ 0`. -/
def floorLog2 (n : Nat) : Nat := log2Aux n n

/-- The fraction `n / d` divided by `2 ^ e`, as a fraction of naturals. -/
def scaleFrac (n d : Nat) (e : Int) : Nat × Nat :=
  if 0 ≤ e then (n, d * 2 ^ e.toNat) else (n * 2 ^ (-e).toNat, d)

/-- The whole number nearest to `n / d`, the even one of two equally near. -/
def roundHalfEven (n d : Nat) : Nat :=
  let q := n / d
  let r := n % d
  if 2 * r < d then q else if d < 2 * r then q + 1 else if q % 2 = 0 then q else q + 1

/-- The `double` nearest to the fraction `n / d` (ties to even): the exponent
`e` is the one for which `n / d / 2 ^ e` lies in `[2 ^ 52, 2 ^ 53)`, and the
significand is that number rounded to a whole number. -/
def roundToDouble (n d : Nat) : Dbl :=
  if n = 0 then ⟨0, 0⟩
  else
    let e0 : Int := (floorLog2 n : Int) - (floorLog2 d : Int) - 52
    let f0 := scaleFrac n d e0
    let e : Int := if 2 ^ 52 * f0.2 ≤ f0.1 then e0 else e0 - 1
    let f := scaleFrac n d e
    ⟨roundHalfEven f.1 f.2, e⟩

namespace Dbl

/-- The number a `double` stands for. -/
def toRat (a : Dbl) : ℚ := (a.mant : ℚ) * (2 : ℚ) ^ a.exp

/-- The comparison `a < b`. -/
def lt (a b : Dbl) : Bool :=
  let e := Min.min a.exp b.exp
  decide (a.mant * 2 ^ (a.exp - e).toNat < b.mant * 2 ^ (b.exp - e).toNat)

/-- The function `std::min(a, b)`: `b` when `b < a`, else `a`. -/
def std_min (a b : Dbl) : Dbl := if lt b a then b else a

/-- The product `v * s` of an `int` (converted to `double`, exactly) and a
`double`: the exact product, rounded. -/
def mulInt (v : Nat) (s : Dbl) : Dbl :=
  if 0 ≤ s.exp then roundToDouble (v * s.mant * 2 ^ s.exp.toNat) 1
  else roundToDouble (v * s.mant) (2 ^ (-s.exp).toNat)

/-- The conversion of a `double` to `int`: truncation. -/
def toInt (a : Dbl) : Int :=
  if 0 ≤ a.exp then ((a.mant * 2 ^ a.exp.toNat : Nat) : Int)
  else ((a.mant / 2 ^ (-a.exp).toNat : Nat) : Int)

end Dbl

/-- The function `CalcLetterBoxRect(video_w, video_h)` for a positive size, in
the arithmetic of the source: `window_w / video_w` and `window_h / video_h` are
quotients of `double`s, `scale` is their `std::min`, `video_w * scale` and
`video_h * scale` are products of `double`s, truncated on conversion to `int`.
In `(window_w - draw_w) / 2` the difference of two whole numbers and its half
are exact in `double`, and the conversion to `int` truncates toward zero. For
a size that is not positive (no picture has one) the source divides by zero
or scales by a negative number; the model does not follow it there and gives
the empty rectangle. -/
def CalcLetterBoxRect (video_w video_h : Int) : SDL_Rect :=
  if 0 < video_w ∧ 0 < video_h then
    let scale := Dbl.std_min (roundToDouble WINDOW_W.toNat video_w.toNat)
      (roundToDouble WINDOW_H.toNat video_h.toNat)
    let draw_w : Int := (Dbl.mulInt video_w.toNat scale).toInt
    let draw_h : Int := (Dbl.mulInt video_h.toNat scale).toInt
    let x : Int := Int.tdiv (WINDOW_W - draw_w) 2
    let y : Int := Int.tdiv (WINDOW_H - draw_h) 2
    { x := x, y := y, w := draw_w, h := draw_h }
  else { x := 0, y := 0, w := 0, h := 0 }

/-- The letterbox rectangle the specification describes: an integer scale
`min(1280 / video_w, 720 / video_h)` got with integer division, the video scaled
by it, centred. -/
def integerScaleRect (video_w video_h : Int) : SDL_Rect :=
  let scale : Int := min (WINDOW_W / video_w) (WINDOW_H / video_h)
  { x := (WINDOW_W - video_w * scale) / 2, y := (WINDOW_H - video_h * scale) / 2,
    w := video_w * scale, h := video_h * scale }

/-- A decoded video frame as the output sees it: its `pts`, and a number
standing for the picture. -/
structure VideoFrame where
  pts : Int
  id : Nat
deriving DecidableEq, Repr

/-- Modelled from the spec: the method `Front` of `AVFrameQueue` (its .cpp file is
not among the sources): "front() — peek without removal; return { item-ref,
empty, aborted }": the item of the wrapped queue's `Front` when that returns 0,
else `nullptr`. -/
def AVQueueFront {T : Type} (q : Queue T) : Option T :=
  match q.queue_ with
  | [] => none
  | x :: _ =>
    let r := q.Front x
    if r.1 = 0 then some r.2.1 else none

/-- The members of a `VideoOutput` that `videoRefresh` reads: the pause flag, the
video size and `av_q2d(time_base_)`. -/
structure VideoOutput where
  paused_ : Bool
  video_width_ : Int
  video_height_ : Int
  time_base_ : ℚ
deriving DecidableEq, Repr

/-- What `videoRefresh` does to the screen and to frames, in order. -/
inductive RenderCall where
  | SDL_UpdateYUVTexture (frame : VideoFrame)
  | SDL_SetRenderDrawColor
  | SDL_RenderClear
  | SDL_RenderCopy (rect : SDL_Rect)
  | SDL_RenderPresent
  | av_frame_free (frame : VideoFrame)
deriving DecidableEq, Repr

/-- The outcome of one `videoRefresh`: the frame queue, the value left in
`remain_time`, and the calls made. -/
structure RefreshResult where
  frame_queue_ : Queue VideoFrame
  remain_time : ℚ
  calls : List RenderCall
deriving DecidableEq, Repr

namespace VideoOutput

/-- Method `VideoOutput::Pause`. -/
def Pause (vo : VideoOutput) : VideoOutput := { vo with paused_ := true }

/-- Method `VideoOutput::Resume`. -/
def Resume (vo : VideoOutput) : VideoOutput := { vo with paused_ := false }

/-- Method `VideoOutput::isPaused`. -/
def isPaused (vo : VideoOutput) : Bool := vo.paused_

/-- Method `VideoOutput::videoRefresh(remain_time)` on the frame queue `q`, with
the master clock `clock` read at monotonic time `us`. -/
def videoRefresh (vo : VideoOutput) (q : Queue VideoFrame) (clock : AVSync) (us : Int)
    (_remain_time : ℚ) : RefreshResult :=
  if vo.paused_ then { frame_queue_ := q, remain_time := REFRESH_RATE, calls := [] }
  else
    match AVQueueFront q with
    | none => { frame_queue_ := q, remain_time := REFRESH_RATE, calls := [] }
    | some frame =>
      let pts : ℚ := (frame.pts : ℚ) * vo.time_base_
      let diff : ℚ := pts - (clock.GetClock us).1
      if diff > 0 then
        { frame_queue_ := q
          remain_time := if diff > REFRESH_RATE then REFRESH_RATE else diff
          calls := [] }
      else
        let rect := CalcLetterBoxRect vo.video_width_ vo.video_height_
        let p := AVQueuePop q 1
        { frame_queue_ := p.2
          remain_time := 0
          calls :=
            [.SDL_UpdateYUVTexture frame, .SDL_SetRenderDrawColor, .SDL_RenderClear,
             .SDL_RenderCopy rect, .SDL_RenderPresent]
            ++ (match p.1 with
                | some popped => [.av_frame_free popped]
                | none => []) }

/-- The sleep of one pass of the loop in `RefreshLoopWaitEvent`, in
milliseconds: `int64_t(remain_time * 1000)` when `remain_time > 0`, else none. -/
def sleepMillis (remain_time : ℚ) : Int :=
  if remain_time > 0 then truncToInt (remain_time * 1000) else 0

end VideoOutput

end AVPlayer

namespace AVPlayer

/-! ## `DecodeThread::Run` (src/Windows/code/decodethread.cpp) -/

/-- What the codec does with one submitted packet: whether
`avcodec_send_packet` accepts it; the frames `avcodec_receive_frame` then
returns with 0, in order (numbers stand for the frames); and whether the
first other value it returns is `AVERROR(EAGAIN)` (more input needed) rather
than an error. -/
structure CodecReply where
  send_ok : Bool
  frames : List Nat
  need_input : Bool
deriving DecidableEq, Repr

/-- The behaviour of a codec: its reply to the last packet of the list of all
packets submitted so far. -/
abbrev Codec := List Packet → CodecReply

/-- The inner loop of `Run` on the frames the codec returns: each is passed to
`frame_queue_->Push`. -/
def pushFrames (q : Queue Nat) : List Nat → Queue Nat
  | [] => q
  | frame :: rest => pushFrames (AVQueuePush q frame).2 rest

/-- A decoder worker at work: the `abort_` flag of `Thread`, whether the loop of
`Run` is still going, whether the worker is blocked inside
`controller_->WaitIfPaused()`, its two queues, and the log: packets passed to
`avcodec_send_packet` and frames passed to `frame_queue_->Push`, each in
order. -/
structure DecodeSys where
  abort_ : Int
  running : Bool
  waiting : Bool
  packet_queue_ : Queue Packet
  frame_queue_ : Queue Nat
  sent : List Packet
  pushed : List Nat
deriving DecidableEq, Repr

namespace DecodeSys

/-- The start: a running worker with empty running queues. -/
def init : DecodeSys :=
  { abort_ := 0, running := true, waiting := false, packet_queue_ := Queue.new,
    frame_queue_ := Queue.new, sent := [], pushed := [] }

/-- The rest of a pass of the loop of `DecodeThread::Run`, from the test of
`frame_queue_->Size()` on. The loop ends when `avcodec_send_packet` fails; a
receive error sets `abort_`. -/
def body (codec : Codec) (s : DecodeSys) : DecodeSys :=
  if AVQueueSize s.frame_queue_ > 10 then s
  else
    let p := AVQueuePop s.packet_queue_ 10
    match p.1 with
    | none => { s with packet_queue_ := p.2 }
    | some packet =>
      let s1 := { s with packet_queue_ := p.2, sent := s.sent ++ [packet] }
      let r := codec s1.sent
      if !r.send_ok then { s1 with running := false }
      else
        let s2 := { s1 with frame_queue_ := pushFrames s1.frame_queue_ r.frames
                            pushed := s1.pushed ++ r.frames }
        if r.need_input then s2 else { s2 with abort_ := 1 }

/-- One turn of the worker in the outer loop of `DecodeThread::Run`; `paused`
and `started` are what the controller's flags read. A worker that is not
blocked leaves the loop when `abort_` is 1; it blocks in `WaitIfPaused` while
`paused && started`; a worker that blocked goes on with the rest of the pass
once released, without a new test of `abort_`. -/
def iterate (codec : Codec) (s : DecodeSys) (paused started : Bool) : DecodeSys :=
  if !s.running then s
  else if s.waiting then
    if paused && started then s else body codec { s with waiting := false }
  else if s.abort_ = 1 then { s with running := false }
  else if paused && started then { s with waiting := true }
  else body codec s

/-- The steps of the system: a pass of the worker, a `Push` of a packet by the
demuxer, a `Pop` of a frame by the output, and `Thread::Stop` setting `abort_`. -/
inductive Step where
  | decodeIter (paused started : Bool)
  | packetPush (packet : Packet)
  | framePop (timeout : Int)
  | stop
deriving DecidableEq, Repr

/-- The system after one step. -/
def step (codec : Codec) (s : DecodeSys) : Step → DecodeSys
  | .decodeIter paused started => s.iterate codec paused started
  | .packetPush packet => { s with packet_queue_ := (AVQueuePush s.packet_queue_ packet).2 }
  | .framePop t => { s with frame_queue_ := (AVQueuePop s.frame_queue_ t).2 }
  | .stop => { s with abort_ := 1 }

/-- The system after a sequence of steps. -/
def run (codec : Codec) (s : DecodeSys) (steps : List Step) : DecodeSys :=
  steps.foldl (step codec) s

/-- What the output receives at one step: the frame its `Pop` on the frame
queue hands over, when the step is such a `Pop` and it returns one. -/
def framesGot (s : DecodeSys) : Step → List Nat
  | .framePop t => (AVQueuePop s.frame_queue_ t).1.toList
  | _ => []

/-- The frames the output receives from the frame queue during the steps, in
order. -/
def framesTaken (codec : Codec) (s : DecodeSys) : List Step → List Nat
  | [] => []
  | st :: rest => s.framesGot st ++ framesTaken codec (s.step codec st) rest

/-- The packet the demuxer passes to the packet queue's `Push` at one step. -/
def packetOffered : Step → List Packet
  | .packetPush packet => [packet]
  | _ => []

/-- The packets the demuxer passes to the packet queue's `Push` during the
steps, in order. -/
def packetsOffered : List Step → List Packet
  | [] => []
  | st :: rest => packetOffered st ++ packetsOffered rest

end DecodeSys

/-- The frames the codec produces for the packets `todo`, submitted in order
after the packets `hist`, up to the first submit or receive error: all frames
of a packet before any of the next, none for a packet that is refused, and
nothing after an error. -/
def producedFrames (codec : Codec) : List Packet → List Packet → List Nat
  | _, [] => []
  | hist, packet :: rest =>
    let r := codec (hist ++ [packet])
    if !r.send_ok then []
    else if r.need_input then r.frames ++ producedFrames codec (hist ++ [packet]) rest
    else r.frames

/-- A submit or receive error occurs among the packets `todo` submitted after
`hist`. -/
def codecFails (codec : Codec) : List Packet → List Packet → Bool
  | _, [] => false
  | hist, packet :: rest =>
    let r := codec (hist ++ [packet])
    if !r.send_ok then true
    else if r.need_input then codecFails codec (hist ++ [packet]) rest
    else true

/-- The invariant of the decoder worker: the frames pushed are the frames the
codec produced for the packets submitted; after a submit or receive error the
loop has ended, or `abort_` is set and the worker is not blocked; both queues
are running. -/
def DecodeSys.Inv (codec : Codec) (s : DecodeSys) : Prop :=
  s.pushed = producedFrames codec [] s.sent ∧
  (codecFails codec [] s.sent = true →
    s.running = false ∨ (s.abort_ = 1 ∧ s.waiting = false)) ∧
  s.packet_queue_.abort_ = 0 ∧ s.frame_queue_.abort_ = 0

end AVPlayer

/-! # Properties -/

namespace AVPlayer

/-! ## Lemmas on the queues -/

section QueueLemmas

variable {T : Type}

lemma Queue.pushAll_running (xs : List T) :
    ∀ q : Queue T, q.abort_ = 0 →
      Queue.pushAll q xs = (List.replicate xs.length 0, { q with queue_ := q.queue_ ++ xs }) := by
  induction xs with
  | nil => intro q _; simp [Queue.pushAll]
  | cons x xs ih =>
    intro q hq
    have hp : q.Push x = (0, { q with queue_ := q.queue_ ++ [x] }) := by
      simp [Queue.Push, hq]
    have h2 := ih { q with queue_ := q.queue_ ++ [x] } hq
    simp [Queue.pushAll, hp, h2, List.replicate_succ]

lemma Queue.popEach_running (val : T) (xs : List T) :
    ∀ (ts : List Int) (q : Queue T), q.abort_ = 0 → q.queue_ = xs → ts.length = xs.length →
      Queue.popEach q val ts = (xs.map (fun x => (0, x)), { q with queue_ := [] }) := by
  induction xs with
  | nil =>
    intro ts q _ hxs hlen
    have hts : ts = [] := List.length_eq_zero.mp (by simpa using hlen)
    subst hts
    cases q
    simp_all [Queue.popEach]
  | cons x xs ih =>
    intro ts q hq hxs hlen
    cases ts with
    | nil => simp at hlen
    | cons t ts =>
      have hp : q.Pop val t = (0, x, { q with queue_ := xs }) := by
        simp [Queue.Pop, hq, hxs]
      have hlen2 : ts.length = xs.length := by simpa using hlen
      simp [Queue.popEach, hp, ih ts { q with queue_ := xs } hq rfl hlen2]

lemma Queue.applyOp_aborted (q : Queue T) (op : Queue.Op T) (h : q.abort_ = 1) :
    (q.applyOp op).abort_ = 1 ∧ (q.applyOp op).queue_ = q.queue_ := by
  cases op <;> simp [Queue.applyOp, Queue.Abort, Queue.Push, Queue.Pop, Queue.Front, h]

lemma Queue.run_aborted (ops : List (Queue.Op T)) :
    ∀ q : Queue T, q.abort_ = 1 →
      (Queue.run q ops).abort_ = 1 ∧ (Queue.run q ops).queue_ = q.queue_ := by
  induction ops with
  | nil => intro q h; exact ⟨h, rfl⟩
  | cons op ops ih =>
    intro q h
    have h1 := Queue.applyOp_aborted q op h
    have h2 := ih (q.applyOp op) h1.1
    simp only [Queue.run, List.foldl_cons] at h2 ⊢
    exact ⟨h2.1, h2.2.trans h1.2⟩

lemma PacketQueue.pkt_pushAll_running (pkts : List T) :
    ∀ q : PacketQueue T, q.abort_request = false →
      PacketQueue.pushAll q pkts = { q with queue := q.queue ++ pkts } := by
  induction pkts with
  | nil => intro q _; simp [PacketQueue.pushAll]
  | cons x xs ih =>
    intro q hq
    have hp : q.push x = { q with queue := q.queue ++ [x] } := by
      simp [PacketQueue.push, hq]
    have := ih (q.push x) (by simp [hp, hq])
    simp only [PacketQueue.pushAll, List.foldl_cons] at this ⊢
    rw [this, hp]
    simp

lemma PacketQueue.pkt_popN_running (pkts : List T) :
    ∀ q : PacketQueue T, q.abort_request = false → q.queue = pkts →
      PacketQueue.popN q pkts.length = some (pkts.map some, { q with queue := [] }) := by
  induction pkts with
  | nil =>
    intro q _ hq
    cases q
    simp_all [PacketQueue.popN]
  | cons x xs ih =>
    intro q ha hq
    have hp : q.pop = some (some x, { q with queue := xs }) := by
      simp [PacketQueue.pop, ha, hq]
    simp [PacketQueue.popN, hp, ih { q with queue := xs } ha rfl]

lemma PacketQueue.pkt_applyOp_aborted (q : PacketQueue T) (op : PacketQueue.Op T)
    (h : q.abort_request = true) : (q.applyOp op).abort_request = true := by
  cases op <;>
    simp [PacketQueue.applyOp, PacketQueue.push, PacketQueue.pop, PacketQueue.clear,
      PacketQueue.abort, h]

lemma PacketQueue.pkt_run_aborted (ops : List (PacketQueue.Op T)) :
    ∀ q : PacketQueue T, q.abort_request = true →
      (PacketQueue.run q ops).abort_request = true := by
  induction ops with
  | nil => intro q h; exact h
  | cons op ops ih =>
    intro q h
    have h2 := ih (q.applyOp op) (PacketQueue.pkt_applyOp_aborted q op h)
    simpa only [PacketQueue.run, List.foldl_cons] using h2

lemma PacketQueue.pkt_clearLoop_eq (pkts : List T) : PacketQueue.clearLoop pkts = pkts := by
  induction pkts with
  | nil => rfl
  | cons x xs ih => simp [PacketQueue.clearLoop, ih]

end QueueLemmas

/-! ## The queue claims -/

section QueueClaims

variable {T : Type}

/-- C1 (queue FIFO). Items `xs` pushed with `Push` onto a fresh `Queue<T>` are
all accepted (status 0), and the `xs.length` calls of `Pop` that follow (with any
timeouts `ts`) each return status 0 and deliver the items of `xs` in push
order, leaving the queue empty and not aborted. The Android `PacketQueue` does
likewise: its pops all return, with the pushed packets in push order. -/
theorem C1_queue_fifo (xs : List T) (val : T) (ts : List Int)
    (hlen : ts.length = xs.length) :
    (Queue.pushAll Queue.new xs).1 = List.replicate xs.length 0 ∧
    Queue.popEach (Queue.pushAll Queue.new xs).2 val ts
      = (xs.map (fun x => ((0 : Int), x)), Queue.new) ∧
    PacketQueue.popN (PacketQueue.pushAll PacketQueue.new xs) xs.length
      = some (xs.map some, PacketQueue.new) := by
  have h1 := Queue.pushAll_running xs (Queue.new : Queue T) rfl
  refine ⟨by rw [h1], ?_, ?_⟩
  · rw [h1]
    have := Queue.popEach_running val xs ts
      ({ (Queue.new : Queue T) with queue_ := (Queue.new : Queue T).queue_ ++ xs })
      rfl (by simp [Queue.new]) hlen
    simpa [Queue.new] using this
  · rw [PacketQueue.pkt_pushAll_running xs (PacketQueue.new : PacketQueue T) rfl]
    have := PacketQueue.pkt_popN_running xs
      ({ (PacketQueue.new : PacketQueue T) with
          queue := (PacketQueue.new : PacketQueue T).queue ++ xs })
      rfl (by simp [PacketQueue.new])
    simpa [PacketQueue.new] using this

/-- Witness of C1: three items, three pops with different timeouts. -/
theorem C1_queue_fifo_witness :
    (Queue.pushAll Queue.new [7, 8, 9]).1 = List.replicate 3 0 ∧
    Queue.popEach (Queue.pushAll Queue.new [7, 8, 9]).2 0 [0, 10, 2]
      = ([(0, 7), (0, 8), (0, 9)], Queue.new) ∧
    PacketQueue.popN (PacketQueue.pushAll PacketQueue.new [7, 8, 9]) 3
      = some ([some 7, some 8, some 9], PacketQueue.new) :=
  C1_queue_fifo [7, 8, 9] 0 [0, 10, 2] rfl

/-- C2 (aborted queue is inert). In the state `q` reached from any queue `q0` by
`Abort` followed by any calls `ops`, the flag is still set and the held items
are those held at the abort; every `Push` returns -1 and every `Pop` returns -1,
delivers nothing (`val` keeps its content) and both leave `q` as it is. On the
Android `PacketQueue`, after `abort` and any calls, `push` changes nothing and
`pop` returns `nullptr` without removing anything. -/
theorem C2_aborted_queue_inert (q0 : Queue T) (ops : List (Queue.Op T)) (v val : T)
    (t : Int) (p0 : PacketQueue T) (pops : List (PacketQueue.Op T)) (pkt : T) :
    (Queue.run q0.Abort ops).abort_ = 1 ∧
    (Queue.run q0.Abort ops).queue_ = q0.queue_ ∧
    (Queue.run q0.Abort ops).Push v = (-1, Queue.run q0.Abort ops) ∧
    (Queue.run q0.Abort ops).Pop val t = (-1, val, Queue.run q0.Abort ops) ∧
    (PacketQueue.run p0.abort pops).push pkt = PacketQueue.run p0.abort pops ∧
    (PacketQueue.run p0.abort pops).pop = some (none, PacketQueue.run p0.abort pops) := by
  have h := Queue.run_aborted ops q0.Abort rfl
  have hp := PacketQueue.pkt_run_aborted pops p0.abort rfl
  refine ⟨h.1, h.2, ?_, ?_, ?_, ?_⟩
  · simp [Queue.Push, h.1]
  · simp [Queue.Pop, h.1]
  · simp [PacketQueue.push, hp]
  · simp [PacketQueue.pop, hp]

/-- C3, as stated, fails: after one `Push` and `Abort` the queue still holds the
item (`Size()` is 1, not 0); likewise the Android queue after `push`, `abort`. -/
theorem C3_abort_keeps_items_counterexample :
    (Queue.Abort (Queue.Push (Queue.new : Queue Nat) 7).2).Size = 1 ∧
    (Queue.Abort (Queue.Push (Queue.new : Queue Nat) 7).2).Size ≠ 0 ∧
    (PacketQueue.abort (PacketQueue.push (PacketQueue.new : PacketQueue Nat) 7)).isEmpty
      = false := by
  decide

/-- C3, amended (abort sets the flag, irreversibly, and releases nothing).
`Queue::Abort` sets `abort_` and leaves the held items in the queue (`Size()` is as
before); after it no sequence of `Push`, `Pop`, `Front`, `Size`, `Abort` clears
the flag. The Android `abort` likewise keeps the items and stays set; there the
separate `clear` empties the queue, freeing the held packets head first. -/
theorem C3_abort_sets_flag_only (q : Queue T) (ops : List (Queue.Op T))
    (p : PacketQueue T) (pops : List (PacketQueue.Op T)) :
    q.Abort.abort_ = 1 ∧
    q.Abort.queue_ = q.queue_ ∧
    q.Abort.Size = q.Size ∧
    (Queue.run q.Abort ops).abort_ = 1 ∧
    p.abort.abort_request = true ∧
    p.abort.queue = p.queue ∧
    (PacketQueue.run p.abort pops).abort_request = true ∧
    p.clear = (p.queue, { queue := [], abort_request := p.abort_request }) := by
  refine ⟨rfl, rfl, rfl, (Queue.run_aborted ops q.Abort rfl).1, rfl, rfl,
    PacketQueue.pkt_run_aborted pops p.abort rfl, ?_⟩
  simp [PacketQueue.clear, PacketQueue.pkt_clearLoop_eq]

/-- C4 (pop ownership). On a queue that is not aborted and not empty, `Pop`
returns 0, delivers the head, and leaves the former contents without the head,
so `Size()` is one less. `Pop` returns 0 only on such a queue. A `Pop` that
returns -2 was made on a non-aborted empty queue and leaves the queue (contents
and flag) and `val` unchanged. -/
theorem C4_pop_ownership (q : Queue T) (val : T) (t : Int) :
    (q.abort_ ≠ 1 → q.queue_ ≠ [] →
      ∃ x rest, q.queue_ = x :: rest ∧
        q.Pop val t = (0, x, { q with queue_ := rest }) ∧
        (q.Pop val t).2.2.Size = q.Size - 1) ∧
    ((q.Pop val t).1 = 0 → q.abort_ ≠ 1 ∧ q.queue_ ≠ []) ∧
    ((q.Pop val t).1 = -2 →
      q.abort_ ≠ 1 ∧ q.queue_ = [] ∧ (q.Pop val t).2.2 = q ∧ (q.Pop val t).2.1 = val) := by
  obtain ⟨a, items⟩ := q
  by_cases ha : a = 1
  · subst ha
    simp [Queue.Pop]
  · have ha2 : ¬ (1 = a) := fun h => ha h.symm
    cases items with
    | nil => simp [Queue.Pop, ha, ha2]
    | cons x rest => simp [Queue.Pop, ha, ha2, Queue.Size]

/-- Witness of C4: a pop on the running queue [1, 2], a timed-out pop on the
running empty queue. -/
theorem C4_pop_ownership_witness :
    (∃ x rest, ({ abort_ := 0, queue_ := [1, 2] } : Queue Nat).queue_ = x :: rest ∧
        ({ abort_ := 0, queue_ := [1, 2] } : Queue Nat).Pop 0 5
          = (0, x, { ({ abort_ := 0, queue_ := [1, 2] } : Queue Nat) with queue_ := rest }) ∧
        (({ abort_ := 0, queue_ := [1, 2] } : Queue Nat).Pop 0 5).2.2.Size
          = ({ abort_ := 0, queue_ := [1, 2] } : Queue Nat).Size - 1) ∧
    (({ abort_ := 0, queue_ := [1, 2] } : Queue Nat).abort_ ≠ 1 ∧
      ({ abort_ := 0, queue_ := [1, 2] } : Queue Nat).queue_ ≠ []) ∧
    ((Queue.new : Queue Nat).abort_ ≠ 1 ∧ (Queue.new : Queue Nat).queue_ = [] ∧
      ((Queue.new : Queue Nat).Pop 0 5).2.2 = Queue.new ∧
      ((Queue.new : Queue Nat).Pop 0 5).2.1 = 0) :=
  ⟨(C4_pop_ownership ({ abort_ := 0, queue_ := [1, 2] } : Queue Nat) 0 5).1
      (by decide) (by decide),
   (C4_pop_ownership ({ abort_ := 0, queue_ := [1, 2] } : Queue Nat) 0 5).2.1 (by decide),
   (C4_pop_ownership (Queue.new : Queue Nat) 0 5).2.2 (by decide)⟩

/-- C5 (front peeks). `Front` never changes the queue (items and flag). On a
non-aborted non-empty queue it returns 0 with the head, the very item the next
`Pop` delivers; on a non-aborted empty queue it returns -2; on an aborted queue
it returns -1; in the last two cases `val` keeps its content. -/
theorem C5_front_peeks (q : Queue T) (val : T) (t : Int) :
    (q.Front val).2.2 = q ∧
    (q.abort_ ≠ 1 → q.queue_ ≠ [] →
      (q.Front val).1 = 0 ∧ (q.Pop val t).1 = 0 ∧
      (q.Front val).2.1 = (q.Pop val t).2.1 ∧ q.queue_.head? = some (q.Front val).2.1) ∧
    (q.abort_ ≠ 1 → q.queue_ = [] → q.Front val = (-2, val, q)) ∧
    (q.abort_ = 1 → q.Front val = (-1, val, q)) := by
  obtain ⟨a, items⟩ := q
  by_cases ha : a = 1
  · subst ha
    simp [Queue.Front]
  · have ha2 : ¬ (1 = a) := fun h => ha h.symm
    cases items with
    | nil => simp [Queue.Front, ha, ha2]
    | cons x rest => simp [Queue.Front, Queue.Pop, ha, ha2]

/-- Witness of C5: the running queue [1, 2], the running empty queue, and the
aborted queue [1, 2]. -/
theorem C5_front_peeks_witness :
    ((({ abort_ := 0, queue_ := [1, 2] } : Queue Nat).Front 0).1 = 0 ∧
      (({ abort_ := 0, queue_ := [1, 2] } : Queue Nat).Pop 0 5).1 = 0 ∧
      (({ abort_ := 0, queue_ := [1, 2] } : Queue Nat).Front 0).2.1
        = (({ abort_ := 0, queue_ := [1, 2] } : Queue Nat).Pop 0 5).2.1 ∧
      ({ abort_ := 0, queue_ := [1, 2] } : Queue Nat).queue_.head?
        = some (({ abort_ := 0, queue_ := [1, 2] } : Queue Nat).Front 0).2.1) ∧
    (Queue.new : Queue Nat).Front 0 = (-2, 0, Queue.new) ∧
    ({ abort_ := 1, queue_ := [1, 2] } : Queue Nat).Front 0
      = (-1, 0, { abort_ := 1, queue_ := [1, 2] }) :=
  ⟨(C5_front_peeks ({ abort_ := 0, queue_ := [1, 2] } : Queue Nat) 0 5).2.1
      (by decide) (by decide),
   (C5_front_peeks (Queue.new : Queue Nat) 0 5).2.2.1 (by decide) rfl,
   (C5_front_peeks ({ abort_ := 1, queue_ := [1, 2] } : Queue Nat) 0 5).2.2.2 rfl⟩

end QueueClaims

end AVPlayer

namespace AVPlayer

/-! ## The master clock -/

/-- C6 (master clock). When `SetClock(p)` is called at monotonic time
`NowSec us` and the drift is not set again, `GetClock` at time `NowSec us1`
returns `p + (NowSec us1 - NowSec us)`, hence `p` at the time of the call itself.
`GetClock` leaves the drift as it is, and two reads at times `NowSec us1` and `NowSec us2`
differ by `NowSec us2 - NowSec us1`. `ResetClock(p)` has the effect of `SetClock(p)`. -/
theorem C6_master_clock (c : AVSync) (p : ℚ) (us us1 us2 : Int) :
    ((c.SetClock p us).GetClock us1).1 = p + (AVSync.NowSec us1 - AVSync.NowSec us) ∧
    ((c.SetClock p us).GetClock us).1 = p ∧
    (c.GetClock us1).2 = c ∧
    ((c.GetClock us1).2.GetClock us2).1 - (c.GetClock us1).1
      = AVSync.NowSec us2 - AVSync.NowSec us1 ∧
    c.ResetClock p us = c.SetClock p us := by
  refine ⟨?_, ?_, rfl, ?_, rfl⟩
  · simp only [AVSync.GetClock, AVSync.SetClock]; ring
  · simp only [AVSync.GetClock, AVSync.SetClock]; ring
  · simp only [AVSync.GetClock]; ring

/-! ## Lemmas on `SetSpeed` -/

lemma F32.eq_true_imp {a b : F32} (h : F32.eq a b = true) : a = b := by
  cases a <;> cases b <;> simp_all [F32.eq]

lemma F32.eq_self {a : F32} (h : a ≠ F32.nan) : F32.eq a a = true := by
  cases a <;> simp_all [F32.eq]

lemma AudioOutput.destroyGraph_speed (a : AudioOutput) :
    (a.destroyGraph).1.speed_ = a.speed_ := by
  unfold AudioOutput.destroyGraph
  split <;> rfl

lemma AudioOutput.rebuildGraph_speed (a : AudioOutput) (ext : Rebuild) :
    (a.rebuildGraph ext).1.speed_ = a.speed_ := by
  cases ext <;> rfl

/-- The speed after `SetSpeed(s)` is `s` raised to 0.5 when below it, whether or
not the graph is rebuilt and whatever libavfilter does. -/
lemma AudioOutput.SetSpeed_speed (a : AudioOutput) (s : F32) (ext : Rebuild) :
    (a.SetSpeed s ext).1.speed_ = (if F32.lt s F32.half then F32.half else s) := by
  unfold AudioOutput.SetSpeed
  simp only
  generalize (if F32.lt s F32.half then F32.half else s) = s1
  by_cases h : F32.eq s1 a.speed_ = true
  · rw [if_pos h]
    exact (F32.eq_true_imp h).symm
  · rw [if_neg h, AudioOutput.rebuildGraph_speed, AudioOutput.destroyGraph_speed]

/-! ## The speed claims -/

/-- C7 (speed clamp), evaluated at 2.0: `SetSpeed` has no upper clamp. After
`SetSpeed(2.0f)` on any `AudioOutput`, `GetSpeed()` is 2.0, not the clamped value
1.0, and on a freshly constructed output the graph is rebuilt with tempo 2.0.
The lower clamp is there: after `SetSpeed(0.1f)` the speed is 0.5. -/
theorem C7_setSpeed_no_upper_clamp (a : AudioOutput) (ext : Rebuild)
    (src dst0 : AudioParams) :
    (a.SetSpeed (.fin 2) ext).1.GetSpeed = .fin 2 ∧
    F32.clamp (.fin 2) = F32.one ∧
    (a.SetSpeed (.fin 2) ext).1.GetSpeed ≠ F32.clamp (.fin 2) ∧
    ((AudioOutput.new src dst0).SetSpeed (.fin 2) .ok).1.filter_graph_
      = some { tempo := .fin 2 } ∧
    Call.create_atempo (.fin 2) ∈ ((AudioOutput.new src dst0).SetSpeed (.fin 2) .ok).2 ∧
    (a.SetSpeed (.fin (13421773 / 134217728)) ext).1.GetSpeed = F32.half := by
  have h2 : (a.SetSpeed (.fin 2) ext).1.GetSpeed = .fin 2 := by
    unfold AudioOutput.GetSpeed
    rw [AudioOutput.SetSpeed_speed]
    norm_num [F32.lt, F32.half]
  have hc : F32.clamp (.fin 2) = F32.one := by
    norm_num [F32.clamp, F32.lt, F32.half, F32.one]
  refine ⟨h2, hc, ?_, ?_, ?_, ?_⟩
  · rw [h2, hc]; norm_num [F32.one]
  · norm_num [AudioOutput.SetSpeed, AudioOutput.new, AudioOutput.destroyGraph,
      AudioOutput.rebuildGraph, F32.lt, F32.eq, F32.half, F32.one]
  · norm_num [AudioOutput.SetSpeed, AudioOutput.new, AudioOutput.destroyGraph,
      AudioOutput.rebuildGraph, F32.lt, F32.eq, F32.half, F32.one]
  · unfold AudioOutput.GetSpeed
    rw [AudioOutput.SetSpeed_speed]
    norm_num [F32.lt, F32.half]

end AVPlayer

namespace AVPlayer

/-- C9, as stated, fails at NaN: `NaN == NaN` is false, so the second
`SetSpeed(NaN)` goes through the rebuild again (here `atempo` rejects the
tempo both times) and makes library calls. -/
theorem C9_setSpeed_nan_counterexample :
    ((((AudioOutput.new ⟨48000, 2, 8⟩ ⟨0, 0, 0⟩).InitOk ⟨true, true, true, true⟩).SetSpeed
        F32.nan .atempoFails).1.SetSpeed F32.nan .atempoFails).2
      = [Call.SDL_PauseAudio 1, Call.avfilter_graph_alloc, Call.create_abuffer,
         Call.create_atempo F32.nan, Call.avfilter_graph_free, Call.SDL_PauseAudio 0] ∧
    ((((AudioOutput.new ⟨48000, 2, 8⟩ ⟨0, 0, 0⟩).InitOk ⟨true, true, true, true⟩).SetSpeed
        F32.nan .atempoFails).1.SetSpeed F32.nan .atempoFails).2 ≠ [] := by
  constructor <;>
    simp [AudioOutput.SetSpeed, AudioOutput.new, AudioOutput.InitOk, AudioOutput.destroyGraph,
      AudioOutput.rebuildGraph, AudioOutput.failExit, F32.lt, F32.eq, F32.half, F32.one]

/-- C9, amended (speed change idempotence for every float but NaN). For every
`AudioOutput` state, every float `s` other than NaN, and whatever libavfilter
does, a second `SetSpeed(s)` right after the first returns at the speed
comparison: it leaves the whole state (speed, graph, buffer cursor, resampler,
device) as the first call left it and makes no library call. -/
theorem C9_setSpeed_idempotent (a : AudioOutput) (s : F32) (ext1 ext2 : Rebuild)
    (hs : s ≠ F32.nan) :
    (a.SetSpeed s ext1).1.SetSpeed s ext2 = ((a.SetSpeed s ext1).1, []) := by
  have hsp := AudioOutput.SetSpeed_speed a s ext1
  have hne : (if F32.lt s F32.half then F32.half else s) ≠ F32.nan := by
    split
    · simp [F32.half]
    · exact hs
  generalize a.SetSpeed s ext1 = r at hsp ⊢
  unfold AudioOutput.SetSpeed
  simp only
  rw [hsp, if_pos (F32.eq_self hne)]

/-- Witness of C9: `SetSpeed(0.5f)` twice on a freshly initialised output. -/
theorem C9_setSpeed_idempotent_witness :
    F32.half ≠ F32.nan ∧
    ((((AudioOutput.new ⟨48000, 2, 8⟩ ⟨0, 0, 0⟩).InitOk ⟨true, true, true, true⟩).SetSpeed
        F32.half .ok).1.SetSpeed F32.half .ok)
      = ((((AudioOutput.new ⟨48000, 2, 8⟩ ⟨0, 0, 0⟩).InitOk ⟨true, true, true, true⟩).SetSpeed
        F32.half .ok).1, []) :=
  ⟨by simp [F32.half],
   C9_setSpeed_idempotent _ F32.half .ok .ok (by simp [F32.half])⟩

/-! ## The controller claims -/

lemma MainController.step_speed (c : MainController) (a : MainController.Action) :
    (c.step a).speed_ = match a with
      | .setSpeed s _ => s
      | _ => c.speed_ := by
  cases a with
  | start => simp only [MainController.step, MainController.start]; split <;> rfl
  | pause => simp only [MainController.step, MainController.pause]; split <;> rfl
  | resume => simp only [MainController.step, MainController.resume]; split <;> rfl
  | setSpeed s ext =>
    simp only [MainController.step, MainController.setSpeed]
    split <;> rfl
  | stop =>
    simp only [MainController.step, MainController.stop, MainController.StopAndClean]
    split <;> rfl
  | playThreadInit r us dst0 src g =>
    simp only [MainController.step, MainController.playThreadInit, MainController.InitAll]
    repeat (first | rfl | split)
  | mainLoopReturns =>
    simp only [MainController.step, MainController.mainLoopReturns, MainController.stop,
      MainController.StopAndClean]
    repeat (first | rfl | split)

lemma MainController.run_inRange (as : List MainController.Action) :
    ∀ c : MainController, F32.inRange c.speed_ → MainController.speedsInRange as →
      F32.inRange (MainController.run c as).speed_ := by
  induction as with
  | nil => intro c h _; exact h
  | cons a as ih =>
    intro c hc has
    have hs := MainController.step_speed c a
    have : F32.inRange (c.step a).speed_ ∧ MainController.speedsInRange as := by
      cases a <;> simp_all [MainController.speedsInRange]
    simpa only [MainController.run, List.foldl_cons] using ih (c.step a) this.1 this.2

/-- C8, as stated, fails: `setSpeed(0.25f)` on a new controller leaves
`getSpeed()` at 0.25, below 0.5. -/
theorem C8_controller_speed_counterexample :
    (MainController.run (MainController.new ⟨0⟩)
        [.setSpeed (.fin (1 / 4)) .ok]).getSpeed = .fin (1 / 4) ∧
    ¬ F32.inRange (MainController.run (MainController.new ⟨0⟩)
        [.setSpeed (.fin (1 / 4)) .ok]).getSpeed := by
  have h : (MainController.run (MainController.new ⟨0⟩)
      [.setSpeed (.fin (1 / 4)) .ok]).getSpeed = .fin (1 / 4) := rfl
  refine ⟨h, ?_⟩
  rw [h]
  norm_num [F32.inRange]

/-- C8, amended (controller speed stays in range when the arguments are). The
controller stores the argument of `setSpeed` as given: `getSpeed()` right after
`setSpeed(s)` is `s`. So in every state reached from a new controller by any
sequence of events (commands and play-thread steps) whose `setSpeed` arguments
all lie in [0.5, 1.0], `getSpeed()` lies in [0.5, 1.0]. -/
theorem C8_controller_speed_in_range (clock0 : AVSync)
    (as : List MainController.Action) (h : MainController.speedsInRange as) :
    F32.inRange (MainController.run (MainController.new clock0) as).getSpeed ∧
    ∀ (c : MainController) (s : F32) (ext : Rebuild), (c.setSpeed s ext).getSpeed = s := by
  refine ⟨MainController.run_inRange as _ ?_ h, ?_⟩
  · norm_num [MainController.new, F32.one, F32.inRange]
  · intro c s ext
    exact MainController.step_speed c (.setSpeed s ext)

/-- Witness of C8: start, slow down to 0.5, pause, resume, back to 1.0, stop. -/
theorem C8_controller_speed_in_range_witness :
    MainController.speedsInRange
      [.start, .setSpeed F32.half .ok, .pause, .resume, .setSpeed F32.one .ok, .stop] ∧
    F32.inRange (MainController.run (MainController.new ⟨0⟩)
      [.start, .setSpeed F32.half .ok, .pause, .resume, .setSpeed F32.one .ok,
       .stop]).getSpeed :=
  ⟨by norm_num [MainController.speedsInRange, F32.inRange, F32.half, F32.one],
   (C8_controller_speed_in_range ⟨0⟩
      [.start, .setSpeed F32.half .ok, .pause, .resume, .setSpeed F32.one .ok, .stop]
      (by norm_num [MainController.speedsInRange, F32.inRange, F32.half, F32.one])).1⟩

/-- C10 (paused implies started), evaluated on `start(); pause();` followed by a
failure of `InitAll` or `StartAllThreads` in the play thread: whichever step fails,
the failure path resets `started` only, so a new controller ends up paused and
not started. With the file that cannot be opened: `isPaused()` is true and
`isStarted()` is false. -/
theorem C10_paused_not_started_after_failed_init (clock0 : AVSync) (r : InitResult)
    (us : Int) (dst0 src : AudioParams) (g : GraphBuilt) :
    (r = .ok ∨
      ((MainController.run (MainController.new clock0)
          [.start, .pause, .playThreadInit r us dst0 src g]).isPaused = true ∧
       (MainController.run (MainController.new clock0)
          [.start, .pause, .playThreadInit r us dst0 src g]).isStarted = false)) ∧
    (MainController.run (MainController.new ⟨0⟩)
      [.start, .pause,
       .playThreadInit .demuxInitFails 0 ⟨0, 0, 0⟩ ⟨0, 0, 0⟩
         ⟨false, false, false, false⟩]).isPaused = true ∧
    (MainController.run (MainController.new ⟨0⟩)
      [.start, .pause,
       .playThreadInit .demuxInitFails 0 ⟨0, 0, 0⟩ ⟨0, 0, 0⟩
         ⟨false, false, false, false⟩]).isStarted = false := by
  refine ⟨?_, rfl, rfl⟩
  cases r
  case ok => exact Or.inl rfl
  all_goals exact Or.inr ⟨rfl, rfl⟩

end AVPlayer

namespace AVPlayer

/-! ## The controller's life cycle -/

lemma MainController.InitAll_started (c : MainController) (r : InitResult) (us : Int)
    (dst0 src : AudioParams) (g : GraphBuilt) :
    (c.InitAll r us dst0 src g).started = c.started := by
  unfold MainController.InitAll
  repeat (first | rfl | split)

lemma MainController.StopAndClean_started (c : MainController) :
    c.StopAndClean.started = false := by
  unfold MainController.StopAndClean
  split
  · next h => simpa using h
  · rfl

/-- C11, as stated, fails: on one object `started` goes false, true (start),
false (stop), and true again at the next `start()`; likewise after a start
whose initialisation failed. -/
theorem C11_restart_counterexample :
    (MainController.new ⟨0⟩).isStarted = false ∧
    (MainController.run (MainController.new ⟨0⟩) [.start]).isStarted = true ∧
    (MainController.run (MainController.new ⟨0⟩) [.start, .stop]).isStarted = false ∧
    (MainController.run (MainController.new ⟨0⟩) [.start, .stop, .start]).isStarted = true ∧
    (MainController.run (MainController.new ⟨0⟩)
      [.start,
       .playThreadInit .demuxInitFails 0 ⟨0, 0, 0⟩ ⟨0, 0, 0⟩ ⟨false, false, false, false⟩]
      ).isStarted = false ∧
    (MainController.run (MainController.new ⟨0⟩)
      [.start,
       .playThreadInit .demuxInitFails 0 ⟨0, 0, 0⟩ ⟨0, 0, 0⟩ ⟨false, false, false, false⟩,
       .start]).isStarted = true := by
  refine ⟨rfl, rfl, rfl, rfl, rfl, rfl⟩

/-- C11, amended (the transitions of `started`; no latch). In every controller
state `start()` leaves `started` true, also right after a `stop()`, which leaves
it false: nothing keeps a stopped controller from being started again. An
event that takes `started` from false to true is `start`; one that takes it
from true to false is `stop`, the end of the main loop, or a failed
initialisation in the play thread. -/
theorem C11_started_transitions (c : MainController) (a : MainController.Action) :
    c.start.isStarted = true ∧
    c.stop.isStarted = false ∧
    c.stop.start.isStarted = true ∧
    (c.isStarted = false → (c.step a).isStarted = true → a = .start) ∧
    (c.isStarted = true → (c.step a).isStarted = false →
      a = .stop ∨ a = .mainLoopReturns ∨
      ∃ r us dst0 src g, r ≠ InitResult.ok ∧ a = .playThreadInit r us dst0 src g) := by
  have hstart : ∀ c : MainController, c.start.isStarted = true := by
    intro c
    unfold MainController.start MainController.isStarted
    split
    · next h => exact h
    · rfl
  refine ⟨hstart c, MainController.StopAndClean_started c, hstart _, ?_, ?_⟩
  · intro h0 h1
    simp only [MainController.isStarted] at h0 h1
    cases a with
    | start => rfl
    | pause => simp [MainController.step, MainController.pause, h0] at h1
    | resume => simp [MainController.step, MainController.resume, h0] at h1
    | setSpeed s ext =>
      simp only [MainController.step, MainController.setSpeed] at h1
      split at h1 <;> simp [h0] at h1
    | stop =>
      simp [MainController.step, MainController.stop, MainController.StopAndClean, h0] at h1
    | playThreadInit r us dst0 src g =>
      simp only [MainController.step, MainController.playThreadInit] at h1
      split at h1
      · simp [h0] at h1
      · split at h1
        · simp [MainController.InitAll_started, h0] at h1
        · simp at h1
    | mainLoopReturns =>
      simp only [MainController.step, MainController.mainLoopReturns] at h1
      split at h1
      · simp [h0] at h1
      · simp [MainController.stop, MainController.StopAndClean_started] at h1
  · intro h0 h1
    simp only [MainController.isStarted] at h0 h1
    cases a with
    | start => simp [MainController.step, MainController.start, h0] at h1
    | pause => simp [MainController.step, MainController.pause, h0] at h1
    | resume => simp [MainController.step, MainController.resume, h0] at h1
    | setSpeed s ext =>
      simp only [MainController.step, MainController.setSpeed] at h1
      split at h1 <;> simp [h0] at h1
    | stop => exact Or.inl rfl
    | mainLoopReturns => exact Or.inr (Or.inl rfl)
    | playThreadInit r us dst0 src g =>
      refine Or.inr (Or.inr ⟨r, us, dst0, src, g, ?_, rfl⟩)
      intro hr
      subst hr
      simp only [MainController.step, MainController.playThreadInit] at h1
      split at h1
      · simp [h0] at h1
      · simp [MainController.InitAll_started, h0] at h1

/-- Witness of C11: `start` on a new controller, `stop` on a started one. -/
theorem C11_started_transitions_witness :
    MainController.Action.start = MainController.Action.start ∧
    (MainController.Action.stop = MainController.Action.stop ∨
      MainController.Action.stop = MainController.Action.mainLoopReturns ∨
      ∃ r us dst0 src g, r ≠ InitResult.ok ∧
        MainController.Action.stop = .playThreadInit r us dst0 src g) :=
  ⟨(C11_started_transitions (MainController.new ⟨0⟩) .start).2.2.2.1 rfl rfl,
   (C11_started_transitions (MainController.new ⟨0⟩).start .stop).2.2.2.2 rfl rfl⟩

/-- C12, as stated, fails on the state left by `start(); pause();` and a failed
initialisation (not started, paused): `stop()` returns at the started check and
`paused` stays true. -/
theorem C12_stop_keeps_paused_counterexample :
    (MainController.run (MainController.new ⟨0⟩)
      [.start, .pause,
       .playThreadInit .demuxInitFails 0 ⟨0, 0, 0⟩ ⟨0, 0, 0⟩ ⟨false, false, false, false⟩,
       .stop]).isPaused = true ∧
    (MainController.run (MainController.new ⟨0⟩)
      [.start, .pause,
       .playThreadInit .demuxInitFails 0 ⟨0, 0, 0⟩ ⟨0, 0, 0⟩ ⟨false, false, false, false⟩,
       .stop]).isPaused ≠ false := by
  constructor
  · rfl
  · decide

/-- C12, amended (stop idempotence). For every controller state `stop()` leaves
`started = false`; it leaves `paused = false` when the controller was started or
was not paused (on a controller that is not started `stop()` returns at the
started check and changes nothing). A second `stop()` right after the first is
a no-op: the state, with every flag, component and queue, is the same. -/
theorem C12_stop_idempotent (c : MainController) :
    c.stop.isStarted = false ∧
    (c.isStarted = true ∨ c.isPaused = false → c.stop.isPaused = false) ∧
    c.stop.stop = c.stop := by
  have h1 : c.stop.started = false := MainController.StopAndClean_started c
  refine ⟨h1, ?_, ?_⟩
  · intro h
    simp only [MainController.isStarted, MainController.isPaused] at h
    simp only [MainController.stop, MainController.StopAndClean, MainController.isPaused]
    split
    · next hs =>
      rcases h with h | h
      · simp [h] at hs
      · exact h
    · rfl
  · show c.stop.StopAndClean = c.stop
    unfold MainController.StopAndClean
    simp [h1]

/-- Witness of C12: `stop()` on a started and paused controller. -/
theorem C12_stop_idempotent_witness :
    (MainController.run (MainController.new ⟨0⟩) [.start, .pause]).stop.isPaused = false :=
  (C12_stop_idempotent (MainController.run (MainController.new ⟨0⟩) [.start, .pause])).2.1
    (Or.inl rfl)

end AVPlayer

namespace AVPlayer

/-- C13, as stated, fails: right after `start()` returns, `isStarted()` reads true,
whatever the file is; the play thread has not looked at the file yet. -/
theorem C13_started_reads_true_counterexample :
    (MainController.new ⟨0⟩).start.isStarted = true ∧
    (DemuxThread.new.Init
      { url_null := false, alloc_ok := true, open_ret := 0, find_stream_info_ret := 0,
        best_audio := 0, best_video := -1381258232 }).1 = -1 := by
  constructor
  · rfl
  · decide

/-- C13, amended (start with a stream missing). When `av_find_best_stream` finds no
audio or no video stream, `DemuxThread::Init` returns -1. The play thread then
calls `DemuxThread::Init` and nothing else (no `Start` of the demuxer or of a
decoder). On a new controller `isStarted()` is true once `start()` has returned
and false once the play thread has seen `Init` fail; no decoder or output
object has been created by then. -/
theorem C13_start_without_stream (d : DemuxThread) (e : OpenEnv) (clock0 : AVSync)
    (us : Int) (dst0 src : AudioParams) (g : GraphBuilt)
    (h : e.best_audio < 0 ∨ e.best_video < 0) :
    (d.Init e).1 = -1 ∧
    MainController.playThreadCalls .demuxInitFails = [.demux_Init] ∧
    PlayCall.demux_Start ∉ MainController.playThreadCalls .demuxInitFails ∧
    PlayCall.audio_decode_Start ∉ MainController.playThreadCalls .demuxInitFails ∧
    PlayCall.video_decode_Start ∉ MainController.playThreadCalls .demuxInitFails ∧
    (MainController.new clock0).start.isStarted = true ∧
    ((MainController.new clock0).start.playThreadInit .demuxInitFails us dst0 src g).isStarted
      = false ∧
    ((MainController.new clock0).start.playThreadInit .demuxInitFails us dst0 src g)
      = { MainController.new clock0 with demux_thread := true } := by
  refine ⟨?_, rfl, by decide, by decide, by decide, rfl, rfl, rfl⟩
  unfold DemuxThread.Init
  simp only
  split_ifs <;> rfl

/-- Witness of C13: a file with an audio stream 0 and no video stream. -/
theorem C13_start_without_stream_witness :
    (DemuxThread.new.Init
      { url_null := false, alloc_ok := true, open_ret := 0, find_stream_info_ret := 0,
        best_audio := 0, best_video := -1381258232 }).1 = -1 ∧
    ((MainController.new ⟨0⟩).start.playThreadInit .demuxInitFails 0 ⟨0, 0, 0⟩ ⟨0, 0, 0⟩
      ⟨false, false, false, false⟩).isStarted = false :=
  ⟨(C13_start_without_stream DemuxThread.new
      { url_null := false, alloc_ok := true, open_ret := 0, find_stream_info_ret := 0,
        best_audio := 0, best_video := -1381258232 }
      ⟨0⟩ 0 ⟨0, 0, 0⟩ ⟨0, 0, 0⟩ ⟨false, false, false, false⟩ (Or.inr (by decide))).1,
   (C13_start_without_stream DemuxThread.new
      { url_null := false, alloc_ok := true, open_ret := 0, find_stream_info_ret := 0,
        best_audio := 0, best_video := -1381258232 }
      ⟨0⟩ 0 ⟨0, 0, 0⟩ ⟨0, 0, 0⟩ ⟨false, false, false, false⟩ (Or.inr (by decide))).2.2.2.2.2.2.1⟩

/-- C17 (pause pauses the outputs), evaluated: `MainController::pause` sets the
controller's own flag and nothing else, so the outputs are not paused. After
`start()`, a successful initialisation and `pause()`, the controller is paused but
`AudioOutput::isPaused()` is false, and the audio callback on that output (here
with a drained queue, 2048 bytes asked) runs its loop to the end and calls
`SetClock`. -/
theorem C17_pause_leaves_outputs_running (c : MainController) :
    c.pause.audio_output = c.audio_output ∧
    c.pause.video_output = c.video_output ∧
    (MainController.run (MainController.new ⟨0⟩)
      [.start, .playThreadInit .ok 0 ⟨0, 0, 0⟩ ⟨48000, 2, 8⟩ ⟨true, true, true, true⟩,
       .pause]).isPaused = true ∧
    (MainController.run (MainController.new ⟨0⟩)
      [.start, .playThreadInit .ok 0 ⟨0, 0, 0⟩ ⟨48000, 2, 8⟩ ⟨true, true, true, true⟩,
       .pause]).audio_output
      = some ((AudioOutput.new ⟨48000, 2, 8⟩ ⟨0, 0, 0⟩).InitOk ⟨true, true, true, true⟩) ∧
    ((AudioOutput.new ⟨48000, 2, 8⟩ ⟨0, 0, 0⟩).InitOk ⟨true, true, true, true⟩).isPaused
      = false ∧
    (sdl_audio_callback
      ((AudioOutput.new ⟨48000, 2, 8⟩ ⟨0, 0, 0⟩).InitOk ⟨true, true, true, true⟩)
      (1 / 48000) ⟨0⟩ 1000000 [] 2048).exit = .filled ∧
    (sdl_audio_callback
      ((AudioOutput.new ⟨48000, 2, 8⟩ ⟨0, 0, 0⟩).InitOk ⟨true, true, true, true⟩)
      (1 / 48000) ⟨0⟩ 1000000 [] 2048).set_clock = some 0 := by
  refine ⟨?_, ?_, rfl, rfl, rfl, rfl, rfl⟩
  · unfold MainController.pause; split <;> rfl
  · unfold MainController.pause; split <;> rfl

end AVPlayer

namespace AVPlayer

/-! ## The demuxer loop -/

lemma Queue.Push_size_le {T : Type} (q : Queue T) (val : T) :
    (q.Push val).2.Size ≤ q.Size + 1 := by
  unfold Queue.Push Queue.Size
  split <;> simp

lemma AVQueuePop_size_le {T : Type} (q : Queue T) (t : Int) :
    AVQueueSize (AVQueuePop q t).2 ≤ AVQueueSize q := by
  unfold AVQueuePop AVQueueSize
  cases hq : q.queue_ with
  | nil => simp
  | cons x rest =>
    simp only [Queue.Pop, hq]
    split_ifs <;> simp [Queue.Size, hq]

lemma DemuxSys.step_bound (s : DemuxSys) (st : DemuxSys.Step)
    (h : AVQueueSize s.audio_queue_ ≤ 101 ∧ AVQueueSize s.video_queue_ ≤ 101) :
    AVQueueSize (s.step st).audio_queue_ ≤ 101 ∧
    AVQueueSize (s.step st).video_queue_ ≤ 101 := by
  cases st with
  | demuxIter paused =>
    simp only [DemuxSys.step, DemuxSys.iterate]
    split_ifs with h1 h2 h3 h4
    · exact h
    · exact h
    · exact h
    · exact h
    · have h5 := not_or.mp h4
      cases hr : s.reader with
      | nil => exact h
      | cons packet rest =>
        have ha := Queue.Push_size_le s.audio_queue_ packet
        have hv := Queue.Push_size_le s.video_queue_ packet
        simp only [AVQueueSize, AVQueuePush] at h5 h ⊢
        split_ifs
        · exact ⟨by dsimp only; omega, h.2⟩
        · exact ⟨h.1, by dsimp only; omega⟩
        · exact h
  | audioPop t =>
    have := AVQueuePop_size_le s.audio_queue_ t
    exact ⟨by simp only [DemuxSys.step]; omega, h.2⟩
  | videoPop t =>
    have := AVQueuePop_size_le s.video_queue_ t
    exact ⟨h.1, by simp only [DemuxSys.step]; omega⟩
  | stop => exact h

lemma DemuxSys.run_bound (steps : List DemuxSys.Step) :
    ∀ s : DemuxSys,
      AVQueueSize s.audio_queue_ ≤ 101 ∧ AVQueueSize s.video_queue_ ≤ 101 →
      AVQueueSize (s.run steps).audio_queue_ ≤ 101 ∧
      AVQueueSize (s.run steps).video_queue_ ≤ 101 := by
  induction steps with
  | nil => intro s h; exact h
  | cons st steps ih =>
    intro s h
    simpa only [DemuxSys.run, List.foldl_cons] using ih (s.step st) (s.step_bound st h)

/-- C19 (backpressure bound). From empty packet queues, whatever the stream
indices and the packets the reader returns, after any sequence of demuxer
passes, consumer pops and a stop, each packet queue holds at most 101
packets. A demuxer pass that reads a packet found at most 100 packets in both
queues. -/
theorem C19_packet_queue_bound (audio_stream video_stream : Int) (pkts : List Packet)
    (steps : List DemuxSys.Step) :
    AVQueueSize ((DemuxSys.init audio_stream video_stream pkts).run steps).audio_queue_
      ≤ 101 ∧
    AVQueueSize ((DemuxSys.init audio_stream video_stream pkts).run steps).video_queue_
      ≤ 101 ∧
    ∀ (s : DemuxSys) (paused : Bool), (s.iterate paused).read ≠ s.read →
      AVQueueSize s.audio_queue_ ≤ 100 ∧ AVQueueSize s.video_queue_ ≤ 100 := by
  have h := DemuxSys.run_bound steps (DemuxSys.init audio_stream video_stream pkts)
    (by simp [DemuxSys.init, AVQueueSize, Queue.Size, Queue.new])
  refine ⟨h.1, h.2, ?_⟩
  intro s paused hread
  by_contra hcon
  apply hread
  have hgt : AVQueueSize s.audio_queue_ > 100 ∨ AVQueueSize s.video_queue_ > 100 := by
    by_contra hno
    apply hcon
    have := not_or.mp hno
    constructor <;> omega
  unfold DemuxSys.iterate
  split_ifs <;> rfl

/-- Witness of C19: the first pass on a system with one packet to read. -/
theorem C19_packet_queue_bound_witness :
    AVQueueSize (DemuxSys.init 0 1 [⟨0, 7⟩]).audio_queue_ ≤ 100 ∧
    AVQueueSize (DemuxSys.init 0 1 [⟨0, 7⟩]).video_queue_ ≤ 100 :=
  (C19_packet_queue_bound 0 1 [⟨0, 7⟩] []).2.2 (DemuxSys.init 0 1 [⟨0, 7⟩]) false
    (by decide)

end AVPlayer

namespace AVPlayer

lemma DemuxSys.step_routed (a v : Int) (pkts : List Packet) (s : DemuxSys)
    (st : DemuxSys.Step)
    (h : s.demux.audio_stream_ = a ∧ s.demux.video_stream_ = v ∧
      s.read ++ s.reader = pkts ∧
      s.pushed_audio = s.read.filter (fun p => decide (p.stream_index = a)) ∧
      s.pushed_video
        = s.read.filter (fun p => decide (p.stream_index ≠ a ∧ p.stream_index = v)) ∧
      s.released
        = s.read.filter (fun p => decide (p.stream_index ≠ a ∧ p.stream_index ≠ v))) :
    (s.step st).demux.audio_stream_ = a ∧ (s.step st).demux.video_stream_ = v ∧
      (s.step st).read ++ (s.step st).reader = pkts ∧
      (s.step st).pushed_audio
        = (s.step st).read.filter (fun p => decide (p.stream_index = a)) ∧
      (s.step st).pushed_video
        = (s.step st).read.filter
            (fun p => decide (p.stream_index ≠ a ∧ p.stream_index = v)) ∧
      (s.step st).released
        = (s.step st).read.filter
            (fun p => decide (p.stream_index ≠ a ∧ p.stream_index ≠ v)) := by
  obtain ⟨ha, hv, hr, hpa, hpv, hre⟩ := h
  cases st with
  | demuxIter paused =>
    simp only [DemuxSys.step, DemuxSys.iterate]
    split_ifs with h1 h2 h3 h4
    · exact ⟨ha, hv, hr, hpa, hpv, hre⟩
    · exact ⟨ha, hv, hr, hpa, hpv, hre⟩
    · exact ⟨ha, hv, hr, hpa, hpv, hre⟩
    · exact ⟨ha, hv, hr, hpa, hpv, hre⟩
    · cases hrd : s.reader with
      | nil =>
        rw [hrd] at hr
        exact ⟨ha, hv, hr, hpa, hpv, hre⟩
      | cons packet rest =>
        rw [hrd] at hr
        dsimp only
        rw [ha, hv]
        split_ifs with e1 e2
        · refine ⟨ha, hv, by simpa using hr, ?_, ?_, ?_⟩ <;>
            simp [List.filter_append, List.filter, hpa, hpv, hre, e1]
        · have e3 : ¬ v = a := fun h => e1 (e2.trans h)
          refine ⟨ha, hv, by simpa using hr, ?_, ?_, ?_⟩ <;>
            simp [List.filter_append, List.filter, hpa, hpv, hre, e1, e2, e3]
        · refine ⟨ha, hv, by simpa using hr, ?_, ?_, ?_⟩ <;>
            simp [List.filter_append, List.filter, hpa, hpv, hre, e1, e2]
  | audioPop t => exact ⟨ha, hv, hr, hpa, hpv, hre⟩
  | videoPop t => exact ⟨ha, hv, hr, hpa, hpv, hre⟩
  | stop => exact ⟨ha, hv, hr, hpa, hpv, hre⟩

lemma DemuxSys.run_routed (a v : Int) (pkts : List Packet) (steps : List DemuxSys.Step) :
    ∀ s : DemuxSys,
      (s.demux.audio_stream_ = a ∧ s.demux.video_stream_ = v ∧
        s.read ++ s.reader = pkts ∧
        s.pushed_audio = s.read.filter (fun p => decide (p.stream_index = a)) ∧
        s.pushed_video
          = s.read.filter (fun p => decide (p.stream_index ≠ a ∧ p.stream_index = v)) ∧
        s.released
          = s.read.filter (fun p => decide (p.stream_index ≠ a ∧ p.stream_index ≠ v))) →
      ((s.run steps).read ++ (s.run steps).reader = pkts ∧
        (s.run steps).pushed_audio
          = (s.run steps).read.filter (fun p => decide (p.stream_index = a)) ∧
        (s.run steps).pushed_video
          = (s.run steps).read.filter
              (fun p => decide (p.stream_index ≠ a ∧ p.stream_index = v)) ∧
        (s.run steps).released
          = (s.run steps).read.filter
              (fun p => decide (p.stream_index ≠ a ∧ p.stream_index ≠ v))) := by
  induction steps with
  | nil => intro s h; exact h.2.2
  | cons st steps ih =>
    intro s h
    simpa only [DemuxSys.run, List.foldl_cons] using ih (s.step st) (s.step_routed a v pkts st h)

/-- With consumers that keep the queues empty, the demuxer reads every packet
the reader has: after each pass the decoders pop both queues. -/
lemma DemuxSys.reads_all (reader : List Packet) :
    ∀ s : DemuxSys, s.running = true → s.demux.abort_ = false →
      s.audio_queue_ = Queue.new → s.video_queue_ = Queue.new → s.reader = reader →
      ∃ steps : List DemuxSys.Step,
        (s.run steps).read = s.read ++ reader ∧ (s.run steps).reader = [] := by
  induction reader with
  | nil =>
    intro s _ _ _ _ hr
    exact ⟨[], by simp [DemuxSys.run], by simpa [DemuxSys.run] using hr⟩
  | cons packet rest ih =>
    intro s hrun hab haq hvq hr
    have key : ∃ s1 : DemuxSys,
        s.run [.demuxIter false, .audioPop 0, .videoPop 0] = s1 ∧ s1.running = true ∧
        s1.demux.abort_ = false ∧ s1.audio_queue_ = Queue.new ∧
        s1.video_queue_ = Queue.new ∧ s1.reader = rest ∧ s1.read = s.read ++ [packet] := by
      refine ⟨_, rfl, ?_⟩
      simp only [DemuxSys.run, List.foldl_cons, List.foldl_nil, DemuxSys.step,
        DemuxSys.iterate, hrun, hab, haq, hvq, hr]
      by_cases e1 : packet.stream_index = s.demux.audio_stream_
      · simp [e1, AVQueueSize, AVQueuePush, AVQueuePop, Queue.Size, Queue.new, Queue.Push,
          Queue.Pop, hrun, hab]
      · by_cases e2 : packet.stream_index = s.demux.video_stream_
        · have e3 : ¬ s.demux.video_stream_ = s.demux.audio_stream_ :=
            fun h => e1 (e2.trans h)
          simp [e1, e2, e3, AVQueueSize, AVQueuePush, AVQueuePop, Queue.Size, Queue.new,
            Queue.Push, Queue.Pop, hrun, hab]
        · simp [e1, e2, AVQueueSize, AVQueuePush, AVQueuePop, Queue.Size, Queue.new,
            Queue.Push, Queue.Pop, hrun, hab]
    obtain ⟨s1, hs1, h1, h2, h3, h4, h5, h6⟩ := key
    obtain ⟨steps, hsa, hsb⟩ := ih s1 h1 h2 h3 h4 h5
    refine ⟨[.demuxIter false, .audioPop 0, .videoPop 0] ++ steps, ?_, ?_⟩
    · have : s.run ([.demuxIter false, .audioPop 0, .videoPop 0] ++ steps) = s1.run steps := by
        rw [← hs1]; simp [DemuxSys.run]
      rw [this, hsa, h6]; simp
    · have : s.run ([.demuxIter false, .audioPop 0, .videoPop 0] ++ steps) = s1.run steps := by
        rw [← hs1]; simp [DemuxSys.run]
      rw [this, hsb]

lemma AVQueuePush_running {T : Type} (q : Queue T) (v : T) (h : q.abort_ = 0) :
    (AVQueuePush q v).2.queue_ = q.queue_ ++ [v] ∧ (AVQueuePush q v).2.abort_ = 0 := by
  have h1 : ¬ 1 = q.abort_ := by rw [h]; decide
  unfold AVQueuePush Queue.Push
  rw [if_neg h1]
  exact ⟨rfl, h⟩

lemma AVQueuePop_taken {T : Type} (q : Queue T) (t : Int) (h : q.abort_ = 0) :
    (AVQueuePop q t).1.toList ++ (AVQueuePop q t).2.queue_ = q.queue_ ∧
    (AVQueuePop q t).2.abort_ = 0 := by
  have h1 : ¬ 1 = q.abort_ := by rw [h]; decide
  unfold AVQueuePop Queue.Pop
  cases hq : q.queue_ with
  | nil => exact ⟨by simp [hq], h⟩
  | cons x rest =>
    dsimp only
    rw [if_neg h1]
    exact ⟨rfl, h⟩

/-- The packets handed to the consumers, followed by those still in the queues,
are the packets passed to `Push`, for each queue. -/
lemma DemuxSys.step_queued (s : DemuxSys) (st : DemuxSys.Step) (ta tv : List Packet)
    (h : s.audio_queue_.abort_ = 0 ∧ s.video_queue_.abort_ = 0 ∧
      ta ++ s.audio_queue_.queue_ = s.pushed_audio ∧
      tv ++ s.video_queue_.queue_ = s.pushed_video) :
    (s.step st).audio_queue_.abort_ = 0 ∧ (s.step st).video_queue_.abort_ = 0 ∧
      (ta ++ s.audioGot st) ++ (s.step st).audio_queue_.queue_ = (s.step st).pushed_audio ∧
      (tv ++ s.videoGot st) ++ (s.step st).video_queue_.queue_ = (s.step st).pushed_video := by
  obtain ⟨ha, hv, hqa, hqv⟩ := h
  cases st with
  | demuxIter paused =>
    simp only [DemuxSys.step, DemuxSys.iterate, DemuxSys.audioGot, DemuxSys.videoGot,
      List.append_nil]
    split_ifs with h1 h2 h3 h4
    · exact ⟨ha, hv, hqa, hqv⟩
    · exact ⟨ha, hv, hqa, hqv⟩
    · exact ⟨ha, hv, hqa, hqv⟩
    · exact ⟨ha, hv, hqa, hqv⟩
    · cases hrd : s.reader with
      | nil => exact ⟨ha, hv, hqa, hqv⟩
      | cons packet rest =>
        dsimp only
        split_ifs with e1 e2
        · obtain ⟨p1, p2⟩ := AVQueuePush_running s.audio_queue_ packet ha
          refine ⟨p2, hv, ?_, hqv⟩
          dsimp only
          rw [p1, ← List.append_assoc, hqa]
        · obtain ⟨p1, p2⟩ := AVQueuePush_running s.video_queue_ packet hv
          refine ⟨ha, p2, hqa, ?_⟩
          dsimp only
          rw [p1, ← List.append_assoc, hqv]
        · exact ⟨ha, hv, hqa, hqv⟩
  | audioPop t =>
    obtain ⟨p1, p2⟩ := AVQueuePop_taken s.audio_queue_ t ha
    refine ⟨p2, hv, ?_, by simpa [DemuxSys.step, DemuxSys.videoGot] using hqv⟩
    simp only [DemuxSys.step, DemuxSys.audioGot]
    rw [List.append_assoc, p1, hqa]
  | videoPop t =>
    obtain ⟨p1, p2⟩ := AVQueuePop_taken s.video_queue_ t hv
    refine ⟨ha, p2, by simpa [DemuxSys.step, DemuxSys.audioGot] using hqa, ?_⟩
    simp only [DemuxSys.step, DemuxSys.videoGot]
    rw [List.append_assoc, p1, hqv]
  | stop =>
    simpa [DemuxSys.step, DemuxSys.audioGot, DemuxSys.videoGot] using
      (⟨ha, hv, hqa, hqv⟩ : s.audio_queue_.abort_ = 0 ∧ s.video_queue_.abort_ = 0 ∧
        ta ++ s.audio_queue_.queue_ = s.pushed_audio ∧
        tv ++ s.video_queue_.queue_ = s.pushed_video)

lemma DemuxSys.run_queued (steps : List DemuxSys.Step) :
    ∀ (s : DemuxSys) (ta tv : List Packet),
      (s.audio_queue_.abort_ = 0 ∧ s.video_queue_.abort_ = 0 ∧
        ta ++ s.audio_queue_.queue_ = s.pushed_audio ∧
        tv ++ s.video_queue_.queue_ = s.pushed_video) →
      ((ta ++ s.audioTaken steps) ++ (s.run steps).audio_queue_.queue_
          = (s.run steps).pushed_audio ∧
        (tv ++ s.videoTaken steps) ++ (s.run steps).video_queue_.queue_
          = (s.run steps).pushed_video) := by
  induction steps with
  | nil =>
    intro s ta tv h
    simpa [DemuxSys.audioTaken, DemuxSys.videoTaken, DemuxSys.run] using h.2.2
  | cons st steps ih =>
    intro s ta tv h
    have h2 := ih (s.step st) (ta ++ s.audioGot st) (tv ++ s.videoGot st)
      (s.step_queued st ta tv h)
    simpa only [DemuxSys.run, List.foldl_cons, DemuxSys.audioTaken, DemuxSys.videoTaken,
      List.append_assoc] using h2

/-- C20 (routing). Let the reader return `pkts`. After any sequence of demuxer
passes, consumer pops and a stop, the packets read so far are a prefix of
`pkts`. The packets that went through the audio queue (those its consumer has
received, followed by those still in the queue) are exactly the read packets
with the audio index, in read order; those that went through the video queue
are exactly the read packets with the video index that are not audio packets
(all packets with the video index when the two indices differ); the packets
released are exactly the others, and they are in no queue; no packet went to
both queues; the packets passed to each queue's `Push` are the same ones. Some
schedule lets the demuxer read all of `pkts`. -/
theorem C20_demux_routing (audio_stream video_stream : Int) (pkts : List Packet)
    (steps : List DemuxSys.Step) :
    ((DemuxSys.init audio_stream video_stream pkts).run steps).read
      ++ ((DemuxSys.init audio_stream video_stream pkts).run steps).reader = pkts ∧
    (DemuxSys.init audio_stream video_stream pkts).audioTaken steps
      ++ ((DemuxSys.init audio_stream video_stream pkts).run steps).audio_queue_.queue_
      = (((DemuxSys.init audio_stream video_stream pkts).run steps).read).filter
          (fun p => decide (p.stream_index = audio_stream)) ∧
    (DemuxSys.init audio_stream video_stream pkts).videoTaken steps
      ++ ((DemuxSys.init audio_stream video_stream pkts).run steps).video_queue_.queue_
      = (((DemuxSys.init audio_stream video_stream pkts).run steps).read).filter
          (fun p => decide (p.stream_index ≠ audio_stream ∧ p.stream_index = video_stream)) ∧
    (audio_stream ≠ video_stream →
      (DemuxSys.init audio_stream video_stream pkts).videoTaken steps
        ++ ((DemuxSys.init audio_stream video_stream pkts).run steps).video_queue_.queue_
        = (((DemuxSys.init audio_stream video_stream pkts).run steps).read).filter
            (fun p => decide (p.stream_index = video_stream))) ∧
    ((DemuxSys.init audio_stream video_stream pkts).run steps).released
      = (((DemuxSys.init audio_stream video_stream pkts).run steps).read).filter
          (fun p => decide (p.stream_index ≠ audio_stream ∧ p.stream_index ≠ video_stream)) ∧
    (∀ p, p ∈ ((DemuxSys.init audio_stream video_stream pkts).run steps).released →
      p ∉ (DemuxSys.init audio_stream video_stream pkts).audioTaken steps
        ++ ((DemuxSys.init audio_stream video_stream pkts).run steps).audio_queue_.queue_ ∧
      p ∉ (DemuxSys.init audio_stream video_stream pkts).videoTaken steps
        ++ ((DemuxSys.init audio_stream video_stream pkts).run steps).video_queue_.queue_) ∧
    (∀ p, p ∈ (DemuxSys.init audio_stream video_stream pkts).audioTaken steps
        ++ ((DemuxSys.init audio_stream video_stream pkts).run steps).audio_queue_.queue_ →
      p ∉ (DemuxSys.init audio_stream video_stream pkts).videoTaken steps
        ++ ((DemuxSys.init audio_stream video_stream pkts).run steps).video_queue_.queue_) ∧
    ((DemuxSys.init audio_stream video_stream pkts).run steps).pushed_audio
      = (((DemuxSys.init audio_stream video_stream pkts).run steps).read).filter
          (fun p => decide (p.stream_index = audio_stream)) ∧
    ((DemuxSys.init audio_stream video_stream pkts).run steps).pushed_video
      = (((DemuxSys.init audio_stream video_stream pkts).run steps).read).filter
          (fun p => decide (p.stream_index ≠ audio_stream ∧ p.stream_index = video_stream)) ∧
    ∃ all : List DemuxSys.Step,
      ((DemuxSys.init audio_stream video_stream pkts).run all).read = pkts := by
  have h := DemuxSys.run_routed audio_stream video_stream pkts steps
    (DemuxSys.init audio_stream video_stream pkts)
    ⟨rfl, rfl, by simp [DemuxSys.init], by simp [DemuxSys.init], by simp [DemuxSys.init],
      by simp [DemuxSys.init]⟩
  obtain ⟨h1, h2, h3, h4⟩ := h
  have hq := DemuxSys.run_queued steps (DemuxSys.init audio_stream video_stream pkts) [] []
    ⟨rfl, rfl, rfl, rfl⟩
  simp only [List.nil_append] at hq
  obtain ⟨q1, q2⟩ := hq
  rw [h2] at q1
  rw [h3] at q2
  have hv : audio_stream ≠ video_stream → ∀ l : List Packet,
      l.filter (fun p => decide (p.stream_index ≠ audio_stream ∧ p.stream_index = video_stream))
        = l.filter (fun p => decide (p.stream_index = video_stream)) := by
    intro hdiff l
    apply List.filter_congr
    intro p _
    by_cases e : p.stream_index = video_stream
    · have hne : ¬ video_stream = audio_stream := fun h => hdiff h.symm
      simp [e, hne]
    · simp [e]
  refine ⟨h1, q1, q2, (fun hdiff => by rw [q2, hv hdiff]), h4, ?_, ?_, h2, h3, ?_⟩
  · intro p hp
    rw [h4] at hp
    have e := (List.mem_filter.mp hp).2
    simp only [decide_eq_true_eq] at e
    rw [q1, q2]
    constructor
    · intro hq
      have e1 := (List.mem_filter.mp hq).2
      simp only [decide_eq_true_eq] at e1
      exact e.1 e1
    · intro hq
      have e1 := (List.mem_filter.mp hq).2
      simp only [decide_eq_true_eq] at e1
      exact e.2 e1.2
  · intro p hp hq
    rw [q1] at hp
    rw [q2] at hq
    have e1 := (List.mem_filter.mp hp).2
    have e2 := (List.mem_filter.mp hq).2
    simp only [decide_eq_true_eq] at e1 e2
    exact e2.1 e1
  · obtain ⟨all, ha, _⟩ := DemuxSys.reads_all pkts
      (DemuxSys.init audio_stream video_stream pkts) rfl rfl rfl rfl rfl
    exact ⟨all, by simpa [DemuxSys.init] using ha⟩

/-- Witness of C20: audio stream 1, video stream 0, four packets (one of a
subtitle stream), three demuxer passes and a pop by the video decoder. -/
theorem C20_demux_routing_witness :
    (DemuxSys.init 1 0 [⟨0, 10⟩, ⟨1, 11⟩, ⟨2, 12⟩, ⟨0, 13⟩]).videoTaken
        [.demuxIter false, .videoPop 10, .demuxIter false, .demuxIter false]
      ++ ((DemuxSys.init 1 0 [⟨0, 10⟩, ⟨1, 11⟩, ⟨2, 12⟩, ⟨0, 13⟩]).run
        [.demuxIter false, .videoPop 10, .demuxIter false,
         .demuxIter false]).video_queue_.queue_
      = (((DemuxSys.init 1 0 [⟨0, 10⟩, ⟨1, 11⟩, ⟨2, 12⟩, ⟨0, 13⟩]).run
        [.demuxIter false, .videoPop 10, .demuxIter false, .demuxIter false]).read).filter
          (fun p => decide (p.stream_index = 0)) :=
  (C20_demux_routing 1 0 [⟨0, 10⟩, ⟨1, 11⟩, ⟨2, 12⟩, ⟨0, 13⟩]
    [.demuxIter false, .videoPop 10, .demuxIter false, .demuxIter false]).2.2.2.1
    (by decide)

end AVPlayer

namespace AVPlayer

/-! ## The pull callback -/

/-- C14 (the callback fills the whole request), evaluated on the early returns
of the resampling code. A freshly initialised output (sink format S16, no
resampler yet) is asked for 2048 bytes and gets a filtered frame in another
sample format: when `swr_init` fails, when the buffer size comes out negative,
or when `swr_convert` fails, the callback returns having written none of the
2048 bytes. With 100 bytes left in the buffer it writes those 100 and returns. -/
theorem C14_early_return_leaves_request_open :
    (sdl_audio_callback
      ((AudioOutput.new ⟨48000, 2, 8⟩ ⟨0, 0, 0⟩).InitOk ⟨true, true, true, true⟩)
      (1 / 48000) ⟨0⟩ 1000000
      [.filtered { pts := 1024, params := ⟨48000, 2, 8⟩, swr_init_ok := false,
                   out_bytes := 5120, len2 := 1024, conv_bytes := 4096, data := [] }]
      2048).exit = .swrInitFailed ∧
    (sdl_audio_callback
      ((AudioOutput.new ⟨48000, 2, 8⟩ ⟨0, 0, 0⟩).InitOk ⟨true, true, true, true⟩)
      (1 / 48000) ⟨0⟩ 1000000
      [.filtered { pts := 1024, params := ⟨48000, 2, 8⟩, swr_init_ok := false,
                   out_bytes := 5120, len2 := 1024, conv_bytes := 4096, data := [] }]
      2048).stream = [] ∧
    (sdl_audio_callback
      ((AudioOutput.new ⟨48000, 2, 8⟩ ⟨0, 0, 0⟩).InitOk ⟨true, true, true, true⟩)
      (1 / 48000) ⟨0⟩ 1000000
      [.filtered { pts := 1024, params := ⟨48000, 2, 8⟩, swr_init_ok := true,
                   out_bytes := -22, len2 := 1024, conv_bytes := 4096, data := [] }]
      2048).exit = .bufferSizeFailed ∧
    (sdl_audio_callback
      ((AudioOutput.new ⟨48000, 2, 8⟩ ⟨0, 0, 0⟩).InitOk ⟨true, true, true, true⟩)
      (1 / 48000) ⟨0⟩ 1000000
      [.filtered { pts := 1024, params := ⟨48000, 2, 8⟩, swr_init_ok := true,
                   out_bytes := -22, len2 := 1024, conv_bytes := 4096, data := [] }]
      2048).stream = [] ∧
    (sdl_audio_callback
      ((AudioOutput.new ⟨48000, 2, 8⟩ ⟨0, 0, 0⟩).InitOk ⟨true, true, true, true⟩)
      (1 / 48000) ⟨0⟩ 1000000
      [.filtered { pts := 1024, params := ⟨48000, 2, 8⟩, swr_init_ok := true,
                   out_bytes := 5120, len2 := -1, conv_bytes := 4096, data := [] }]
      2048).exit = .convertFailed ∧
    (sdl_audio_callback
      ((AudioOutput.new ⟨48000, 2, 8⟩ ⟨0, 0, 0⟩).InitOk ⟨true, true, true, true⟩)
      (1 / 48000) ⟨0⟩ 1000000
      [.filtered { pts := 1024, params := ⟨48000, 2, 8⟩, swr_init_ok := true,
                   out_bytes := 5120, len2 := -1, conv_bytes := 4096, data := [] }]
      2048).stream = [] ∧
    (sdl_audio_callback
      { (AudioOutput.new ⟨48000, 2, 8⟩ ⟨0, 0, 0⟩).InitOk ⟨true, true, true, true⟩ with
        audio_buf_ := none, audio_buf_size := 512, audio_buf_index := 412 }
      (1 / 48000) ⟨0⟩ 1000000
      [.filtered { pts := 1024, params := ⟨48000, 2, 8⟩, swr_init_ok := false,
                   out_bytes := 5120, len2 := 1024, conv_bytes := 4096, data := [] }]
      2048).stream.length = 100 := by
  refine ⟨rfl, rfl, rfl, rfl, rfl, rfl, rfl⟩

/-- C15 (paused callback). When the output is paused and `len > 0` bytes are
asked, the callback writes `len` zero bytes and returns from the pause branch:
`SetClock` is not called and the clock is as before, no frame is popped and no
behaviour of queue or filters is used, and the output object, buffer cursor
included, is unchanged. -/
theorem C15_paused_callback (a : AudioOutput) (tb : ℚ) (clock : AVSync) (us : Int)
    (script : List Refill) (len : Int) (hp : a.isPaused = true) (hlen : 0 < len) :
    sdl_audio_callback a tb clock us script len
      = { out := a, clock := clock, stream := List.replicate len.toNat 0, rest := script,
          popped := 0, set_clock := none, exit := .paused } := by
  have h : ¬ len ≤ 0 := not_le.mpr hlen
  simp [sdl_audio_callback, callbackLoop, loopBody, hp, h]

/-- Witness of C15: a paused output with 100 bytes left in its buffer. -/
theorem C15_paused_callback_witness :
    sdl_audio_callback
      { ((AudioOutput.new ⟨48000, 2, 8⟩ ⟨0, 0, 0⟩).InitOk ⟨true, true, true, true⟩).Pause with
        audio_buf_ := none, audio_buf_size := 512, audio_buf_index := 412 }
      (1 / 48000) ⟨5⟩ 1000000 [.noFrame] 4
      = { out := { ((AudioOutput.new ⟨48000, 2, 8⟩ ⟨0, 0, 0⟩).InitOk
                      ⟨true, true, true, true⟩).Pause with
                   audio_buf_ := none, audio_buf_size := 512, audio_buf_index := 412 }
          clock := ⟨5⟩, stream := List.replicate (4 : Int).toNat 0, rest := [.noFrame],
          popped := 0, set_clock := none, exit := .paused } :=
  C15_paused_callback _ (1 / 48000) ⟨5⟩ 1000000 [.noFrame] 4 rfl (by decide)

/-- C16 (the callback ends with `SetClock`), evaluated on the early returns of
the resampling code. A freshly initialised, not paused output gets a filtered
frame with pts 1024 in another sample format: `pts` is updated to
1024 × time_base, but when `swr_init` fails, the buffer size comes out negative
or `swr_convert` fails, the callback returns without calling `SetClock`; the
master clock keeps its drift. -/
theorem C16_early_return_skips_set_clock :
    ((AudioOutput.new ⟨48000, 2, 8⟩ ⟨0, 0, 0⟩).InitOk ⟨true, true, true, true⟩).isPaused
      = false ∧
    (sdl_audio_callback
      ((AudioOutput.new ⟨48000, 2, 8⟩ ⟨0, 0, 0⟩).InitOk ⟨true, true, true, true⟩)
      (1 / 48000) ⟨-7⟩ 9000000
      [.filtered { pts := 1024, params := ⟨48000, 2, 8⟩, swr_init_ok := false,
                   out_bytes := 5120, len2 := 1024, conv_bytes := 4096, data := [] }]
      2048).set_clock = none ∧
    (sdl_audio_callback
      ((AudioOutput.new ⟨48000, 2, 8⟩ ⟨0, 0, 0⟩).InitOk ⟨true, true, true, true⟩)
      (1 / 48000) ⟨-7⟩ 9000000
      [.filtered { pts := 1024, params := ⟨48000, 2, 8⟩, swr_init_ok := false,
                   out_bytes := 5120, len2 := 1024, conv_bytes := 4096, data := [] }]
      2048).clock = ⟨-7⟩ ∧
    (sdl_audio_callback
      ((AudioOutput.new ⟨48000, 2, 8⟩ ⟨0, 0, 0⟩).InitOk ⟨true, true, true, true⟩)
      (1 / 48000) ⟨-7⟩ 9000000
      [.filtered { pts := 1024, params := ⟨48000, 2, 8⟩, swr_init_ok := false,
                   out_bytes := 5120, len2 := 1024, conv_bytes := 4096, data := [] }]
      2048).out.pts = ((1024 : Int) : ℚ) * (1 / 48000) ∧
    (sdl_audio_callback
      ((AudioOutput.new ⟨48000, 2, 8⟩ ⟨0, 0, 0⟩).InitOk ⟨true, true, true, true⟩)
      (1 / 48000) ⟨-7⟩ 9000000
      [.filtered { pts := 1024, params := ⟨48000, 2, 8⟩, swr_init_ok := true,
                   out_bytes := -22, len2 := 1024, conv_bytes := 4096, data := [] }]
      2048).set_clock = none ∧
    (sdl_audio_callback
      ((AudioOutput.new ⟨48000, 2, 8⟩ ⟨0, 0, 0⟩).InitOk ⟨true, true, true, true⟩)
      (1 / 48000) ⟨-7⟩ 9000000
      [.filtered { pts := 1024, params := ⟨48000, 2, 8⟩, swr_init_ok := true,
                   out_bytes := 5120, len2 := -1, conv_bytes := 4096, data := [] }]
      2048).set_clock = none := by
  refine ⟨rfl, rfl, rfl, rfl, rfl, rfl⟩

end AVPlayer

namespace AVPlayer

lemma toU32_of_range {x : Int} (h0 : 0 ≤ x) (h1 : x < 4294967296) : toU32 x = x.toNat := by
  unfold toU32
  congr 1
  omega

end AVPlayer

namespace AVPlayer

end AVPlayer

namespace AVPlayer

lemma toU32_lt (x : Int) : toU32 x < 4294967296 := by
  unfold toU32
  omega

lemma toI32_ne_zero {x : Int} (h1 : -4294967296 < x) (h2 : x < 4294967296) (h3 : x ≠ 0) :
    toI32 x ≠ 0 := by
  unfold toI32
  split <;> omega

/-- The copy step returns only as undefined behaviour; when it goes on, the
request has not grown, and has shrunk when bytes were available. -/
lemma copyPass_cases (v : CbVars) (a : AudioOutput)
    (hsz : a.audio_buf_size < 4294967296) :
    (∀ v1 e, copyPass v a = .stop v1 e → e = .undefinedCopy) ∧
    (∀ v1, copyPass v a = .next v1 →
      v1.script = v.script ∧ v1.len ≤ v.len ∧
      v1.out.audio_buf_index < 4294967296 ∧ v1.out.audio_buf_size < 4294967296 ∧
      (0 < v.len → toI32 ((a.audio_buf_size : Int) - (a.audio_buf_index : Int)) ≠ 0 →
        v1.len < v.len)) := by
  unfold copyPass AudioOutput.copyStep
  simp only
  split_ifs with h1 h2
  · exact ⟨(fun v1 e h => by cases h; rfl), (fun v1 h => by cases h)⟩
  · cases hb : a.audio_buf_ with
    | none =>
      refine ⟨(fun v1 e h => by cases h), fun v1 h => ?_⟩
      cases h
      exact ⟨rfl, by show v.len - v.len ≤ v.len; omega, toU32_lt _, hsz,
        fun h0 _ => by show v.len - v.len < v.len; omega⟩
    | some buf =>
      simp only
      split_ifs
      · refine ⟨(fun v1 e h => by cases h), fun v1 h => ?_⟩
        cases h
        exact ⟨rfl, by show v.len - v.len ≤ v.len; omega, toU32_lt _, hsz,
          fun h0 _ => by show v.len - v.len < v.len; omega⟩
      · exact ⟨(fun v1 e h => by cases h; rfl), (fun v1 h => by cases h)⟩
  · exact ⟨(fun v1 e h => by cases h; rfl), (fun v1 h => by cases h)⟩
  · cases hb : a.audio_buf_ with
    | none =>
      refine ⟨(fun v1 e h => by cases h), fun v1 h => ?_⟩
      cases h
      refine ⟨rfl, ?_, toU32_lt _, hsz, fun h0 hne => ?_⟩
      · show v.len - toI32 _ ≤ v.len
        omega
      · show v.len - toI32 _ < v.len
        omega
    | some buf =>
      simp only
      split_ifs
      · refine ⟨(fun v1 e h => by cases h), fun v1 h => ?_⟩
        cases h
        refine ⟨rfl, ?_, toU32_lt _, hsz, fun h0 hne => ?_⟩
        · show v.len - toI32 _ ≤ v.len
          omega
        · show v.len - toI32 _ < v.len
          omega
      · exact ⟨(fun v1 e h => by cases h; rfl), (fun v1 h => by cases h)⟩

/-- The refill block never leaves as out of fuel, keeps the index, and leaves
a size that fits `uint32_t`. -/
lemma refill_cases (a : AudioOutput) (tb : ℚ) (r : Refill)
    (hsz : a.audio_buf_size < 4294967296) :
    (∀ a1 e, a.refill tb r = .leave a1 e → e ≠ .outOfFuel) ∧
    (∀ a1, a.refill tb r = .again a1 →
      a1.audio_buf_index = a.audio_buf_index ∧ a1.audio_buf_size < 4294967296) ∧
    (∀ a1, a.refill tb r = .proceed a1 →
      a1.audio_buf_index = a.audio_buf_index ∧ a1.audio_buf_size < 4294967296) := by
  cases r with
  | noFrame =>
    refine ⟨(fun a1 e h => by cases h), (fun a1 h => by cases h), fun a1 h => ?_⟩
    cases h
    exact ⟨rfl, by show (512 : Nat) < 4294967296; omega⟩
  | addFrameFails =>
    refine ⟨(fun a1 e h => by cases h), fun a1 h => ?_, (fun a1 h => by cases h)⟩
    cases h
    exact ⟨rfl, hsz⟩
  | getFrameFails =>
    refine ⟨(fun a1 e h => by cases h), fun a1 h => ?_, (fun a1 h => by cases h)⟩
    cases h
    exact ⟨rfl, by show (512 : Nat) < 4294967296; omega⟩
  | filtered f =>
    unfold AudioOutput.refill
    simp only
    split_ifs <;>
      refine ⟨fun a1 e h => ?_, fun a1 h => ?_, fun a1 h => ?_⟩ <;>
      first
        | (cases h; done)
        | (cases h; decide)
        | (cases h; exact ⟨rfl, toU32_lt _⟩)

end AVPlayer

namespace AVPlayer

/-- One pass of the loop, for an output whose cursor fields fit `uint32_t`: a
pass that returns does not do so for lack of fuel, and a pass that goes on
has used up a listed behaviour or shortened the request. -/
lemma loopBody_cases (tb : ℚ) (v : CbVars)
    (hix : v.out.audio_buf_index < 4294967296) (hsz : v.out.audio_buf_size < 4294967296)
    (hlen : 0 < v.len) :
    (∀ v1 e, loopBody tb v = .stop v1 e → e ≠ .outOfFuel) ∧
    (∀ v1, loopBody tb v = .next v1 →
      v1.out.audio_buf_index < 4294967296 ∧ v1.out.audio_buf_size < 4294967296 ∧
      v1.script.length + v1.len.toNat < v.script.length + v.len.toNat) := by
  unfold loopBody
  split_ifs with hp hidx
  · exact ⟨(fun v1 e h => by cases h; decide), (fun v1 h => by cases h)⟩
  · -- refill
    have hsz0 : ({ v.out with audio_buf_index := 0 } : AudioOutput).audio_buf_size
        < 4294967296 := hsz
    obtain ⟨hl, ha, hpr⟩ := refill_cases ({ v.out with audio_buf_index := 0 } : AudioOutput)
      tb (v.script.headD Refill.noFrame) hsz0
    simp only
    cases hr : AudioOutput.refill ({ v.out with audio_buf_index := 0 } : AudioOutput) tb
        (v.script.headD Refill.noFrame) with
    | leave a1 e =>
      exact ⟨(fun v1 e2 h => by cases h; exact hl a1 e hr), (fun v1 h => by cases h)⟩
    | again a1 =>
      refine ⟨(fun v1 e h => by cases h), fun v1 h => ?_⟩
      cases h
      obtain ⟨i1, s1⟩ := ha a1 hr
      refine ⟨by show a1.audio_buf_index < 4294967296; rw [i1]; show (0 : Nat) < _; omega,
        s1, ?_⟩
      show v.script.tail.length + v.len.toNat < v.script.length + v.len.toNat
      cases hsc : v.script with
      | nil =>
        rw [hsc] at hr
        cases hr
      | cons r rest => simp
    | proceed a1 =>
      obtain ⟨i1, s1⟩ := hpr a1 hr
      obtain ⟨c1, c2⟩ := copyPass_cases
        { v with script := v.script.tail
                 popped := match v.script.headD Refill.noFrame with
                   | .noFrame => v.popped
                   | _ => v.popped + 1 } a1 s1
      refine ⟨fun v1 e h => ?_, fun v1 h => ?_⟩
      · have := c1 v1 e h
        rw [this]; decide
      · obtain ⟨d1, d2, d3, d4, d5⟩ := c2 v1 h
        refine ⟨d3, d4, ?_⟩
        rw [d1]
        have d2b : v1.len ≤ v.len := d2
        show v.script.tail.length + v1.len.toNat < v.script.length + v.len.toNat
        cases hsc : v.script with
        | nil =>
          have h512 : a1.audio_buf_size = 512 := by
            rw [hsc] at hr
            cases hr
            rfl
          have hz : a1.audio_buf_index = 0 := i1
          have hne : toI32 ((a1.audio_buf_size : Int) - (a1.audio_buf_index : Int)) ≠ 0 := by
            rw [h512, hz]
            exact toI32_ne_zero (by omega) (by omega) (by omega)
          have hlt : v1.len < v.len := d5 hlen hne
          simp
          omega
        | cons r rest =>
          simp
          omega
  · obtain ⟨c1, c2⟩ := copyPass_cases v v.out hsz
    refine ⟨fun v1 e h => ?_, fun v1 h => ?_⟩
    · have := c1 v1 e h
      rw [this]; decide
    · obtain ⟨d1, d2, d3, d4, d5⟩ := c2 v1 h
      refine ⟨d3, d4, ?_⟩
      rw [d1]
      have hne : toI32 ((v.out.audio_buf_size : Int) - (v.out.audio_buf_index : Int)) ≠ 0 :=
        toI32_ne_zero (by omega) (by omega) (by omega)
      have := d5 hlen hne
      omega

/-- The loop never runs out of the fuel the callback gives it. -/
lemma callbackLoop_fuel (tb : ℚ) :
    ∀ (fuel : Nat) (v : CbVars), v.out.audio_buf_index < 4294967296 →
      v.out.audio_buf_size < 4294967296 → v.script.length + v.len.toNat < fuel →
      (callbackLoop tb fuel v).2 ≠ .outOfFuel := by
  intro fuel
  induction fuel with
  | zero => intro v _ _ h; omega
  | succ fuel ih =>
    intro v hix hsz hf
    unfold callbackLoop
    by_cases h0 : v.len ≤ 0
    · rw [if_pos h0]
      exact fun h => CbExit.noConfusion h
    · rw [if_neg h0]
      obtain ⟨c1, c2⟩ := loopBody_cases tb v hix hsz (by omega)
      cases hb : loopBody tb v with
      | stop v1 e => exact c1 v1 e hb
      | next v1 =>
        obtain ⟨d1, d2, d3⟩ := c2 v1 hb
        exact ih v1 d1 d2 (by omega)

/-- An invocation of the callback on an output whose cursor fields fit
`uint32_t` does not end for lack of fuel. -/
lemma sdl_audio_callback_fuel (a : AudioOutput) (tb : ℚ) (clock : AVSync) (us : Int)
    (script : List Refill) (len : Int)
    (hix : a.audio_buf_index < 4294967296) (hsz : a.audio_buf_size < 4294967296) :
    (sdl_audio_callback a tb clock us script len).exit ≠ .outOfFuel :=
  callbackLoop_fuel tb _ _ hix hsz (Nat.lt_succ_self _)

end AVPlayer

namespace AVPlayer

/-! ## The arithmetic of `double` in the letterbox rectangle -/

lemma log2Aux_spec : ∀ (fuel n : Nat), n ≤ fuel → n ≠ 0 →
    2 ^ log2Aux fuel n ≤ n ∧ n < 2 ^ (log2Aux fuel n + 1) := by
  intro fuel
  induction fuel with
  | zero => intro n h h0; omega
  | succ fuel ih =>
    intro n h h0
    unfold log2Aux
    by_cases h2 : n < 2
    · rw [if_pos h2]
      constructor
      · simp; omega
      · simp; omega
    · rw [if_neg h2]
      obtain ⟨a, b⟩ := ih (n / 2) (by omega) (by omega)
      constructor
      · rw [pow_succ]; omega
      · rw [pow_succ]; omega

lemma floorLog2_spec (n : Nat) (h0 : n ≠ 0) :
    2 ^ floorLog2 n ≤ n ∧ n < 2 ^ (floorLog2 n + 1) :=
  log2Aux_spec n n (le_refl _) h0

lemma scaleFrac_pos (n d : Nat) (e : Int) (hd : 0 < d) : 0 < (scaleFrac n d e).2 := by
  unfold scaleFrac
  split
  · exact Nat.mul_pos hd (by positivity)
  · exact hd

lemma scaleFrac_val (n d : Nat) (e : Int) (hd : 0 < d) :
    ((scaleFrac n d e).1 : ℚ) / ((scaleFrac n d e).2 : ℚ) = (n : ℚ) / (d : ℚ) * (2 : ℚ) ^ (-e) := by
  have hdq : (d : ℚ) ≠ 0 := by positivity
  unfold scaleFrac
  split
  · rename_i h
    have he : (2 : ℚ) ^ e = ((2 : ℚ) ^ e.toNat) := by
      rw [← zpow_natCast, Int.toNat_of_nonneg h]
    rw [zpow_neg, he]
    push_cast
    field_simp
  · rename_i h
    have h' : 0 ≤ -e := by omega
    have he : (2 : ℚ) ^ (-e) = ((2 : ℚ) ^ (-e).toNat) := by
      rw [← zpow_natCast, Int.toNat_of_nonneg h']
    rw [he]
    push_cast
    field_simp

lemma roundHalfEven_err (n d : Nat) (hd : 0 < d) :
    |((roundHalfEven n d : Nat) : ℚ) - (n : ℚ) / (d : ℚ)| ≤ 1 / 2 := by
  have hdq : (0 : ℚ) < (d : ℚ) := by exact_mod_cast hd
  have hdiv : (n : ℚ) / d = (n / d : Nat) + ((n % d : Nat) : ℚ) / d := by
    have h := Nat.div_add_mod n d
    have h2 : (n : ℚ) = (d : ℚ) * ((n / d : Nat) : ℚ) + ((n % d : Nat) : ℚ) := by
      exact_mod_cast h.symm
    field_simp
    linarith
  have hr : n % d < d := Nat.mod_lt _ hd
  have hrq : ((n % d : Nat) : ℚ) < d := by exact_mod_cast hr
  have hr0 : (0 : ℚ) ≤ ((n % d : Nat) : ℚ) := by positivity
  have hfrac0 : (0 : ℚ) ≤ ((n % d : Nat) : ℚ) / d := by positivity
  have hfrac1 : ((n % d : Nat) : ℚ) / d < 1 := by
    rw [div_lt_one hdq]; exact hrq
  rw [hdiv]
  unfold roundHalfEven
  simp only
  rw [abs_le]
  by_cases c1 : 2 * (n % d) < d
  · rw [if_pos c1]
    have : (2 : ℚ) * ((n % d : Nat) : ℚ) < d := by exact_mod_cast c1
    have h3 : ((n % d : Nat) : ℚ) / d ≤ 1 / 2 := by
      rw [div_le_iff₀ hdq]; linarith
    constructor <;> linarith
  · rw [if_neg c1]
    have c1q : (d : ℚ) ≤ 2 * ((n % d : Nat) : ℚ) := by exact_mod_cast not_lt.mp c1
    have h3 : 1 / 2 ≤ ((n % d : Nat) : ℚ) / d := by
      rw [le_div_iff₀ hdq]; linarith
    by_cases c2 : d < 2 * (n % d)
    · rw [if_pos c2]
      push_cast
      constructor <;> linarith
    · rw [if_neg c2]
      have c2q : 2 * ((n % d : Nat) : ℚ) ≤ (d : ℚ) := by exact_mod_cast not_lt.mp c2
      have h4 : ((n % d : Nat) : ℚ) / d ≤ 1 / 2 := by
        rw [div_le_iff₀ hdq]; linarith
      split
      · constructor <;> linarith
      · push_cast
        constructor <;> linarith

lemma round_core (x m s : ℚ) (e : Int) (hs : s = x * (2 : ℚ) ^ (-e))
    (h52 : (2 : ℚ) ^ 52 ≤ s) (hm : |m - s| ≤ 1 / 2) :
    |m * (2 : ℚ) ^ e - x| ≤ x * (1 / 2 ^ 53) := by
  have hp : (0 : ℚ) < (2 : ℚ) ^ e := zpow_pos (by norm_num) e
  have hx : x = s * (2 : ℚ) ^ e := by
    rw [hs, zpow_neg, mul_assoc, inv_mul_cancel₀ (ne_of_gt hp), mul_one]
  have h1 : m * (2 : ℚ) ^ e - x = (m - s) * (2 : ℚ) ^ e := by rw [hx]; ring
  rw [h1, abs_mul, abs_of_pos hp, hx]
  have h2 : |m - s| * (2 : ℚ) ^ e ≤ 1 / 2 * (2 : ℚ) ^ e :=
    mul_le_mul_of_nonneg_right hm hp.le
  have h3 : (1 : ℚ) / 2 * (2 : ℚ) ^ e ≤ s * (2 : ℚ) ^ e * (1 / 2 ^ 53) := by
    have : (1 : ℚ) / 2 ≤ s * (1 / 2 ^ 53) := by
      have : (2 : ℚ) ^ 52 * (1 / 2 ^ 53) ≤ s * (1 / 2 ^ 53) :=
        mul_le_mul_of_nonneg_right h52 (by positivity)
      norm_num at this ⊢
      linarith
    nlinarith
  linarith

/-- Rounding to `double` has relative error at most `2 ^ -53`. -/
lemma roundToDouble_err (n d : Nat) (hn : 0 < n) (hd : 0 < d) :
    |(roundToDouble n d).toRat - (n : ℚ) / (d : ℚ)| ≤ (n : ℚ) / (d : ℚ) * (1 / 2 ^ 53) := by
  obtain ⟨ln1, _⟩ := floorLog2_spec n (by omega)
  obtain ⟨_, ld2⟩ := floorLog2_spec d (by omega)
  have hnq : (0 : ℚ) < (n : ℚ) := by exact_mod_cast hn
  have hdq : (0 : ℚ) < (d : ℚ) := by exact_mod_cast hd
  have ln1q : (2 : ℚ) ^ floorLog2 n ≤ (n : ℚ) := by exact_mod_cast ln1
  have ld2q : (d : ℚ) < (2 : ℚ) ^ floorLog2 d * 2 := by
    have : d < 2 ^ floorLog2 d * 2 := by rw [← pow_succ]; exact ld2
    exact_mod_cast this
  unfold roundToDouble
  rw [if_neg (by omega)]
  simp only [Dbl.toRat]
  generalize he0 : ((floorLog2 n : Int) - (floorLog2 d : Int) - 52) = e0
  have hpow : (2 : ℚ) ^ (-e0) = 2 ^ 52 * 2 ^ floorLog2 d / 2 ^ floorLog2 n := by
    have : -e0 = (52 : Int) + (floorLog2 d : Int) - (floorLog2 n : Int) := by omega
    rw [this, zpow_sub₀ (by norm_num), zpow_add₀ (by norm_num), zpow_natCast, zpow_natCast]
    norm_num
  have hs0 : (2 : ℚ) ^ 51 < (n : ℚ) / (d : ℚ) * (2 : ℚ) ^ (-e0) := by
    rw [hpow]
    have hA : (0 : ℚ) < (2 : ℚ) ^ floorLog2 n := by positivity
    have hB : (0 : ℚ) < (2 : ℚ) ^ floorLog2 d := by positivity
    rw [div_mul_div_comm, lt_div_iff₀ (by positivity)]
    nlinarith
  have hv0 := scaleFrac_val n d e0 hd
  have hp0 := scaleFrac_pos n d e0 hd
  by_cases c : 2 ^ 52 * (scaleFrac n d e0).2 ≤ (scaleFrac n d e0).1
  · rw [if_pos c]
    refine round_core _ _ (((scaleFrac n d e0).1 : ℚ) / ((scaleFrac n d e0).2 : ℚ)) e0
      (scaleFrac_val n d e0 hd) ?_ ?_
    · rw [le_div_iff₀ (by exact_mod_cast hp0)]
      exact_mod_cast c
    · exact roundHalfEven_err _ _ hp0
  · rw [if_neg c]
    have hp1 := scaleFrac_pos n d (e0 - 1) hd
    refine round_core _ _
      (((scaleFrac n d (e0 - 1)).1 : ℚ) / ((scaleFrac n d (e0 - 1)).2 : ℚ)) (e0 - 1)
      (scaleFrac_val n d (e0 - 1) hd) ?_ ?_
    · rw [scaleFrac_val n d (e0 - 1) hd]
      have : (2 : ℚ) ^ (-(e0 - 1)) = (2 : ℚ) ^ (-e0) * 2 := by
        have : -(e0 - 1) = -e0 + 1 := by ring
        rw [this, zpow_add₀ (by norm_num), zpow_one]
      rw [this]
      have : (2 : ℚ) ^ 52 = 2 ^ 51 * 2 := by norm_num
      nlinarith
    · exact roundHalfEven_err _ _ hp1

lemma Dbl.toRat_align (a : Dbl) (e : Int) (h : e ≤ a.exp) :
    a.toRat = ((a.mant * 2 ^ (a.exp - e).toNat : Nat) : ℚ) * (2 : ℚ) ^ e := by
  have h' : 0 ≤ a.exp - e := by omega
  have he : (2 : ℚ) ^ (a.exp - e) = ((2 : ℚ) ^ (a.exp - e).toNat) := by
    rw [← zpow_natCast, Int.toNat_of_nonneg h']
  unfold Dbl.toRat
  push_cast
  rw [← he, mul_assoc, ← zpow_add₀ (by norm_num)]
  congr 2
  ring

lemma Dbl.lt_iff_toRat (a b : Dbl) : Dbl.lt a b = true ↔ a.toRat < b.toRat := by
  have hp : (0 : ℚ) < (2 : ℚ) ^ (min a.exp b.exp) := zpow_pos (by norm_num) _
  rw [Dbl.toRat_align a (min a.exp b.exp) (min_le_left _ _),
    Dbl.toRat_align b (min a.exp b.exp) (min_le_right _ _)]
  unfold Dbl.lt
  simp only [decide_eq_true_eq]
  rw [mul_lt_mul_right hp]
  exact Nat.cast_lt.symm

lemma Dbl.std_min_toRat (a b : Dbl) : (Dbl.std_min a b).toRat = min a.toRat b.toRat := by
  unfold Dbl.std_min
  by_cases h : Dbl.lt b a = true
  · rw [if_pos h]
    have := (Dbl.lt_iff_toRat b a).mp h
    rw [min_eq_right this.le]
  · rw [if_neg h]
    have : ¬ b.toRat < a.toRat := fun hlt => h ((Dbl.lt_iff_toRat b a).mpr hlt)
    rw [min_eq_left (not_lt.mp this)]

lemma Dbl.mulInt_err (v : Nat) (s : Dbl) (hv : 0 < v) (hs : 0 < s.toRat) :
    |(Dbl.mulInt v s).toRat - (v : ℚ) * s.toRat| ≤ (v : ℚ) * s.toRat * (1 / 2 ^ 53) := by
  have hm : 0 < s.mant := by
    rcases Nat.eq_zero_or_pos s.mant with h | h
    · unfold Dbl.toRat at hs
      rw [h] at hs
      simp at hs
    · exact h
  unfold Dbl.mulInt
  by_cases he : 0 ≤ s.exp
  · rw [if_pos he]
    have hpow : (2 : ℚ) ^ s.exp = ((2 : ℚ) ^ s.exp.toNat) := by
      rw [← zpow_natCast, Int.toNat_of_nonneg he]
    have hval : (v : ℚ) * s.toRat = ((v * s.mant * 2 ^ s.exp.toNat : Nat) : ℚ) / ((1 : Nat) : ℚ) := by
      unfold Dbl.toRat
      rw [hpow]
      push_cast
      ring
    rw [hval]
    exact roundToDouble_err _ 1 (by positivity) (by norm_num)
  · rw [if_neg he]
    have he' : 0 ≤ -s.exp := by omega
    have hpow : (2 : ℚ) ^ (-s.exp) = ((2 : ℚ) ^ (-s.exp).toNat) := by
      rw [← zpow_natCast, Int.toNat_of_nonneg he']
    have hval : (v : ℚ) * s.toRat
        = ((v * s.mant : Nat) : ℚ) / ((2 ^ (-s.exp).toNat : Nat) : ℚ) := by
      unfold Dbl.toRat
      push_cast
      rw [← hpow, zpow_neg]
      field_simp
      ring
    rw [hval]
    exact roundToDouble_err _ _ (by positivity) (by positivity)

lemma Dbl.toInt_floor (a : Dbl) : a.toInt = ⌊a.toRat⌋ := by
  unfold Dbl.toInt Dbl.toRat
  by_cases he : 0 ≤ a.exp
  · rw [if_pos he]
    have hpow : (2 : ℚ) ^ a.exp = ((2 : ℚ) ^ a.exp.toNat) := by
      rw [← zpow_natCast, Int.toNat_of_nonneg he]
    rw [hpow]
    have : (a.mant : ℚ) * 2 ^ a.exp.toNat = ((a.mant * 2 ^ a.exp.toNat : Nat) : ℚ) := by
      push_cast; ring
    rw [this, Int.floor_natCast]
  · rw [if_neg he]
    have he' : 0 ≤ -a.exp := by omega
    have hpow : (2 : ℚ) ^ (-a.exp) = ((2 : ℚ) ^ (-a.exp).toNat) := by
      rw [← zpow_natCast, Int.toNat_of_nonneg he']
    have : (a.mant : ℚ) * (2 : ℚ) ^ a.exp
        = ((a.mant : Int) : ℚ) / ((2 ^ (-a.exp).toNat : Nat) : ℚ) := by
      have h2 : (2 : ℚ) ^ a.exp = ((2 : ℚ) ^ (-a.exp))⁻¹ := by rw [zpow_neg, inv_inv]
      rw [h2, hpow]
      push_cast
      rw [div_eq_mul_inv]
    rw [this, Rat.floor_intCast_div_natCast]
    norm_cast

/-- Truncation of a number within relative distance `3 * 2 ^ -53` of the fraction
`N / D ≤ 1280`, `D < 2 ^ 31`: the whole part of the fraction, or one less when the
fraction is whole. -/
lemma trunc_near (p : ℚ) (N D : Nat) (hD : 0 < D) (hD31 : D < 2147483648)
    (hP : N ≤ 1280 * D)
    (hlo : (N : ℚ) / (D : ℚ) * (1 - 3 / 2 ^ 53) ≤ p)
    (hhi : p ≤ (N : ℚ) / (D : ℚ) * (1 + 3 / 2 ^ 53)) :
    ⌊p⌋ = ((N / D : Nat) : Int) ∨ (N % D = 0 ∧ ⌊p⌋ = ((N / D : Nat) : Int) - 1) := by
  have hDq : (0 : ℚ) < (D : ℚ) := by exact_mod_cast hD
  have hD31q : (D : ℚ) < 2147483648 := by exact_mod_cast hD31
  have hdiv : (N : ℚ) / D = (N / D : Nat) + ((N % D : Nat) : ℚ) / D := by
    have h := Nat.div_add_mod N D
    have h2 : (N : ℚ) = (D : ℚ) * ((N / D : Nat) : ℚ) + ((N % D : Nat) : ℚ) := by
      exact_mod_cast h.symm
    field_simp
    linarith
  have hP0 : (0 : ℚ) ≤ (N : ℚ) / D := by positivity
  have hPq : (N : ℚ) / D ≤ 1280 := by
    rw [div_le_iff₀ hDq]
    exact_mod_cast hP
  have hr : N % D < D := Nat.mod_lt _ hD
  have hlo2 : (N : ℚ) / D - 3840 / 2 ^ 53 ≤ p := by nlinarith
  have hhi2 : p ≤ (N : ℚ) / D + 3840 / 2 ^ 53 := by nlinarith
  generalize N / D = K at hdiv ⊢
  generalize hR : N % D = R at hdiv hr ⊢
  have hc : ((K : Int) : ℚ) = (K : ℚ) := Int.cast_natCast K
  have hc1 : (((K : Int) - 1 : Int) : ℚ) = (K : ℚ) - 1 := by push_cast; ring
  rw [hdiv] at hlo2 hhi2
  rcases Nat.eq_zero_or_pos R with h0 | hpos
  · rw [h0] at hlo2 hhi2
    simp only [Nat.cast_zero, zero_div, add_zero] at hlo2 hhi2
    norm_num at hlo2 hhi2
    by_cases hk : (K : ℚ) ≤ p
    · left
      rw [Int.floor_eq_iff, hc]
      constructor <;> linarith
    · right
      refine ⟨h0, ?_⟩
      rw [Int.floor_eq_iff, hc1]
      constructor <;> linarith [not_le.mp hk]
  · left
    have hinv : (1 : ℚ) / 2147483648 < 1 / (D : ℚ) :=
      one_div_lt_one_div_of_lt hDq hD31q
    have hr1 : (1 : ℚ) / D ≤ (R : ℚ) / D := by
      apply div_le_div_of_nonneg_right _ hDq.le
      exact_mod_cast hpos
    have hr2 : (R : ℚ) / D ≤ 1 - 1 / D := by
      have : (R : ℚ) + 1 ≤ D := by exact_mod_cast hr
      rw [div_le_iff₀ hDq]
      field_simp
      linarith
    rw [Int.floor_eq_iff, hc]
    norm_num at hlo2 hhi2
    constructor <;> linarith

lemma draw_near (s : Dbl) (M : ℚ) (hM : 0 < M)
    (hlo : M * (1 - 1 / 2 ^ 53) ≤ s.toRat) (hhi : s.toRat ≤ M * (1 + 1 / 2 ^ 53))
    (v N D : Nat) (hv : 0 < v) (hD : 0 < D) (hD31 : D < 2147483648)
    (hP : N ≤ 1280 * D) (hval : (v : ℚ) * M = (N : ℚ) / (D : ℚ)) :
    (Dbl.mulInt v s).toInt = ((N / D : Nat) : Int) ∨
      (N % D = 0 ∧ (Dbl.mulInt v s).toInt = ((N / D : Nat) : Int) - 1) := by
  have hvq : (0 : ℚ) < (v : ℚ) := by exact_mod_cast hv
  have hs : 0 < s.toRat := by
    have : (0 : ℚ) < M * (1 - 1 / 2 ^ 53) := by
      apply mul_pos hM
      norm_num
    linarith
  have he := Dbl.mulInt_err v s hv hs
  rw [abs_le] at he
  obtain ⟨he1, he2⟩ := he
  have hvs0 : 0 < (v : ℚ) * s.toRat := mul_pos hvq hs
  have hvM : 0 < (v : ℚ) * M := mul_pos hvq hM
  have h1 : (v : ℚ) * M * (1 - 1 / 2 ^ 53) ≤ (v : ℚ) * s.toRat := by
    have := mul_le_mul_of_nonneg_left hlo hvq.le
    linarith
  have h2 : (v : ℚ) * s.toRat ≤ (v : ℚ) * M * (1 + 1 / 2 ^ 53) := by
    have := mul_le_mul_of_nonneg_left hhi hvq.le
    linarith
  rw [Dbl.toInt_floor]
  apply trunc_near _ N D hD hD31 hP
  · rw [← hval]
    have : (v : ℚ) * M * (1 - 1 / 2 ^ 53) * (1 - 1 / 2 ^ 53)
        ≤ (v : ℚ) * s.toRat * (1 - 1 / 2 ^ 53) :=
      mul_le_mul_of_nonneg_right h1 (by norm_num)
    nlinarith
  · rw [← hval]
    have : (v : ℚ) * s.toRat * (1 + 1 / 2 ^ 53)
        ≤ (v : ℚ) * M * (1 + 1 / 2 ^ 53) * (1 + 1 / 2 ^ 53) :=
      mul_le_mul_of_nonneg_right h2 (by norm_num)
    nlinarith

lemma scale_bounds (W H : Nat) (hW : 0 < W) (hH : 0 < H) :
    0 < min ((1280 : ℚ) / (W : ℚ)) ((720 : ℚ) / (H : ℚ)) ∧
    min ((1280 : ℚ) / (W : ℚ)) ((720 : ℚ) / (H : ℚ)) * (1 - 1 / 2 ^ 53)
      ≤ (Dbl.std_min (roundToDouble 1280 W) (roundToDouble 720 H)).toRat ∧
    (Dbl.std_min (roundToDouble 1280 W) (roundToDouble 720 H)).toRat
      ≤ min ((1280 : ℚ) / (W : ℚ)) ((720 : ℚ) / (H : ℚ)) * (1 + 1 / 2 ^ 53) := by
  have hWq : (0 : ℚ) < (W : ℚ) := by exact_mod_cast hW
  have hHq : (0 : ℚ) < (H : ℚ) := by exact_mod_cast hH
  have hA : (0 : ℚ) < (1280 : ℚ) / W := by positivity
  have hB : (0 : ℚ) < (720 : ℚ) / H := by positivity
  have ea := roundToDouble_err 1280 W (by norm_num) hW
  have eb := roundToDouble_err 720 H (by norm_num) hH
  rw [abs_le] at ea eb
  push_cast at ea eb
  obtain ⟨ea1, ea2⟩ := ea
  obtain ⟨eb1, eb2⟩ := eb
  have hu : (0 : ℚ) ≤ 1 - 1 / 2 ^ 53 := by norm_num
  rw [Dbl.std_min_toRat]
  refine ⟨lt_min hA hB, ?_, ?_⟩
  · apply le_min
    · have : min ((1280 : ℚ) / W) ((720 : ℚ) / H) * (1 - 1 / 2 ^ 53)
          ≤ (1280 : ℚ) / W * (1 - 1 / 2 ^ 53) :=
        mul_le_mul_of_nonneg_right (min_le_left _ _) hu
      linarith
    · have : min ((1280 : ℚ) / W) ((720 : ℚ) / H) * (1 - 1 / 2 ^ 53)
          ≤ (720 : ℚ) / H * (1 - 1 / 2 ^ 53) :=
        mul_le_mul_of_nonneg_right (min_le_right _ _) hu
      linarith
  · rcases le_total ((1280 : ℚ) / W) ((720 : ℚ) / H) with h | h
    · rw [min_eq_left h]
      have := min_le_left (roundToDouble 1280 W).toRat (roundToDouble 720 H).toRat
      linarith
    · rw [min_eq_right h]
      have := min_le_right (roundToDouble 1280 W).toRat (roundToDouble 720 H).toRat
      linarith

lemma CalcLetterBoxRect_nat (W H : Nat) (hW : 0 < W) (hH : 0 < H) :
    CalcLetterBoxRect (W : Int) (H : Int) =
      { x := Int.tdiv (1280 - (Dbl.mulInt W
                (Dbl.std_min (roundToDouble 1280 W) (roundToDouble 720 H))).toInt) 2
        y := Int.tdiv (720 - (Dbl.mulInt H
                (Dbl.std_min (roundToDouble 1280 W) (roundToDouble 720 H))).toInt) 2
        w := (Dbl.mulInt W (Dbl.std_min (roundToDouble 1280 W) (roundToDouble 720 H))).toInt
        h := (Dbl.mulInt H (Dbl.std_min (roundToDouble 1280 W) (roundToDouble 720 H))).toInt } := by
  have h1 : (0 : Int) < (W : Int) ∧ (0 : Int) < (H : Int) :=
    ⟨by exact_mod_cast hW, by exact_mod_cast hH⟩
  unfold CalcLetterBoxRect
  rw [if_pos h1]
  simp only [WINDOW_W, WINDOW_H, Int.toNat_natCast]
  rfl

/-- The letterbox rectangle of a positive size below `2 ^ 31`, by cases on which
axis is filled. -/
lemma CalcLetterBoxRect_cases (video_w video_h : Int) (hw : 0 < video_w) (hh : 0 < video_h)
    (hw31 : video_w < 2147483648) (hh31 : video_h < 2147483648) :
    (1280 * video_h ≤ 720 * video_w →
      ((CalcLetterBoxRect video_w video_h).w = 1280 ∨
        (CalcLetterBoxRect video_w video_h).w = 1279) ∧
      ((CalcLetterBoxRect video_w video_h).h = 1280 * video_h / video_w ∨
        ((1280 * video_h) % video_w = 0 ∧
          (CalcLetterBoxRect video_w video_h).h = 1280 * video_h / video_w - 1))) ∧
    (720 * video_w < 1280 * video_h →
      ((CalcLetterBoxRect video_w video_h).h = 720 ∨
        (CalcLetterBoxRect video_w video_h).h = 719) ∧
      ((CalcLetterBoxRect video_w video_h).w = 720 * video_w / video_h ∨
        ((720 * video_w) % video_h = 0 ∧
          (CalcLetterBoxRect video_w video_h).w = 720 * video_w / video_h - 1))) ∧
    (CalcLetterBoxRect video_w video_h).x
      = Int.tdiv (1280 - (CalcLetterBoxRect video_w video_h).w) 2 ∧
    (CalcLetterBoxRect video_w video_h).y
      = Int.tdiv (720 - (CalcLetterBoxRect video_w video_h).h) 2 := by
  obtain ⟨W, rfl⟩ := Int.eq_ofNat_of_zero_le hw.le
  obtain ⟨H, rfl⟩ := Int.eq_ofNat_of_zero_le hh.le
  have hW : 0 < W := by exact_mod_cast hw
  have hH : 0 < H := by exact_mod_cast hh
  have hW31 : W < 2147483648 := by exact_mod_cast hw31
  have hH31 : H < 2147483648 := by exact_mod_cast hh31
  have hWq : (0 : ℚ) < (W : ℚ) := by exact_mod_cast hW
  have hHq : (0 : ℚ) < (H : ℚ) := by exact_mod_cast hH
  rw [CalcLetterBoxRect_nat W H hW hH]
  obtain ⟨hM, hlo, hhi⟩ := scale_bounds W H hW hH
  generalize Dbl.std_min (roundToDouble 1280 W) (roundToDouble 720 H) = s at hlo hhi ⊢
  dsimp only
  refine ⟨fun hc => ?_, fun hc => ?_, rfl, rfl⟩
  · have hcn : 1280 * H ≤ 720 * W := by exact_mod_cast hc
    have hcq : (1280 : ℚ) * H ≤ 720 * W := by exact_mod_cast hcn
    have hmin : min ((1280 : ℚ) / W) ((720 : ℚ) / H) = 1280 / W := by
      apply min_eq_left
      rw [div_le_div_iff₀ hWq hHq]
      exact hcq
    rw [hmin] at hM hlo hhi
    have r1 := draw_near s _ hM hlo hhi W 1280 1 hW (by norm_num) (by norm_num) (by norm_num)
      (by push_cast; field_simp)
    have r2 := draw_near s _ hM hlo hhi H (1280 * H) W hH hW hW31 (by omega)
      (by push_cast; field_simp; ring)
    constructor
    · rcases r1 with r | ⟨_, r⟩
      · left; rw [r]; norm_num
      · right; rw [r]; norm_num
    · rcases r2 with r | ⟨r0, r⟩
      · left; rw [r]; push_cast; rfl
      · right
        refine ⟨by exact_mod_cast r0, ?_⟩
        rw [r]; push_cast; rfl
  · have hcn : 720 * W < 1280 * H := by exact_mod_cast hc
    have hcq : (720 : ℚ) * W ≤ 1280 * H := by exact_mod_cast hcn.le
    have hmin : min ((1280 : ℚ) / W) ((720 : ℚ) / H) = 720 / H := by
      apply min_eq_right
      rw [div_le_div_iff₀ hHq hWq]
      exact hcq
    rw [hmin] at hM hlo hhi
    have r1 := draw_near s _ hM hlo hhi H 720 1 hH (by norm_num) (by norm_num) (by norm_num)
      (by push_cast; field_simp)
    have r2 := draw_near s _ hM hlo hhi W (720 * W) H hW hH hH31 (by omega)
      (by push_cast; field_simp; ring)
    constructor
    · rcases r1 with r | ⟨_, r⟩
      · left; rw [r]; norm_num
      · right; rw [r]; norm_num
    · rcases r2 with r | ⟨r0, r⟩
      · left; rw [r]; push_cast; rfl
      · right
        refine ⟨by exact_mod_cast r0, ?_⟩
        rw [r]; push_cast; rfl

end AVPlayer

namespace AVPlayer

/-- C23, as stated, fails: the scale is a `double`, not the result of an
integer division. A 640×480 video is drawn 960×720 at (160, 0), where the
integer scale min(1280 / 640, 720 / 480) = 1 would give 640×480 at (320, 120);
a 1920×1080 video is drawn 1280×720, where the integer scale 0 would give an
empty rectangle. -/
theorem C23_integer_scale_counterexample :
    CalcLetterBoxRect 640 480 = { x := 160, y := 0, w := 960, h := 720 } ∧
    integerScaleRect 640 480 = { x := 320, y := 120, w := 640, h := 480 } ∧
    CalcLetterBoxRect 640 480 ≠ integerScaleRect 640 480 ∧
    CalcLetterBoxRect 1920 1080 = { x := 0, y := 0, w := 1280, h := 720 } ∧
    integerScaleRect 1920 1080 = { x := 640, y := 360, w := 0, h := 0 } := by
  refine ⟨by decide, by decide, by decide, by decide, by decide⟩

/-- C23, amended (letterbox rectangle with a `double` scale). For positive
`video_w` and `video_h` below 2^31, in the arithmetic of the code (binary64,
truncation on conversion to `int`): when `1280·video_h ≤ 720·video_w` the width
is 1280 or 1279 and the height is `1280·video_h / video_w` (integer division),
or one less than that when `video_w` divides `1280·video_h`; otherwise the
height is 720 or 719 and the width is `720·video_w / video_h`, or one less when
`video_h` divides `720·video_w`. The rectangle is centred:
x = (1280 - width) / 2 and y = (720 - height) / 2, with integer division. -/
theorem C23_letterbox_double_scale (video_w video_h : Int) (hw : 0 < video_w)
    (hh : 0 < video_h) (hw31 : video_w < 2147483648) (hh31 : video_h < 2147483648) :
    (1280 * video_h ≤ 720 * video_w →
      ((CalcLetterBoxRect video_w video_h).w = 1280 ∨
        (CalcLetterBoxRect video_w video_h).w = 1279) ∧
      ((CalcLetterBoxRect video_w video_h).h = 1280 * video_h / video_w ∨
        ((1280 * video_h) % video_w = 0 ∧
          (CalcLetterBoxRect video_w video_h).h = 1280 * video_h / video_w - 1))) ∧
    (720 * video_w < 1280 * video_h →
      ((CalcLetterBoxRect video_w video_h).h = 720 ∨
        (CalcLetterBoxRect video_w video_h).h = 719) ∧
      ((CalcLetterBoxRect video_w video_h).w = 720 * video_w / video_h ∨
        ((720 * video_w) % video_h = 0 ∧
          (CalcLetterBoxRect video_w video_h).w = 720 * video_w / video_h - 1))) ∧
    (CalcLetterBoxRect video_w video_h).x
      = (1280 - (CalcLetterBoxRect video_w video_h).w) / 2 ∧
    (CalcLetterBoxRect video_w video_h).y
      = (720 - (CalcLetterBoxRect video_w video_h).h) / 2 := by
  obtain ⟨c1, c2, hx, hy⟩ := CalcLetterBoxRect_cases video_w video_h hw hh hw31 hh31
  have hbound : (CalcLetterBoxRect video_w video_h).w ≤ 1280 ∧
      (CalcLetterBoxRect video_w video_h).h ≤ 720 := by
    by_cases hc : 1280 * video_h ≤ 720 * video_w
    · obtain ⟨a, b⟩ := c1 hc
      have hq : 1280 * video_h / video_w ≤ 720 := Int.ediv_le_of_le_mul hw hc
      constructor
      · rcases a with a | a <;> omega
      · rcases b with b | ⟨_, b⟩ <;> omega
    · have hc2 : 720 * video_w < 1280 * video_h := not_le.mp hc
      obtain ⟨a, b⟩ := c2 hc2
      have hq : 720 * video_w / video_h ≤ 1280 := Int.ediv_le_of_le_mul hh hc2.le
      constructor
      · rcases b with b | ⟨_, b⟩ <;> omega
      · rcases a with a | a <;> omega
  refine ⟨c1, c2, ?_, ?_⟩
  · rw [hx]
    exact Int.tdiv_eq_ediv (by omega) (by norm_num)
  · rw [hy]
    exact Int.tdiv_eq_ediv (by omega) (by norm_num)

/-- Witness of C23: a 640×480 video. -/
theorem C23_letterbox_double_scale_witness :
    ((CalcLetterBoxRect 640 480).h = 720 ∨ (CalcLetterBoxRect 640 480).h = 719) ∧
    ((CalcLetterBoxRect 640 480).w = 720 * 640 / 480 ∨
      (((720 : Int) * 640) % 480 = 0 ∧
        (CalcLetterBoxRect 640 480).w = 720 * 640 / 480 - 1)) :=
  (C23_letterbox_double_scale 640 480 (by decide) (by decide) (by decide)
    (by decide)).2.1 (by decide)

/-- C24, as stated, fails in the arithmetic of the code. A 320×312 video is
drawn 738×719 at (271, 0): neither the width is 1280 nor the height 720 (the
product 312 × (720.0 / 312) falls just below 720 and is truncated). A 22×33
video is drawn 479×720, and |479·33 - 720·22| = 33 is not below max(22, 33). -/
theorem C24_letterbox_exact_fill_counterexample :
    CalcLetterBoxRect 320 312 = { x := 271, y := 0, w := 738, h := 719 } ∧
    (CalcLetterBoxRect 320 312).w ≠ 1280 ∧
    (CalcLetterBoxRect 320 312).h ≠ 720 ∧
    CalcLetterBoxRect 22 33 = { x := 400, y := 0, w := 479, h := 720 } ∧
    ¬ (|(CalcLetterBoxRect 22 33).w * 33 - (CalcLetterBoxRect 22 33).h * 22| < max 22 33) := by
  have h1 : CalcLetterBoxRect 320 312 = { x := 271, y := 0, w := 738, h := 719 } := by decide
  have h2 : CalcLetterBoxRect 22 33 = { x := 400, y := 0, w := 479, h := 720 } := by decide
  refine ⟨h1, ?_, ?_, h2, ?_⟩
  · rw [h1]; decide
  · rw [h1]; decide
  · rw [h2]; norm_num

/-- C24, amended (letterbox inside the window, one axis filled up to a pixel,
aspect kept up to truncation). For positive `video_w` and `video_h` below 2^31,
in the arithmetic of the code, the rectangle lies inside the 1280×720 window,
its width is 1280 or 1279 or its height is 720 or 719, and
`|w·video_h - h·video_w| ≤ max(video_w, video_h)`. -/
theorem C24_letterbox_inside (video_w video_h : Int) (hw : 0 < video_w)
    (hh : 0 < video_h) (hw31 : video_w < 2147483648) (hh31 : video_h < 2147483648) :
    0 ≤ (CalcLetterBoxRect video_w video_h).x ∧
    0 ≤ (CalcLetterBoxRect video_w video_h).y ∧
    0 ≤ (CalcLetterBoxRect video_w video_h).w ∧
    0 ≤ (CalcLetterBoxRect video_w video_h).h ∧
    (CalcLetterBoxRect video_w video_h).x + (CalcLetterBoxRect video_w video_h).w ≤ 1280 ∧
    (CalcLetterBoxRect video_w video_h).y + (CalcLetterBoxRect video_w video_h).h ≤ 720 ∧
    ((CalcLetterBoxRect video_w video_h).w = 1280 ∨
      (CalcLetterBoxRect video_w video_h).w = 1279 ∨
      (CalcLetterBoxRect video_w video_h).h = 720 ∨
      (CalcLetterBoxRect video_w video_h).h = 719) ∧
    |(CalcLetterBoxRect video_w video_h).w * video_h
        - (CalcLetterBoxRect video_w video_h).h * video_w| ≤ max video_w video_h := by
  obtain ⟨c1, c2, hx, hy⟩ := CalcLetterBoxRect_cases video_w video_h hw hh hw31 hh31
  generalize CalcLetterBoxRect video_w video_h = r at c1 c2 hx hy ⊢
  have m1 : video_w ≤ max video_w video_h := le_max_left _ _
  have m2 : video_h ≤ max video_w video_h := le_max_right _ _
  have key : ∀ (a b n d : Int), 0 < n → 0 < d → (a = 1280 ∨ a = 1279 ∨ a = 720 ∨ a = 719) →
      (b = n / d ∨ (n % d = 0 ∧ b = n / d - 1)) → a ≤ 1280 → n / d ≤ 1280 →
      0 ≤ b ∧ b ≤ n / d ∧ (b * d ≤ n ∧ n < b * d + d ∨ b * d + d = n) := by
    intro a b n d hn hd _ hb _ _
    have e1 : n / d * d ≤ n := Int.ediv_mul_le _ (ne_of_gt hd)
    have e2 : n < (n / d + 1) * d := Int.lt_ediv_add_one_mul_self _ hd
    have e0 : 0 ≤ n / d := Int.ediv_nonneg hn.le hd.le
    have e3 : (n / d + 1) * d = n / d * d + d := by ring
    rcases hb with hb | ⟨hz, hb⟩
    · rw [hb]
      exact ⟨e0, le_refl _, Or.inl ⟨e1, by linarith⟩⟩
    · have e4 : d * (n / d) + n % d = n := Int.ediv_add_emod n d
      have e5 : n / d * d = n := by rw [hz] at e4; linarith
      have e6 : 0 < n / d := by
        by_contra hneg
        have : n / d = 0 := by omega
        rw [this] at e5
        linarith
      rw [hb]
      refine ⟨by omega, by omega, Or.inr ?_⟩
      linarith
  by_cases hc : 1280 * video_h ≤ 720 * video_w
  · obtain ⟨a, b⟩ := c1 hc
    have hq : 1280 * video_h / video_w ≤ 720 := Int.ediv_le_of_le_mul hw hc
    obtain ⟨k1, k2, k3⟩ := key r.w r.h (1280 * video_h) video_w (by positivity) hw
      (by rcases a with a | a <;> simp [a]) b (by rcases a with a | a <;> omega) (by omega)
    have hw1280 : r.w ≤ 1280 := by rcases a with a | a <;> omega
    have hw0 : 0 ≤ r.w := by rcases a with a | a <;> omega
    have hxe : r.x = (1280 - r.w) / 2 := by
      rw [hx]; exact Int.tdiv_eq_ediv (by omega) (by norm_num)
    have hye : r.y = (720 - r.h) / 2 := by
      rw [hy]; exact Int.tdiv_eq_ediv (by omega) (by norm_num)
    refine ⟨by omega, by omega, hw0, k1, by omega, by omega, ?_, ?_⟩
    · rcases a with a | a
      · exact Or.inl a
      · exact Or.inr (Or.inl a)
    · rw [abs_le]
      rcases a with a | a <;> rcases k3 with ⟨k3, k4⟩ | k3 <;> rw [a] <;>
        constructor <;> linarith
  · have hc2 : 720 * video_w < 1280 * video_h := not_le.mp hc
    obtain ⟨a, b⟩ := c2 hc2
    have hq : 720 * video_w / video_h ≤ 1280 := Int.ediv_le_of_le_mul hh hc2.le
    obtain ⟨k1, k2, k3⟩ := key r.h r.w (720 * video_w) video_h (by positivity) hh
      (by rcases a with a | a <;> simp [a]) b (by rcases a with a | a <;> omega) hq
    have hh720 : r.h ≤ 720 := by rcases a with a | a <;> omega
    have hh0 : 0 ≤ r.h := by rcases a with a | a <;> omega
    have hxe : r.x = (1280 - r.w) / 2 := by
      rw [hx]; exact Int.tdiv_eq_ediv (by omega) (by norm_num)
    have hye : r.y = (720 - r.h) / 2 := by
      rw [hy]; exact Int.tdiv_eq_ediv (by omega) (by norm_num)
    refine ⟨by omega, by omega, k1, hh0, by omega, by omega, ?_, ?_⟩
    · rcases a with a | a
      · exact Or.inr (Or.inr (Or.inl a))
      · exact Or.inr (Or.inr (Or.inr a))
    · rw [abs_le]
      rcases a with a | a <;> rcases k3 with ⟨k3, k4⟩ | k3 <;> rw [a] <;>
        constructor <;> linarith

/-- Witness of C24: a 320×312 video (drawn 738×719 at (271, 0)). -/
theorem C24_letterbox_inside_witness :
    0 ≤ (CalcLetterBoxRect 320 312).x ∧
    0 ≤ (CalcLetterBoxRect 320 312).y ∧
    0 ≤ (CalcLetterBoxRect 320 312).w ∧
    0 ≤ (CalcLetterBoxRect 320 312).h ∧
    (CalcLetterBoxRect 320 312).x + (CalcLetterBoxRect 320 312).w ≤ 1280 ∧
    (CalcLetterBoxRect 320 312).y + (CalcLetterBoxRect 320 312).h ≤ 720 ∧
    ((CalcLetterBoxRect 320 312).w = 1280 ∨ (CalcLetterBoxRect 320 312).w = 1279 ∨
      (CalcLetterBoxRect 320 312).h = 720 ∨ (CalcLetterBoxRect 320 312).h = 719) ∧
    |(CalcLetterBoxRect 320 312).w * 312 - (CalcLetterBoxRect 320 312).h * 320|
      ≤ max 320 312 :=
  C24_letterbox_inside 320 312 (by decide) (by decide) (by decide) (by decide)

end AVPlayer

namespace AVPlayer

/-! ## `videoRefresh` -/

lemma videoRefresh_paused (vo : VideoOutput) (q : Queue VideoFrame) (clock : AVSync)
    (us : Int) (rt : ℚ) (hp : vo.paused_ = true) :
    vo.videoRefresh q clock us rt
      = { frame_queue_ := q, remain_time := REFRESH_RATE, calls := [] } := by
  simp [VideoOutput.videoRefresh, hp]

lemma videoRefresh_empty (vo : VideoOutput) (q : Queue VideoFrame) (clock : AVSync)
    (us : Int) (rt : ℚ) (he : q.queue_ = []) :
    vo.videoRefresh q clock us rt
      = { frame_queue_ := q, remain_time := REFRESH_RATE, calls := [] } := by
  by_cases hp : vo.paused_ = true
  · exact videoRefresh_paused vo q clock us rt hp
  · simp [VideoOutput.videoRefresh, hp, AVQueueFront, he]

lemma videoRefresh_early (vo : VideoOutput) (q : Queue VideoFrame) (clock : AVSync)
    (us : Int) (rt : ℚ) (head : VideoFrame) (rest : List VideoFrame)
    (hp : vo.paused_ = false) (ha : q.abort_ ≠ 1) (hq : q.queue_ = head :: rest)
    (hd : (clock.GetClock us).1 < (head.pts : ℚ) * vo.time_base_) :
    vo.videoRefresh q clock us rt
      = { frame_queue_ := q
          remain_time := min ((head.pts : ℚ) * vo.time_base_ - (clock.GetClock us).1)
            REFRESH_RATE
          calls := [] } := by
  have ha2 : ¬ 1 = q.abort_ := fun h => ha h.symm
  have hd2 : (head.pts : ℚ) * vo.time_base_ - (clock.GetClock us).1 > 0 := by linarith
  simp only [VideoOutput.videoRefresh, hp, AVQueueFront, hq, Queue.Front, if_neg ha2]
  simp only [Bool.false_eq_true, if_false, if_true, if_pos hd2]
  congr 1
  by_cases h : (head.pts : ℚ) * vo.time_base_ - (clock.GetClock us).1 > REFRESH_RATE
  · rw [if_pos h, min_eq_right h.le]
  · rw [if_neg h, min_eq_left (not_lt.mp h)]

lemma videoRefresh_due (vo : VideoOutput) (q : Queue VideoFrame) (clock : AVSync)
    (us : Int) (rt : ℚ) (head : VideoFrame) (rest : List VideoFrame)
    (hp : vo.paused_ = false) (ha : q.abort_ ≠ 1) (hq : q.queue_ = head :: rest)
    (hd : (head.pts : ℚ) * vo.time_base_ ≤ (clock.GetClock us).1) :
    vo.videoRefresh q clock us rt
      = { frame_queue_ := { q with queue_ := rest }
          remain_time := 0
          calls := [.SDL_UpdateYUVTexture head, .SDL_SetRenderDrawColor, .SDL_RenderClear,
            .SDL_RenderCopy (CalcLetterBoxRect vo.video_width_ vo.video_height_),
            .SDL_RenderPresent, .av_frame_free head] } := by
  have ha2 : ¬ 1 = q.abort_ := fun h => ha h.symm
  have hd2 : ¬ (head.pts : ℚ) * vo.time_base_ - (clock.GetClock us).1 > 0 := by
    intro h; linarith
  simp only [VideoOutput.videoRefresh, hp, AVQueueFront, hq, Queue.Front, if_neg ha2,
    AVQueuePop, Queue.Pop]
  simp only [Bool.false_eq_true, if_false, if_true, if_neg hd2]
  rfl

end AVPlayer

namespace AVPlayer

/-- C22 (a frame is removed exactly when it is presented). On a frame queue
used through its wrapper (an aborted one holds nothing), `videoRefresh` removes
a frame if and only if the output is not paused, the queue is non-empty and
`head.pts × time_base ≤ clock`; then the queue loses exactly its head, after
that same frame was uploaded, drawn and presented, and the frame is released;
in every other case the queue is unchanged and nothing is drawn. -/
theorem C22_video_refresh_removal (vo : VideoOutput) (q : Queue VideoFrame)
    (clock : AVSync) (us : Int) (rt : ℚ) (hq : q.abort_ = 1 → q.queue_ = []) :
    ((vo.videoRefresh q clock us rt).frame_queue_ ≠ q ↔
      (vo.isPaused = false ∧ ∃ head rest, q.queue_ = head :: rest ∧
        (head.pts : ℚ) * vo.time_base_ ≤ (clock.GetClock us).1)) ∧
    (∀ head rest, vo.isPaused = false → q.queue_ = head :: rest →
      (head.pts : ℚ) * vo.time_base_ ≤ (clock.GetClock us).1 →
      (vo.videoRefresh q clock us rt).frame_queue_ = { q with queue_ := rest } ∧
      (vo.videoRefresh q clock us rt).calls
        = [.SDL_UpdateYUVTexture head, .SDL_SetRenderDrawColor, .SDL_RenderClear,
            .SDL_RenderCopy (CalcLetterBoxRect vo.video_width_ vo.video_height_),
            .SDL_RenderPresent, .av_frame_free head]) ∧
    (¬ (vo.isPaused = false ∧ ∃ head rest, q.queue_ = head :: rest ∧
        (head.pts : ℚ) * vo.time_base_ ≤ (clock.GetClock us).1) →
      (vo.videoRefresh q clock us rt).frame_queue_ = q ∧
      (vo.videoRefresh q clock us rt).calls = []) := by
  have hdue : ∀ head rest, vo.isPaused = false → q.queue_ = head :: rest →
      (head.pts : ℚ) * vo.time_base_ ≤ (clock.GetClock us).1 →
      vo.videoRefresh q clock us rt
        = { frame_queue_ := { q with queue_ := rest }
            remain_time := 0
            calls := [.SDL_UpdateYUVTexture head, .SDL_SetRenderDrawColor, .SDL_RenderClear,
              .SDL_RenderCopy (CalcLetterBoxRect vo.video_width_ vo.video_height_),
              .SDL_RenderPresent, .av_frame_free head] } := by
    intro head rest hp hh hd
    have ha : q.abort_ ≠ 1 := by
      intro h
      rw [hq h] at hh
      exact List.noConfusion hh
    exact videoRefresh_due vo q clock us rt head rest hp ha hh hd
  have hother : ¬ (vo.isPaused = false ∧ ∃ head rest, q.queue_ = head :: rest ∧
        (head.pts : ℚ) * vo.time_base_ ≤ (clock.GetClock us).1) →
      (vo.videoRefresh q clock us rt).frame_queue_ = q ∧
      (vo.videoRefresh q clock us rt).calls = [] := by
    intro hn
    by_cases hp : vo.paused_ = true
    · rw [videoRefresh_paused vo q clock us rt hp]
      exact ⟨rfl, rfl⟩
    · have hp2 : vo.paused_ = false := by simpa using hp
      cases hh : q.queue_ with
      | nil =>
        rw [videoRefresh_empty vo q clock us rt hh]
        exact ⟨rfl, rfl⟩
      | cons head rest =>
        have ha : q.abort_ ≠ 1 := by
          intro h
          rw [hq h] at hh
          exact List.noConfusion hh
        have hd : (clock.GetClock us).1 < (head.pts : ℚ) * vo.time_base_ := by
          by_contra hc
          exact hn ⟨hp2, head, rest, hh, not_lt.mp hc⟩
        rw [videoRefresh_early vo q clock us rt head rest hp2 ha hh hd]
        exact ⟨rfl, rfl⟩
  refine ⟨⟨?_, ?_⟩, ?_, hother⟩
  · intro hne
    by_contra hn
    exact hne (hother hn).1
  · rintro ⟨hp, head, rest, hh, hd⟩
    rw [hdue head rest hp hh hd]
    intro he
    have h2 : rest = q.queue_ := congrArg Queue.queue_ he
    rw [hh] at h2
    exact List.cons_ne_self head rest h2.symm
  · intro head rest hp hh hd
    rw [hdue head rest hp hh hd]
    exact ⟨rfl, rfl⟩

/-- Witness of C22: two queued frames, the first one due. -/
theorem C22_video_refresh_removal_witness :
    (VideoOutput.videoRefresh ⟨false, 640, 480, 1 / 25⟩ ⟨0, [⟨25, 7⟩, ⟨50, 8⟩]⟩
        { pts_drift_ := 0 } 1500000 0).frame_queue_ = ⟨0, [⟨50, 8⟩]⟩ ∧
    (VideoOutput.videoRefresh ⟨false, 640, 480, 1 / 25⟩ ⟨0, [⟨25, 7⟩, ⟨50, 8⟩]⟩
        { pts_drift_ := 0 } 1500000 0).calls
      = [.SDL_UpdateYUVTexture ⟨25, 7⟩, .SDL_SetRenderDrawColor, .SDL_RenderClear,
          .SDL_RenderCopy (CalcLetterBoxRect 640 480), .SDL_RenderPresent,
          .av_frame_free ⟨25, 7⟩] :=
  (C22_video_refresh_removal ⟨false, 640, 480, 1 / 25⟩ ⟨0, [⟨25, 7⟩, ⟨50, 8⟩]⟩
    { pts_drift_ := 0 } 1500000 0 (by decide)).2.1 ⟨25, 7⟩ [⟨50, 8⟩] rfl rfl
    (by norm_num [AVSync.GetClock, AVSync.NowSec])

end AVPlayer

namespace AVPlayer

/-- C28 (the refresh loop sleeps at most 10 ms). On a frame queue used through
its wrapper, `videoRefresh` leaves in `remain_time`: 10 ms when the output is
paused or the queue is empty; min(diff, 10 ms) when the head frame is early by
diff > 0; 0 when a frame was presented. Hence 0 ≤ `remain_time` ≤ 10 ms, and
the sleep of the loop, `remain_time` in whole milliseconds, is between 0 and
10 ms. -/
theorem C28_remain_time (vo : VideoOutput) (q : Queue VideoFrame)
    (clock : AVSync) (us : Int) (rt : ℚ) (hq : q.abort_ = 1 → q.queue_ = []) :
    ((vo.isPaused = true ∨ q.queue_ = []) →
      (vo.videoRefresh q clock us rt).remain_time = 1 / 100) ∧
    (∀ head rest, vo.isPaused = false → q.queue_ = head :: rest →
      0 < (head.pts : ℚ) * vo.time_base_ - (clock.GetClock us).1 →
      (vo.videoRefresh q clock us rt).remain_time
        = min ((head.pts : ℚ) * vo.time_base_ - (clock.GetClock us).1) (1 / 100)) ∧
    (∀ head rest, vo.isPaused = false → q.queue_ = head :: rest →
      (head.pts : ℚ) * vo.time_base_ - (clock.GetClock us).1 ≤ 0 →
      (vo.videoRefresh q clock us rt).remain_time = 0 ∧
      RenderCall.SDL_RenderPresent ∈ (vo.videoRefresh q clock us rt).calls) ∧
    0 ≤ (vo.videoRefresh q clock us rt).remain_time ∧
    (vo.videoRefresh q clock us rt).remain_time ≤ 1 / 100 ∧
    0 ≤ VideoOutput.sleepMillis (vo.videoRefresh q clock us rt).remain_time ∧
    VideoOutput.sleepMillis (vo.videoRefresh q clock us rt).remain_time ≤ 10 := by
  have hab : ∀ head rest, q.queue_ = head :: rest → q.abort_ ≠ 1 := by
    intro head rest hh h
    rw [hq h] at hh
    exact List.noConfusion hh
  have h1 : (vo.isPaused = true ∨ q.queue_ = []) →
      (vo.videoRefresh q clock us rt).remain_time = 1 / 100 := by
    rintro (hp | he)
    · rw [videoRefresh_paused vo q clock us rt hp]
      rfl
    · rw [videoRefresh_empty vo q clock us rt he]
      rfl
  have h2 : ∀ head rest, vo.isPaused = false → q.queue_ = head :: rest →
      0 < (head.pts : ℚ) * vo.time_base_ - (clock.GetClock us).1 →
      (vo.videoRefresh q clock us rt).remain_time
        = min ((head.pts : ℚ) * vo.time_base_ - (clock.GetClock us).1) (1 / 100) := by
    intro head rest hp hh hd
    rw [videoRefresh_early vo q clock us rt head rest hp (hab head rest hh) hh (by linarith)]
    rfl
  have h3 : ∀ head rest, vo.isPaused = false → q.queue_ = head :: rest →
      (head.pts : ℚ) * vo.time_base_ - (clock.GetClock us).1 ≤ 0 →
      (vo.videoRefresh q clock us rt).remain_time = 0 ∧
      RenderCall.SDL_RenderPresent ∈ (vo.videoRefresh q clock us rt).calls := by
    intro head rest hp hh hd
    rw [videoRefresh_due vo q clock us rt head rest hp (hab head rest hh) hh (by linarith)]
    exact ⟨rfl, by simp⟩
  have hb : 0 ≤ (vo.videoRefresh q clock us rt).remain_time ∧
      (vo.videoRefresh q clock us rt).remain_time ≤ 1 / 100 := by
    by_cases hp : vo.paused_ = true
    · rw [h1 (Or.inl hp)]
      norm_num
    · have hp2 : vo.isPaused = false := by simpa [VideoOutput.isPaused] using hp
      cases hh : q.queue_ with
      | nil =>
        rw [h1 (Or.inr hh)]
        norm_num
      | cons head rest =>
        by_cases hd : 0 < (head.pts : ℚ) * vo.time_base_ - (clock.GetClock us).1
        · rw [h2 head rest hp2 hh hd]
          exact ⟨le_min hd.le (by norm_num), min_le_right _ _⟩
        · rw [(h3 head rest hp2 hh (not_lt.mp hd)).1]
          norm_num
  refine ⟨h1, h2, h3, hb.1, hb.2, ?_, ?_⟩
  · unfold VideoOutput.sleepMillis
    split
    · have h0 : (0 : ℚ) ≤ (vo.videoRefresh q clock us rt).remain_time * 1000 :=
        mul_nonneg hb.1 (by norm_num)
      unfold truncToInt
      rw [if_pos h0]
      exact Int.floor_nonneg.mpr h0
    · exact le_refl _
  · unfold VideoOutput.sleepMillis
    split
    · have h0 : (0 : ℚ) ≤ (vo.videoRefresh q clock us rt).remain_time * 1000 :=
        mul_nonneg hb.1 (by norm_num)
      have h10 : (vo.videoRefresh q clock us rt).remain_time * 1000 ≤ ((10 : Int) : ℚ) := by
        have := hb.2
        push_cast
        linarith
      unfold truncToInt
      rw [if_pos h0]
      have := Int.floor_le_floor h10
      rwa [Int.floor_intCast] at this
    · norm_num

/-- Witness of C28: the head frame is 4 ms early, and the loop sleeps 4 ms. -/
theorem C28_remain_time_witness :
    (VideoOutput.videoRefresh ⟨false, 640, 480, 1 / 1000⟩ ⟨0, [⟨1504, 7⟩]⟩
        { pts_drift_ := 0 } 1500000 0).remain_time
      = min (((1504 : Int) : ℚ) * (1 / 1000)
          - (AVSync.GetClock { pts_drift_ := 0 } 1500000).1) (1 / 100) :=
  (C28_remain_time ⟨false, 640, 480, 1 / 1000⟩ ⟨0, [⟨1504, 7⟩]⟩
    { pts_drift_ := 0 } 1500000 0 (by decide)).2.1 ⟨1504, 7⟩ [] rfl rfl
    (by norm_num [AVSync.GetClock, AVSync.NowSec])

end AVPlayer

namespace AVPlayer

/-! ## The decoder worker -/

lemma AVQueuePush_abort {T : Type} (q : Queue T) (v : T) :
    (AVQueuePush q v).2.abort_ = q.abort_ := by
  unfold AVQueuePush Queue.Push
  split <;> rfl

lemma AVQueuePop_abort {T : Type} (q : Queue T) (t : Int) :
    (AVQueuePop q t).2.abort_ = q.abort_ := by
  unfold AVQueuePop Queue.Pop
  cases hq : q.queue_ with
  | nil => rfl
  | cons x rest =>
    dsimp only
    by_cases ha : 1 = q.abort_
    · rw [if_pos ha]
      dsimp only
      split <;> rfl
    · rw [if_neg ha]
      dsimp only
      split <;> rfl

lemma pushFrames_abort (frames : List Nat) :
    ∀ q : Queue Nat, (pushFrames q frames).abort_ = q.abort_ := by
  induction frames with
  | nil => intro q; rfl
  | cons f rest ih =>
    intro q
    simp only [pushFrames]
    rw [ih, AVQueuePush_abort]

lemma producedFrames_snoc (codec : Codec) (packet : Packet) (todo : List Packet) :
    ∀ hist : List Packet, codecFails codec hist todo = false →
      producedFrames codec hist (todo ++ [packet])
        = producedFrames codec hist todo
          ++ (if !(codec (hist ++ todo ++ [packet])).send_ok then []
              else (codec (hist ++ todo ++ [packet])).frames) ∧
      codecFails codec hist (todo ++ [packet])
        = (!(codec (hist ++ todo ++ [packet])).send_ok
            || !(codec (hist ++ todo ++ [packet])).need_input) := by
  induction todo with
  | nil =>
    intro hist _
    simp only [List.nil_append, List.append_nil, producedFrames, codecFails]
    cases (codec (hist ++ [packet])).send_ok <;>
      cases (codec (hist ++ [packet])).need_input <;> simp
  | cons p rest ih =>
    intro hist hf
    simp only [List.cons_append, producedFrames, codecFails] at hf ⊢
    cases hs : (codec (hist ++ [p])).send_ok
    · simp [hs] at hf
    · cases hn : (codec (hist ++ [p])).need_input
      · simp [hs, hn] at hf
      · simp only [hs, hn, Bool.not_true, Bool.false_eq_true, if_false, if_true,
          List.append_eq] at hf ⊢
        have h := ih (hist ++ [p]) hf
        have e : hist ++ [p] ++ rest ++ [packet] = hist ++ p :: rest ++ [packet] := by simp
        rw [e] at h
        rw [h.1, h.2]
        exact ⟨(List.append_assoc _ _ _).symm, rfl⟩

lemma DecodeSys.body_inv (codec : Codec) (s : DecodeSys)
    (h : DecodeSys.Inv codec s) (hnf : codecFails codec [] s.sent = false)
    (hw : s.waiting = false) : DecodeSys.Inv codec (s.body codec) := by
  obtain ⟨h1, h2, h3, h4⟩ := h
  unfold DecodeSys.body
  have hv : ∀ P : Prop, codecFails codec [] s.sent = true → P := by
    intro P hf
    rw [hnf] at hf
    exact Bool.noConfusion hf
  by_cases hsz : AVQueueSize s.frame_queue_ > 10
  · rw [if_pos hsz]
    exact ⟨h1, h2, h3, h4⟩
  rw [if_neg hsz]
  have hpa := AVQueuePop_abort s.packet_queue_ 10
  dsimp only
  cases hpop : (AVQueuePop s.packet_queue_ 10).1 with
  | none =>
    dsimp only
    exact ⟨h1, fun hf => hv _ hf, by rw [hpa]; exact h3, h4⟩
  | some packet =>
    dsimp only
    have hsn := producedFrames_snoc codec packet s.sent [] hnf
    simp only [List.nil_append] at hsn
    cases hs : (codec (s.sent ++ [packet])).send_ok
    · simp only [Bool.not_false, if_true]
      refine ⟨?_, fun _ => Or.inl rfl, by dsimp only; rw [hpa]; exact h3, h4⟩
      dsimp only
      rw [hsn.1, hs, ← h1]
      simp
    · simp only [Bool.not_true, Bool.false_eq_true, if_false]
      cases hn : (codec (s.sent ++ [packet])).need_input
      · simp only [Bool.false_eq_true, if_false]
        refine ⟨?_, fun _ => Or.inr ⟨rfl, hw⟩, by dsimp only; rw [hpa]; exact h3, ?_⟩
        · dsimp only
          rw [hsn.1, hs, ← h1]
          simp
        · dsimp only
          rw [pushFrames_abort]; exact h4
      · simp only [if_true]
        refine ⟨?_, ?_, by dsimp only; rw [hpa]; exact h3, ?_⟩
        · dsimp only
          rw [hsn.1, hs, ← h1]
          simp
        · dsimp only
          rw [hsn.2, hs, hn]
          intro hc
          simp at hc
        · dsimp only
          rw [pushFrames_abort]; exact h4

lemma DecodeSys.iterate_inv (codec : Codec) (s : DecodeSys) (paused started : Bool)
    (h : DecodeSys.Inv codec s) : DecodeSys.Inv codec (s.iterate codec paused started) := by
  have h0 := h
  obtain ⟨h1, h2, h3, h4⟩ := h
  unfold DecodeSys.iterate
  by_cases hr : s.running = true
  swap
  · have hr2 : s.running = false := by simpa using hr
    rw [if_pos (by simp [hr2])]
    exact h0
  rw [if_neg (by simp [hr])]
  by_cases hw : s.waiting = true
  · rw [if_pos hw]
    have hnf : codecFails codec [] s.sent = false := by
      cases hf : codecFails codec [] s.sent
      · rfl
      · rcases h2 hf with h | h
        · rw [hr] at h; exact Bool.noConfusion h
        · rw [hw] at h; exact Bool.noConfusion h.2
    by_cases hb : (paused && started) = true
    · rw [if_pos hb]
      exact h0
    · rw [if_neg hb]
      exact DecodeSys.body_inv codec { s with waiting := false }
        ⟨h1, fun hf => by rw [hnf] at hf; exact Bool.noConfusion hf, h3, h4⟩ hnf rfl
  · have hw2 : s.waiting = false := by simpa using hw
    rw [if_neg hw]
    by_cases ha : s.abort_ = 1
    · rw [if_pos ha]
      exact ⟨h1, fun _ => Or.inl rfl, h3, h4⟩
    rw [if_neg ha]
    have hnf : codecFails codec [] s.sent = false := by
      cases hf : codecFails codec [] s.sent
      · rfl
      · rcases h2 hf with h | h
        · rw [hr] at h; exact Bool.noConfusion h
        · exact absurd h.1 ha
    by_cases hb : (paused && started) = true
    · rw [if_pos hb]
      exact ⟨h1, fun hf => by rw [hnf] at hf; exact Bool.noConfusion hf, h3, h4⟩
    · rw [if_neg hb]
      exact DecodeSys.body_inv codec s h0 hnf hw2

lemma DecodeSys.step_inv (codec : Codec) (s : DecodeSys) (st : DecodeSys.Step)
    (h : DecodeSys.Inv codec s) : DecodeSys.Inv codec (DecodeSys.step codec s st) := by
  cases st with
  | decodeIter paused started => exact DecodeSys.iterate_inv codec s paused started h
  | packetPush packet =>
    obtain ⟨h1, h2, h3, h4⟩ := h
    exact ⟨h1, h2, by simp only [DecodeSys.step]; rw [AVQueuePush_abort]; exact h3, h4⟩
  | framePop t =>
    obtain ⟨h1, h2, h3, h4⟩ := h
    exact ⟨h1, h2, h3, by simp only [DecodeSys.step]; rw [AVQueuePop_abort]; exact h4⟩
  | stop =>
    obtain ⟨h1, h2, h3, h4⟩ := h
    refine ⟨h1, fun hf => ?_, h3, h4⟩
    rcases h2 hf with h | h
    · exact Or.inl h
    · exact Or.inr ⟨rfl, h.2⟩

lemma DecodeSys.run_inv (codec : Codec) (steps : List DecodeSys.Step) :
    ∀ s : DecodeSys, DecodeSys.Inv codec s →
      DecodeSys.Inv codec (DecodeSys.run codec s steps) := by
  induction steps with
  | nil => intro s h; exact h
  | cons st rest ih =>
    intro s h
    exact ih _ (DecodeSys.step_inv codec s st h)

lemma DecodeSys.init_inv (codec : Codec) : DecodeSys.Inv codec DecodeSys.init :=
  ⟨rfl, fun h => by simp [DecodeSys.init, codecFails] at h, rfl, rfl⟩

end AVPlayer

namespace AVPlayer

lemma DecodeSys.run_append (codec : Codec) (s : DecodeSys) (a b : List DecodeSys.Step) :
    DecodeSys.run codec s (a ++ b) = DecodeSys.run codec (DecodeSys.run codec s a) b := by
  simp [DecodeSys.run, List.foldl_append]

lemma pushFrames_running (frames : List Nat) :
    ∀ items : List Nat,
      pushFrames { abort_ := 0, queue_ := items } frames
        = { abort_ := 0, queue_ := items ++ frames } := by
  induction frames with
  | nil => intro items; simp [pushFrames]
  | cons f rest ih =>
    intro items
    simp [pushFrames, AVQueuePush, Queue.Push, ih]

lemma DecodeSys.drain (codec : Codec) (frames : List Nat) :
    ∀ s : DecodeSys, s.frame_queue_ = { abort_ := 0, queue_ := frames } →
      ∃ steps, DecodeSys.run codec s steps = { s with frame_queue_ := Queue.new } := by
  induction frames with
  | nil =>
    intro s hs
    refine ⟨[], ?_⟩
    cases s
    simp_all [DecodeSys.run, Queue.new]
  | cons f rest ih =>
    intro s hs
    obtain ⟨steps, h⟩ :=
      ih { s with frame_queue_ := { abort_ := 0, queue_ := rest } } rfl
    refine ⟨DecodeSys.Step.framePop 0 :: steps, ?_⟩
    have h1 : DecodeSys.step codec s (.framePop 0)
        = { s with frame_queue_ := { abort_ := 0, queue_ := rest } } := by
      simp [DecodeSys.step, AVQueuePop, Queue.Pop, hs]
    simp only [DecodeSys.run, List.foldl_cons] at h ⊢
    rw [h1, h]

lemma DecodeSys.feed (codec : Codec) (todo : List Packet) :
    ∀ s : DecodeSys, s.running = true → s.waiting = false → s.abort_ = 0 →
      s.packet_queue_ = Queue.new →
      s.frame_queue_ = Queue.new →
      ∃ steps, (DecodeSys.run codec s steps).pushed
        = s.pushed ++ producedFrames codec s.sent todo := by
  induction todo with
  | nil =>
    intro s _ _ _ _ _
    exact ⟨[], by simp [DecodeSys.run, producedFrames]⟩
  | cons p rest ih =>
    intro s hr hw ha hpq hfq
    cases hs : (codec (s.sent ++ [p])).send_ok with
    | false =>
      refine ⟨[.packetPush p, .decodeIter false true], ?_⟩
      simp [DecodeSys.run, DecodeSys.step, DecodeSys.iterate, DecodeSys.body, hr, hw, ha, hpq, hfq, AVQueuePush,
        AVQueuePop, AVQueueSize, Queue.Push, Queue.Pop, Queue.Size, Queue.new, hs,
        producedFrames]
    | true =>
      cases hn : (codec (s.sent ++ [p])).need_input with
      | false =>
        refine ⟨[.packetPush p, .decodeIter false true], ?_⟩
        simp [DecodeSys.run, DecodeSys.step, DecodeSys.iterate, DecodeSys.body, hr, hw, ha, hpq, hfq, AVQueuePush,
          AVQueuePop, AVQueueSize, Queue.Push, Queue.Pop, Queue.Size, Queue.new, hs, hn,
          producedFrames]
      | true =>
        have h2 : DecodeSys.run codec s [.packetPush p, .decodeIter false true]
            = { s with frame_queue_ :=
                    { abort_ := 0, queue_ := (codec (s.sent ++ [p])).frames }
                       sent := s.sent ++ [p]
                       pushed := s.pushed ++ (codec (s.sent ++ [p])).frames } := by
          simp [DecodeSys.run, DecodeSys.step, DecodeSys.iterate, DecodeSys.body, hr, hw, ha, hpq, hfq,
            AVQueuePush, AVQueuePop, AVQueueSize, Queue.Push, Queue.Pop, Queue.Size,
            Queue.new, hs, hn, pushFrames_running]
        obtain ⟨d, hd⟩ := DecodeSys.drain codec (codec (s.sent ++ [p])).frames
          { s with frame_queue_ :=
                    { abort_ := 0, queue_ := (codec (s.sent ++ [p])).frames }
                   sent := s.sent ++ [p]
                   pushed := s.pushed ++ (codec (s.sent ++ [p])).frames } rfl
        obtain ⟨e, he⟩ := ih
          { s with frame_queue_ := Queue.new
                   sent := s.sent ++ [p]
                   pushed := s.pushed ++ (codec (s.sent ++ [p])).frames } hr hw ha hpq rfl
        refine ⟨[.packetPush p, .decodeIter false true] ++ d ++ e, ?_⟩
        rw [DecodeSys.run_append, DecodeSys.run_append, h2, hd]
        dsimp only at he ⊢
        rw [he]
        simp [producedFrames, hs, hn]

end AVPlayer

namespace AVPlayer

lemma pushFrames_queue (frames : List Nat) :
    ∀ q : Queue Nat, q.abort_ = 0 →
      (pushFrames q frames).queue_ = q.queue_ ++ frames ∧ (pushFrames q frames).abort_ = 0 := by
  induction frames with
  | nil => intro q h; exact ⟨by simp [pushFrames], h⟩
  | cons f rest ih =>
    intro q h
    obtain ⟨p1, p2⟩ := AVQueuePush_running q f h
    obtain ⟨r1, r2⟩ := ih (AVQueuePush q f).2 p2
    simp only [pushFrames]
    exact ⟨by rw [r1, p1, List.append_assoc]; rfl, r2⟩

/-- The rest of a pass keeps the account of both queues: the frames handed to
the output followed by those in the frame queue are the frames pushed, and the
packets submitted followed by those in the packet queue are the packets the
demuxer pushed. -/
lemma DecodeSys.body_accounted (codec : Codec) (s : DecodeSys) (tf : List Nat)
    (op : List Packet)
    (h : s.packet_queue_.abort_ = 0 ∧ s.frame_queue_.abort_ = 0 ∧
      tf ++ s.frame_queue_.queue_ = s.pushed ∧ s.sent ++ s.packet_queue_.queue_ = op) :
    (s.body codec).packet_queue_.abort_ = 0 ∧ (s.body codec).frame_queue_.abort_ = 0 ∧
      tf ++ (s.body codec).frame_queue_.queue_ = (s.body codec).pushed ∧
      (s.body codec).sent ++ (s.body codec).packet_queue_.queue_ = op := by
  obtain ⟨hp, hf, hqf, hqp⟩ := h
  unfold DecodeSys.body
  by_cases hsz : AVQueueSize s.frame_queue_ > 10
  · rw [if_pos hsz]
    exact ⟨hp, hf, hqf, hqp⟩
  rw [if_neg hsz]
  obtain ⟨p1, p2⟩ := AVQueuePop_taken s.packet_queue_ 10 hp
  dsimp only
  cases hpop : (AVQueuePop s.packet_queue_ 10).1 with
  | none =>
    rw [hpop] at p1
    dsimp only
    refine ⟨p2, hf, hqf, ?_⟩
    rw [← hqp, ← p1]
    rfl
  | some packet =>
    rw [hpop] at p1
    have hsent : (s.sent ++ [packet]) ++ (AVQueuePop s.packet_queue_ 10).2.queue_ = op := by
      rw [List.append_assoc, ← hqp, ← p1]
      rfl
    obtain ⟨f1, f2⟩ := pushFrames_queue (codec (s.sent ++ [packet])).frames s.frame_queue_ hf
    have hpush : tf ++ (pushFrames s.frame_queue_ (codec (s.sent ++ [packet])).frames).queue_
        = s.pushed ++ (codec (s.sent ++ [packet])).frames := by
      rw [f1, ← List.append_assoc, hqf]
    dsimp only
    cases hs : (codec (s.sent ++ [packet])).send_ok
    · simp only [Bool.not_false, if_true]
      exact ⟨p2, hf, hqf, hsent⟩
    · simp only [Bool.not_true, Bool.false_eq_true, if_false]
      cases hn : (codec (s.sent ++ [packet])).need_input
      · simp only [Bool.false_eq_true, if_false]
        exact ⟨p2, f2, hpush, hsent⟩
      · simp only [if_true]
        exact ⟨p2, f2, hpush, hsent⟩

lemma DecodeSys.step_accounted (codec : Codec) (s : DecodeSys) (st : DecodeSys.Step)
    (tf : List Nat) (op : List Packet)
    (h : s.packet_queue_.abort_ = 0 ∧ s.frame_queue_.abort_ = 0 ∧
      tf ++ s.frame_queue_.queue_ = s.pushed ∧ s.sent ++ s.packet_queue_.queue_ = op) :
    (s.step codec st).packet_queue_.abort_ = 0 ∧ (s.step codec st).frame_queue_.abort_ = 0 ∧
      (tf ++ s.framesGot st) ++ (s.step codec st).frame_queue_.queue_
        = (s.step codec st).pushed ∧
      (s.step codec st).sent ++ (s.step codec st).packet_queue_.queue_
        = op ++ DecodeSys.packetOffered st := by
  have h0 := h
  obtain ⟨hp, hf, hqf, hqp⟩ := h
  cases st with
  | decodeIter paused started =>
    simp only [DecodeSys.step, DecodeSys.framesGot, DecodeSys.packetOffered, List.append_nil,
      DecodeSys.iterate]
    split_ifs
    · exact h0
    · exact h0
    · exact DecodeSys.body_accounted codec { s with waiting := false } tf op h0
    · exact h0
    · exact h0
    · exact DecodeSys.body_accounted codec s tf op h0
  | packetPush packet =>
    obtain ⟨p1, p2⟩ := AVQueuePush_running s.packet_queue_ packet hp
    simp only [DecodeSys.step, DecodeSys.framesGot, DecodeSys.packetOffered, List.append_nil]
    refine ⟨p2, hf, hqf, ?_⟩
    rw [p1, ← List.append_assoc, hqp]
  | framePop t =>
    obtain ⟨p1, p2⟩ := AVQueuePop_taken s.frame_queue_ t hf
    simp only [DecodeSys.step, DecodeSys.framesGot, DecodeSys.packetOffered, List.append_nil]
    refine ⟨hp, p2, ?_, hqp⟩
    rw [List.append_assoc, p1, hqf]
  | stop =>
    simpa [DecodeSys.step, DecodeSys.framesGot, DecodeSys.packetOffered] using h0

lemma DecodeSys.run_accounted (codec : Codec) (steps : List DecodeSys.Step) :
    ∀ (s : DecodeSys) (tf : List Nat) (op : List Packet),
      (s.packet_queue_.abort_ = 0 ∧ s.frame_queue_.abort_ = 0 ∧
        tf ++ s.frame_queue_.queue_ = s.pushed ∧ s.sent ++ s.packet_queue_.queue_ = op) →
      ((tf ++ s.framesTaken codec steps) ++ (s.run codec steps).frame_queue_.queue_
          = (s.run codec steps).pushed ∧
        (s.run codec steps).sent ++ (s.run codec steps).packet_queue_.queue_
          = op ++ DecodeSys.packetsOffered steps) := by
  induction steps with
  | nil =>
    intro s tf op h
    simpa [DecodeSys.framesTaken, DecodeSys.packetsOffered, DecodeSys.run] using h.2.2
  | cons st steps ih =>
    intro s tf op h
    have h2 := ih (s.step codec st) (tf ++ s.framesGot st) (op ++ DecodeSys.packetOffered st)
      (s.step_accounted codec st tf op h)
    simpa only [DecodeSys.run, List.foldl_cons, DecodeSys.framesTaken,
      DecodeSys.packetsOffered, List.append_assoc] using h2

/-- C21 (the decoder pushes exactly what the codec produced). After any
sequence of turns of the worker, packet pushes by the demuxer, frame pops by
the output and stop requests: the packets the worker has submitted, followed
by those still in its packet queue, are the packets pushed to that queue; the
frames that went through the frame queue (those the output has received,
followed by those still in the queue) are exactly the frames the codec
produced for the packets submitted, in order, up to the first submit or
receive error, and they are the frames passed to `Push`; once such an error has
occurred the loop has ended or ends at its next turn, which submits and pushes
nothing more; no queue is aborted. Every sequence of produced frames is
reached by some run. -/
theorem C21_decoder_pushes_produced (codec : Codec) (steps : List DecodeSys.Step) :
    (DecodeSys.run codec DecodeSys.init steps).sent
      ++ (DecodeSys.run codec DecodeSys.init steps).packet_queue_.queue_
      = DecodeSys.packetsOffered steps ∧
    DecodeSys.init.framesTaken codec steps
      ++ (DecodeSys.run codec DecodeSys.init steps).frame_queue_.queue_
      = producedFrames codec [] (DecodeSys.run codec DecodeSys.init steps).sent ∧
    (DecodeSys.run codec DecodeSys.init steps).pushed
      = producedFrames codec [] (DecodeSys.run codec DecodeSys.init steps).sent ∧
    (codecFails codec [] (DecodeSys.run codec DecodeSys.init steps).sent = true →
      ∀ paused started,
        ((DecodeSys.run codec DecodeSys.init steps).iterate codec paused started).running
          = false ∧
        ((DecodeSys.run codec DecodeSys.init steps).iterate codec paused started).sent
          = (DecodeSys.run codec DecodeSys.init steps).sent ∧
        ((DecodeSys.run codec DecodeSys.init steps).iterate codec paused
            started).frame_queue_
          = (DecodeSys.run codec DecodeSys.init steps).frame_queue_) ∧
    (DecodeSys.run codec DecodeSys.init steps).packet_queue_.abort_ = 0 ∧
    (DecodeSys.run codec DecodeSys.init steps).frame_queue_.abort_ = 0 ∧
    (∀ packets, ∃ steps2,
      DecodeSys.init.framesTaken codec steps2
        ++ (DecodeSys.run codec DecodeSys.init steps2).frame_queue_.queue_
      = producedFrames codec [] packets) := by
  obtain ⟨h1, h2, h3, h4⟩ :=
    DecodeSys.run_inv codec steps DecodeSys.init (DecodeSys.init_inv codec)
  have hq := DecodeSys.run_accounted codec steps DecodeSys.init [] [] ⟨rfl, rfl, rfl, rfl⟩
  simp only [List.nil_append] at hq
  obtain ⟨q1, q2⟩ := hq
  refine ⟨q2, by rw [q1, h1], h1, ?_, h3, h4, ?_⟩
  · intro hf paused started
    generalize DecodeSys.run codec DecodeSys.init steps = s at h2 hf ⊢
    unfold DecodeSys.iterate
    by_cases hr : s.running = true
    · have ha : s.abort_ = 1 ∧ s.waiting = false := by
        rcases h2 hf with h | h
        · rw [hr] at h; exact Bool.noConfusion h
        · exact h
      simp [hr, ha.1, ha.2]
    · have hr2 : s.running = false := by simpa using hr
      simp [hr2]
  · intro packets
    obtain ⟨steps2, h⟩ := DecodeSys.feed codec packets DecodeSys.init rfl rfl rfl rfl rfl
    have hq2 := DecodeSys.run_accounted codec steps2 DecodeSys.init [] [] ⟨rfl, rfl, rfl, rfl⟩
    simp only [List.nil_append] at hq2
    refine ⟨steps2, ?_⟩
    rw [hq2.1, h]
    simp [DecodeSys.init]

/-- Witness of C21: a codec that refuses the first packet. -/
theorem C21_decoder_pushes_produced_witness :
    ((DecodeSys.run (fun _ => ⟨false, [], false⟩) DecodeSys.init
        [.packetPush ⟨0, 1⟩, .decodeIter false true]).iterate
          (fun _ => ⟨false, [], false⟩) false true).running = false :=
  ((C21_decoder_pushes_produced (fun _ => ⟨false, [], false⟩)
    [.packetPush ⟨0, 1⟩, .decodeIter false true]).2.2.2.1 rfl false true).1

end AVPlayer

namespace AVPlayer

/-! ## The numeric cursor invariant -/

lemma copyPass_bounds (v : CbVars) (a : AudioOutput) (h : a.cursorInBounds) :
    (∀ v1, copyPass v a = .next v1 → v1.out.cursorInBounds) ∧
    (∀ v1 e, copyPass v a = .stop v1 e → v1.out.cursorInBounds) := by
  obtain ⟨h1, h2⟩ := h
  have key : ∀ n : Int, 0 ≤ n →
      n ≤ toI32 ((a.audio_buf_size : Int) - (a.audio_buf_index : Int)) →
      toU32 ((a.audio_buf_index : Int) + n) ≤ a.audio_buf_size := by
    intro n hn hle
    have hd : toI32 ((a.audio_buf_size : Int) - (a.audio_buf_index : Int))
        ≤ (a.audio_buf_size : Int) - (a.audio_buf_index : Int) := by
      unfold toI32
      split <;> omega
    rw [toU32_of_range (by omega) (by omega)]
    omega
  unfold copyPass AudioOutput.copyStep
  simp only
  split_ifs with c1 c2
  · exact ⟨(fun v1 h => by cases h), (fun v1 e h => by cases h; exact ⟨h1, h2⟩)⟩
  · have hb := key v.len (by omega) (by omega)
    cases hbuf : a.audio_buf_ with
    | none =>
      refine ⟨fun v1 h => ?_, (fun v1 e h => by cases h)⟩
      cases h
      exact ⟨hb, h2⟩
    | some buf =>
      simp only
      split_ifs
      · refine ⟨fun v1 h => ?_, (fun v1 e h => by cases h)⟩
        cases h
        exact ⟨hb, h2⟩
      · exact ⟨(fun v1 h => by cases h), (fun v1 e h => by cases h; exact ⟨h1, h2⟩)⟩
  · exact ⟨(fun v1 h => by cases h), (fun v1 e h => by cases h; exact ⟨h1, h2⟩)⟩
  · have hb := key (toI32 ((a.audio_buf_size : Int) - (a.audio_buf_index : Int)))
      (by omega) (le_refl _)
    cases hbuf : a.audio_buf_ with
    | none =>
      refine ⟨fun v1 h => ?_, (fun v1 e h => by cases h)⟩
      cases h
      exact ⟨hb, h2⟩
    | some buf =>
      simp only
      split_ifs
      · refine ⟨fun v1 h => ?_, (fun v1 e h => by cases h)⟩
        cases h
        exact ⟨hb, h2⟩
      · exact ⟨(fun v1 h => by cases h), (fun v1 e h => by cases h; exact ⟨h1, h2⟩)⟩

lemma refill_bounds (a : AudioOutput) (tb : ℚ) (r : Refill)
    (hix : a.audio_buf_index = 0) (hsz : a.audio_buf_size < 4294967296) :
    (∀ a1 e, a.refill tb r = .leave a1 e → a1.cursorInBounds) ∧
    (∀ a1, a.refill tb r = .again a1 → a1.cursorInBounds) ∧
    (∀ a1, a.refill tb r = .proceed a1 → a1.cursorInBounds) := by
  have h0 : a.cursorInBounds := ⟨by rw [hix]; exact Nat.zero_le _, hsz⟩
  have hz : ∀ n : Nat, n < 4294967296 → a.audio_buf_index ≤ n ∧ n < 4294967296 :=
    fun n hn => ⟨by rw [hix]; exact Nat.zero_le _, hn⟩
  cases r with
  | noFrame =>
    refine ⟨(fun a1 e h => by cases h), (fun a1 h => by cases h), fun a1 h => ?_⟩
    cases h
    exact hz 512 (by omega)
  | addFrameFails =>
    refine ⟨(fun a1 e h => by cases h), fun a1 h => ?_, (fun a1 h => by cases h)⟩
    cases h
    exact h0
  | getFrameFails =>
    refine ⟨(fun a1 e h => by cases h), fun a1 h => ?_, (fun a1 h => by cases h)⟩
    cases h
    exact hz 512 (by omega)
  | filtered f =>
    unfold AudioOutput.refill
    simp only
    split_ifs <;>
      refine ⟨fun a1 e h => ?_, fun a1 h => ?_, fun a1 h => ?_⟩ <;>
      first
        | (cases h; done)
        | (cases h; exact h0)
        | (cases h; exact hz _ (toU32_lt _))

lemma loopBody_bounds (tb : ℚ) (v : CbVars) (h : v.out.cursorInBounds) :
    (∀ v1, loopBody tb v = .next v1 → v1.out.cursorInBounds) ∧
    (∀ v1 e, loopBody tb v = .stop v1 e → v1.out.cursorInBounds) := by
  unfold loopBody
  split_ifs with hp hidx
  · exact ⟨(fun v1 h => by cases h), (fun v1 e h2 => by cases h2; exact h)⟩
  · obtain ⟨hl, ha, hpr⟩ := refill_bounds ({ v.out with audio_buf_index := 0 } : AudioOutput)
      tb (v.script.headD Refill.noFrame) rfl h.2
    simp only
    cases hr : AudioOutput.refill ({ v.out with audio_buf_index := 0 } : AudioOutput) tb
        (v.script.headD Refill.noFrame) with
    | leave a1 e =>
      exact ⟨(fun v1 h => by cases h), (fun v1 e2 h2 => by cases h2; exact hl a1 e hr)⟩
    | again a1 =>
      exact ⟨(fun v1 h2 => by cases h2; exact ha a1 hr), (fun v1 e h => by cases h)⟩
    | proceed a1 =>
      exact copyPass_bounds _ a1 (hpr a1 hr)
  · exact copyPass_bounds v v.out h

lemma callbackLoop_bounds (tb : ℚ) :
    ∀ (fuel : Nat) (v : CbVars), v.out.cursorInBounds →
      (callbackLoop tb fuel v).1.out.cursorInBounds := by
  intro fuel
  induction fuel with
  | zero => intro v h; exact h
  | succ fuel ih =>
    intro v h
    unfold callbackLoop
    by_cases h0 : v.len ≤ 0
    · rw [if_pos h0]
      exact h
    · rw [if_neg h0]
      obtain ⟨c1, c2⟩ := loopBody_bounds tb v h
      cases hb : loopBody tb v with
      | stop v1 e => exact c2 v1 e hb
      | next v1 => exact ih v1 (c1 v1 hb)

lemma AudioOutput.destroyGraph_cursor (a : AudioOutput) :
    a.destroyGraph.1.swr_ctx_ = a.swr_ctx_ ∧ a.destroyGraph.1.dst_tgt_ = a.dst_tgt_ ∧
    a.destroyGraph.1.audio_buf_ = a.audio_buf_ ∧
    a.destroyGraph.1.audio_buf_size = a.audio_buf_size ∧
    a.destroyGraph.1.audio_buf_index = a.audio_buf_index := by
  unfold AudioOutput.destroyGraph
  split <;> exact ⟨rfl, rfl, rfl, rfl, rfl⟩

lemma AudioOutput.rebuildGraph_cursor (a : AudioOutput) (ext : Rebuild) :
    (a.rebuildGraph ext).1.swr_ctx_ = a.swr_ctx_ ∧
    (a.rebuildGraph ext).1.dst_tgt_ = a.dst_tgt_ ∧
    (ext = .ok → (a.rebuildGraph ext).1.audio_buf_ = none ∧
      (a.rebuildGraph ext).1.audio_buf_size = 0 ∧
      (a.rebuildGraph ext).1.audio_buf_index = 0) ∧
    (ext ≠ .ok → (a.rebuildGraph ext).1.audio_buf_ = a.audio_buf_ ∧
      (a.rebuildGraph ext).1.audio_buf_size = a.audio_buf_size ∧
      (a.rebuildGraph ext).1.audio_buf_index = a.audio_buf_index) := by
  cases ext <;>
    exact ⟨rfl, rfl, (fun h => by first | exact ⟨rfl, rfl, rfl⟩ | cases h),
      (fun h => by first | exact ⟨rfl, rfl, rfl⟩ | exact absurd rfl h)⟩

/-- What `SetSpeed` does to the cursor, the resampler and the target format,
with `c` the value of `s` after the clamp of the code. -/
lemma AudioOutput.SetSpeed_cursor (a : AudioOutput) (s : F32) (ext : Rebuild) :
    (F32.eq (if F32.lt s F32.half then F32.half else s) a.speed_ = true →
      a.SetSpeed s ext = (a, [])) ∧
    (a.SetSpeed s ext).1.swr_ctx_ = a.swr_ctx_ ∧
    (a.SetSpeed s ext).1.dst_tgt_ = a.dst_tgt_ ∧
    (F32.eq (if F32.lt s F32.half then F32.half else s) a.speed_ = false → ext = .ok →
      (a.SetSpeed s ext).1.audio_buf_ = none ∧
      (a.SetSpeed s ext).1.audio_buf_size = 0 ∧
      (a.SetSpeed s ext).1.audio_buf_index = 0) ∧
    (ext ≠ .ok →
      (a.SetSpeed s ext).1.audio_buf_ = a.audio_buf_ ∧
      (a.SetSpeed s ext).1.audio_buf_size = a.audio_buf_size ∧
      (a.SetSpeed s ext).1.audio_buf_index = a.audio_buf_index) := by
  unfold AudioOutput.SetSpeed
  generalize (if F32.lt s F32.half then F32.half else s) = c
  simp only
  by_cases he : F32.eq c a.speed_ = true
  · rw [if_pos he]
    exact ⟨fun _ => rfl, rfl, rfl, (fun h => by rw [he] at h; exact Bool.noConfusion h),
      fun _ => ⟨rfl, rfl, rfl⟩⟩
  · rw [if_neg he]
    obtain ⟨d1, d2, d3, d4, d5⟩ := AudioOutput.destroyGraph_cursor
      { a with speed_ := c, sdl_paused := true }
    obtain ⟨r1, r2, r3, r4⟩ := AudioOutput.rebuildGraph_cursor
      (AudioOutput.destroyGraph { a with speed_ := c, sdl_paused := true }).1 ext
    refine ⟨fun h => absurd h he, ?_, ?_, fun _ hok => r3 hok, fun hne => ?_⟩
    · exact r1.trans d1
    · exact r2.trans d2
    · obtain ⟨q1, q2, q3⟩ := r4 hne
      exact ⟨q1.trans d3, q2.trans d4, q3.trans d5⟩

lemma AudioOutput.SetSpeed_bounds (a : AudioOutput) (s : F32) (ext : Rebuild)
    (h : a.cursorInBounds) : (a.SetSpeed s ext).1.cursorInBounds := by
  obtain ⟨c1, _, _, c4, c5⟩ := AudioOutput.SetSpeed_cursor a s ext
  by_cases he : F32.eq (if F32.lt s F32.half then F32.half else s) a.speed_ = true
  · rw [c1 he]
    exact h
  · have he2 : F32.eq (if F32.lt s F32.half then F32.half else s) a.speed_ = false := by
      simpa using he
    by_cases hok : ext = .ok
    · obtain ⟨_, q2, q3⟩ := c4 he2 hok
      unfold AudioOutput.cursorInBounds
      rw [q2, q3]
      omega
    · obtain ⟨_, q2, q3⟩ := c5 hok
      unfold AudioOutput.cursorInBounds
      rw [q2, q3]
      exact h

end AVPlayer

namespace AVPlayer

/-- C25 (the cursor invariant and the copy step), with the run on which it
breaks. The numeric invariant `audio_buf_index ≤ audio_buf_size` (in `uint32_t`)
holds after construction and is kept by every `SetSpeed` and by every
invocation of the callback. It does not bound the copy: when the resampler
converts a frame to 0 samples, the size of the converted data comes out as the
error code -22, which the callback stores unchecked in `audio_buf_size`
(4294967274 as `uint32_t`); the copy step then has length `len3 = -22`, a
`memcpy` reading past the end of the buffer. -/
theorem C25_cursor_bounds_but_negative_copy :
    (∀ audio_params dst0, (AudioOutput.new audio_params dst0).cursorInBounds) ∧
    (∀ (a : AudioOutput) s ext, a.cursorInBounds → (a.SetSpeed s ext).1.cursorInBounds) ∧
    (∀ (a : AudioOutput) tb clock us script len, a.cursorInBounds →
      (sdl_audio_callback a tb clock us script len).out.cursorInBounds) ∧
    (sdl_audio_callback
      ((AudioOutput.new ⟨48000, 2, 8⟩ ⟨0, 0, 0⟩).InitOk ⟨true, true, true, true⟩)
      (1 / 48000) ⟨0⟩ 1000000
      [.filtered { pts := 1024, params := ⟨48000, 2, 8⟩, swr_init_ok := true,
                   out_bytes := 5120, len2 := 0, conv_bytes := -22, data := [] }]
      2048).exit = .undefinedCopy ∧
    (sdl_audio_callback
      ((AudioOutput.new ⟨48000, 2, 8⟩ ⟨0, 0, 0⟩).InitOk ⟨true, true, true, true⟩)
      (1 / 48000) ⟨0⟩ 1000000
      [.filtered { pts := 1024, params := ⟨48000, 2, 8⟩, swr_init_ok := true,
                   out_bytes := 5120, len2 := 0, conv_bytes := -22, data := [] }]
      2048).out.audio_buf_size = 4294967274 ∧
    (sdl_audio_callback
      ((AudioOutput.new ⟨48000, 2, 8⟩ ⟨0, 0, 0⟩).InitOk ⟨true, true, true, true⟩)
      (1 / 48000) ⟨0⟩ 1000000
      [.filtered { pts := 1024, params := ⟨48000, 2, 8⟩, swr_init_ok := true,
                   out_bytes := 5120, len2 := 0, conv_bytes := -22, data := [] }]
      2048).out.audio_buf_index = 0 ∧
    toI32 ((4294967274 : Int) - 0) = -22 ∧
    (sdl_audio_callback
      ((AudioOutput.new ⟨48000, 2, 8⟩ ⟨0, 0, 0⟩).InitOk ⟨true, true, true, true⟩)
      (1 / 48000) ⟨0⟩ 1000000
      [.filtered { pts := 1024, params := ⟨48000, 2, 8⟩, swr_init_ok := true,
                   out_bytes := 5120, len2 := 0, conv_bytes := -22, data := [] }]
      2048).out.copyStep 2048 = none := by
  refine ⟨fun _ _ => ⟨le_refl _, by show (0 : Nat) < 4294967296; omega⟩,
    fun a s ext h => AudioOutput.SetSpeed_bounds a s ext h,
    fun a tb clock us script len h => callbackLoop_bounds tb _ _ h,
    rfl, rfl, rfl, by decide, rfl⟩

/-- Witness of C25: the numeric invariant across the failing invocation. -/
theorem C25_cursor_bounds_but_negative_copy_witness :
    (sdl_audio_callback
      ((AudioOutput.new ⟨48000, 2, 8⟩ ⟨0, 0, 0⟩).InitOk ⟨true, true, true, true⟩)
      (1 / 48000) ⟨0⟩ 1000000
      [.filtered { pts := 1024, params := ⟨48000, 2, 8⟩, swr_init_ok := true,
                   out_bytes := 5120, len2 := 0, conv_bytes := -22, data := [] }]
      2048).out.cursorInBounds :=
  C25_cursor_bounds_but_negative_copy.2.2.1
    ((AudioOutput.new ⟨48000, 2, 8⟩ ⟨0, 0, 0⟩).InitOk ⟨true, true, true, true⟩)
    (1 / 48000) ⟨0⟩ 1000000
    [.filtered { pts := 1024, params := ⟨48000, 2, 8⟩, swr_init_ok := true,
                 out_bytes := 5120, len2 := 0, conv_bytes := -22, data := [] }]
    2048 ⟨le_refl _, by decide⟩

end AVPlayer

namespace AVPlayer

/-- C26, as stated, fails when the rebuild of the filter graph fails:
`avfilter_graph_alloc` returning null on `SetSpeed(0.5f)` at speed 1.0 leaves the
cursor as it was, here (buffer, 512, 100), with the new speed stored. -/
theorem C26_failed_rebuild_keeps_cursor_counterexample :
    F32.eq (F32.clamp F32.half) F32.one = false ∧
    ((AudioOutput.SetSpeed
      { (AudioOutput.new ⟨48000, 2, 8⟩ ⟨0, 0, 0⟩).InitOk ⟨true, true, true, true⟩ with
        audio_buf_ := some (List.replicate 512 7), audio_buf_size := 512,
        audio_buf_index := 100 }
      F32.half .allocFails).1.audio_buf_ = some (List.replicate 512 7)) ∧
    ((AudioOutput.SetSpeed
      { (AudioOutput.new ⟨48000, 2, 8⟩ ⟨0, 0, 0⟩).InitOk ⟨true, true, true, true⟩ with
        audio_buf_ := some (List.replicate 512 7), audio_buf_size := 512,
        audio_buf_index := 100 }
      F32.half .allocFails).1.audio_buf_size = 512) ∧
    ((AudioOutput.SetSpeed
      { (AudioOutput.new ⟨48000, 2, 8⟩ ⟨0, 0, 0⟩).InitOk ⟨true, true, true, true⟩ with
        audio_buf_ := some (List.replicate 512 7), audio_buf_size := 512,
        audio_buf_index := 100 }
      F32.half .allocFails).1.audio_buf_index = 100) ∧
    ((AudioOutput.SetSpeed
      { (AudioOutput.new ⟨48000, 2, 8⟩ ⟨0, 0, 0⟩).InitOk ⟨true, true, true, true⟩ with
        audio_buf_ := some (List.replicate 512 7), audio_buf_size := 512,
        audio_buf_index := 100 }
      F32.half .allocFails).1.speed_ = F32.half) := by
  refine ⟨?_, ?_, ?_, ?_, ?_⟩ <;>
    norm_num [AudioOutput.SetSpeed, AudioOutput.new, AudioOutput.InitOk,
      AudioOutput.destroyGraph, AudioOutput.rebuildGraph, AudioOutput.failExit, F32.clamp,
      F32.lt, F32.eq, F32.half, F32.one]

/-- C26, amended (what `SetSpeed` does to the cursor). For every output state
and every `s` that is not above 1.0, with `c` the value of `s` clamped to
[0.5, 1.0]: when `c == speed_`, `SetSpeed(s)` changes nothing and makes no
call. Otherwise the resampler context and the sink target format are
unchanged; the cursor is left at (NULL, 0, 0) when the rebuild of the filter
graph succeeds, and as it was when the rebuild fails. -/
theorem C26_setSpeed_cursor (a : AudioOutput) (s : F32) (ext : Rebuild)
    (hs : F32.lt F32.one s = false) :
    (F32.eq (F32.clamp s) a.speed_ = true → a.SetSpeed s ext = (a, [])) ∧
    (a.SetSpeed s ext).1.swr_ctx_ = a.swr_ctx_ ∧
    (a.SetSpeed s ext).1.dst_tgt_ = a.dst_tgt_ ∧
    (F32.eq (F32.clamp s) a.speed_ = false → ext = .ok →
      (a.SetSpeed s ext).1.audio_buf_ = none ∧
      (a.SetSpeed s ext).1.audio_buf_size = 0 ∧
      (a.SetSpeed s ext).1.audio_buf_index = 0) ∧
    (F32.eq (F32.clamp s) a.speed_ = false → ext ≠ .ok →
      (a.SetSpeed s ext).1.audio_buf_ = a.audio_buf_ ∧
      (a.SetSpeed s ext).1.audio_buf_size = a.audio_buf_size ∧
      (a.SetSpeed s ext).1.audio_buf_index = a.audio_buf_index) := by
  have hc : F32.clamp s = (if F32.lt s F32.half then F32.half else s) := by
    unfold F32.clamp
    rw [hs]
    simp
  rw [hc]
  obtain ⟨c1, c2, c3, c4, c5⟩ := AudioOutput.SetSpeed_cursor a s ext
  exact ⟨c1, c2, c3, c4, fun _ h => c5 h⟩

/-- Witness of C26: `SetSpeed(0.5f)` at speed 1.0 with 412 bytes buffered, the
rebuild succeeding. -/
theorem C26_setSpeed_cursor_witness :
    (AudioOutput.SetSpeed
      { (AudioOutput.new ⟨48000, 2, 8⟩ ⟨0, 0, 0⟩).InitOk ⟨true, true, true, true⟩ with
        audio_buf_ := some (List.replicate 512 7), audio_buf_size := 512,
        audio_buf_index := 100 }
      F32.half .ok).1.audio_buf_ = none ∧
    (AudioOutput.SetSpeed
      { (AudioOutput.new ⟨48000, 2, 8⟩ ⟨0, 0, 0⟩).InitOk ⟨true, true, true, true⟩ with
        audio_buf_ := some (List.replicate 512 7), audio_buf_size := 512,
        audio_buf_index := 100 }
      F32.half .ok).1.audio_buf_size = 0 ∧
    (AudioOutput.SetSpeed
      { (AudioOutput.new ⟨48000, 2, 8⟩ ⟨0, 0, 0⟩).InitOk ⟨true, true, true, true⟩ with
        audio_buf_ := some (List.replicate 512 7), audio_buf_size := 512,
        audio_buf_index := 100 }
      F32.half .ok).1.audio_buf_index = 0 :=
  (C26_setSpeed_cursor
    { (AudioOutput.new ⟨48000, 2, 8⟩ ⟨0, 0, 0⟩).InitOk ⟨true, true, true, true⟩ with
      audio_buf_ := some (List.replicate 512 7), audio_buf_size := 512,
      audio_buf_index := 100 }
    F32.half .ok (by norm_num [F32.lt, F32.half, F32.one])).2.2.2.1
    (by norm_num [AudioOutput.new, AudioOutput.InitOk, F32.clamp, F32.lt, F32.eq, F32.half,
      F32.one]) rfl

end AVPlayer

namespace AVPlayer

/-- C27 (silence after a refill without data), with the path on which it
breaks. After the index reset, a refill that gets no frame, and one whose
filter sink yields no frame, leave the buffer state (NULL, 512, 0). A refill
whose frame the filter source rejects (`av_buffersrc_add_frame` fails) goes
back to the head of the loop with the old buffer and the old size, index 0:
on an output that has emitted its 4 buffered bytes, the next 4 bytes emitted
are those same bytes, not silence. -/
theorem C27_add_frame_failure_keeps_buffer (a : AudioOutput) (tb : ℚ) :
    AudioOutput.refill { a with audio_buf_index := 0 } tb .noFrame
      = .proceed { a with audio_buf_ := none, audio_buf_size := 512, audio_buf_index := 0 } ∧
    AudioOutput.refill { a with audio_buf_index := 0 } tb .getFrameFails
      = .again { a with audio_buf_ := none, audio_buf_size := 512, audio_buf_index := 0 } ∧
    AudioOutput.refill { a with audio_buf_index := 0 } tb .addFrameFails
      = .again { a with audio_buf_index := 0 } ∧
    (sdl_audio_callback
      { (AudioOutput.new ⟨48000, 2, 8⟩ ⟨0, 0, 0⟩).InitOk ⟨true, true, true, true⟩ with
        audio_buf_ := some [1, 2, 3, 4], audio_buf_size := 4, audio_buf_index := 4 }
      (1 / 48000) ⟨0⟩ 1000000 [.addFrameFails] 4).stream = [1, 2, 3, 4] ∧
    (sdl_audio_callback
      { (AudioOutput.new ⟨48000, 2, 8⟩ ⟨0, 0, 0⟩).InitOk ⟨true, true, true, true⟩ with
        audio_buf_ := some [1, 2, 3, 4], audio_buf_size := 4, audio_buf_index := 4 }
      (1 / 48000) ⟨0⟩ 1000000 [.addFrameFails] 4).out.audio_buf_ = some [1, 2, 3, 4] ∧
    (sdl_audio_callback
      { (AudioOutput.new ⟨48000, 2, 8⟩ ⟨0, 0, 0⟩).InitOk ⟨true, true, true, true⟩ with
        audio_buf_ := some [1, 2, 3, 4], audio_buf_size := 4, audio_buf_index := 4 }
      (1 / 48000) ⟨0⟩ 1000000 [.addFrameFails] 4).out.audio_buf_size = 4 ∧
    (sdl_audio_callback
      { (AudioOutput.new ⟨48000, 2, 8⟩ ⟨0, 0, 0⟩).InitOk ⟨true, true, true, true⟩ with
        audio_buf_ := some [1, 2, 3, 4], audio_buf_size := 4, audio_buf_index := 4 }
      (1 / 48000) ⟨0⟩ 1000000 [.getFrameFails] 4).stream = [0, 0, 0, 0] :=
  ⟨rfl, rfl, rfl, rfl, rfl, rfl, rfl⟩

/-- C29 (no byte of a buffer is emitted twice), evaluated on the runs on which
it breaks. A first invocation refills the buffer with the 4 bytes 1, 2, 3, 4
and emits them all (index = size = 4). When the filter source rejects the next
frame, the second invocation emits the same 4 bytes again. When instead the
second invocation leaves by the early return of a failed `swr_init`, it emits
nothing and leaves index 0, and a third invocation, with no frame at all,
emits the same 4 bytes again. -/
theorem C29_buffer_emitted_twice :
    (sdl_audio_callback
      ((AudioOutput.new ⟨48000, 2, 8⟩ ⟨0, 0, 0⟩).InitOk ⟨true, true, true, true⟩)
      (1 / 48000) ⟨0⟩ 1000000
      [.filtered { pts := 1024, params := ⟨48000, 2, 1⟩, swr_init_ok := true,
                   out_bytes := 4, len2 := 0, conv_bytes := 0, data := [1, 2, 3, 4] }]
      4).stream = [1, 2, 3, 4] ∧
    (sdl_audio_callback
      ((AudioOutput.new ⟨48000, 2, 8⟩ ⟨0, 0, 0⟩).InitOk ⟨true, true, true, true⟩)
      (1 / 48000) ⟨0⟩ 1000000
      [.filtered { pts := 1024, params := ⟨48000, 2, 1⟩, swr_init_ok := true,
                   out_bytes := 4, len2 := 0, conv_bytes := 0, data := [1, 2, 3, 4] }]
      4).out.audio_buf_index = 4 ∧
    (sdl_audio_callback
      ((AudioOutput.new ⟨48000, 2, 8⟩ ⟨0, 0, 0⟩).InitOk ⟨true, true, true, true⟩)
      (1 / 48000) ⟨0⟩ 1000000
      [.filtered { pts := 1024, params := ⟨48000, 2, 1⟩, swr_init_ok := true,
                   out_bytes := 4, len2 := 0, conv_bytes := 0, data := [1, 2, 3, 4] }]
      4).out.audio_buf_size = 4 ∧
    (sdl_audio_callback
      (sdl_audio_callback
        ((AudioOutput.new ⟨48000, 2, 8⟩ ⟨0, 0, 0⟩).InitOk ⟨true, true, true, true⟩)
        (1 / 48000) ⟨0⟩ 1000000
        [.filtered { pts := 1024, params := ⟨48000, 2, 1⟩, swr_init_ok := true,
                     out_bytes := 4, len2 := 0, conv_bytes := 0, data := [1, 2, 3, 4] }]
        4).out
      (1 / 48000) ⟨0⟩ 2000000 [.addFrameFails] 4).stream = [1, 2, 3, 4] ∧
    (sdl_audio_callback
      (sdl_audio_callback
        ((AudioOutput.new ⟨48000, 2, 8⟩ ⟨0, 0, 0⟩).InitOk ⟨true, true, true, true⟩)
        (1 / 48000) ⟨0⟩ 1000000
        [.filtered { pts := 1024, params := ⟨48000, 2, 1⟩, swr_init_ok := true,
                     out_bytes := 4, len2 := 0, conv_bytes := 0, data := [1, 2, 3, 4] }]
        4).out
      (1 / 48000) ⟨0⟩ 2000000
      [.filtered { pts := 2048, params := ⟨48000, 2, 8⟩, swr_init_ok := false,
                   out_bytes := 5120, len2 := 1024, conv_bytes := 4096, data := [] }]
      4).exit = .swrInitFailed ∧
    (sdl_audio_callback
      (sdl_audio_callback
        ((AudioOutput.new ⟨48000, 2, 8⟩ ⟨0, 0, 0⟩).InitOk ⟨true, true, true, true⟩)
        (1 / 48000) ⟨0⟩ 1000000
        [.filtered { pts := 1024, params := ⟨48000, 2, 1⟩, swr_init_ok := true,
                     out_bytes := 4, len2 := 0, conv_bytes := 0, data := [1, 2, 3, 4] }]
        4).out
      (1 / 48000) ⟨0⟩ 2000000
      [.filtered { pts := 2048, params := ⟨48000, 2, 8⟩, swr_init_ok := false,
                   out_bytes := 5120, len2 := 1024, conv_bytes := 4096, data := [] }]
      4).stream = [] ∧
    (sdl_audio_callback
      (sdl_audio_callback
        (sdl_audio_callback
          ((AudioOutput.new ⟨48000, 2, 8⟩ ⟨0, 0, 0⟩).InitOk ⟨true, true, true, true⟩)
          (1 / 48000) ⟨0⟩ 1000000
          [.filtered { pts := 1024, params := ⟨48000, 2, 1⟩, swr_init_ok := true,
                       out_bytes := 4, len2 := 0, conv_bytes := 0, data := [1, 2, 3, 4] }]
          4).out
        (1 / 48000) ⟨0⟩ 2000000
        [.filtered { pts := 2048, params := ⟨48000, 2, 8⟩, swr_init_ok := false,
                     out_bytes := 5120, len2 := 1024, conv_bytes := 4096, data := [] }]
        4).out
      (1 / 48000) ⟨0⟩ 3000000 [] 4).stream = [1, 2, 3, 4] ∧
    (sdl_audio_callback
      (sdl_audio_callback
        (sdl_audio_callback
          ((AudioOutput.new ⟨48000, 2, 8⟩ ⟨0, 0, 0⟩).InitOk ⟨true, true, true, true⟩)
          (1 / 48000) ⟨0⟩ 1000000
          [.filtered { pts := 1024, params := ⟨48000, 2, 1⟩, swr_init_ok := true,
                       out_bytes := 4, len2 := 0, conv_bytes := 0, data := [1, 2, 3, 4] }]
          4).out
        (1 / 48000) ⟨0⟩ 2000000
        [.filtered { pts := 2048, params := ⟨48000, 2, 8⟩, swr_init_ok := false,
                     out_bytes := 5120, len2 := 1024, conv_bytes := 4096, data := [] }]
        4).out
      (1 / 48000) ⟨0⟩ 3000000 [] 4).popped = 0 :=
  ⟨rfl, rfl, rfl, rfl, rfl, rfl, rfl, rfl⟩

/-- C30 (the controller's speed is the audio speed), evaluated on the run on
which it breaks. `setSpeed(0.5f)` before `start()` is stored by the controller
but reaches no audio output; the output that `InitAll` then constructs plays at
1.0 while `getSpeed()` reads 0.5. The same after a speed change, `stop()` and a
second `start()`. A `setSpeed` made while the output exists reaches it. -/
theorem C30_speed_set_before_start_is_lost :
    (MainController.run (MainController.new ⟨0⟩)
      [.setSpeed F32.half .ok, .start,
       .playThreadInit .ok 0 ⟨0, 0, 0⟩ ⟨48000, 2, 8⟩ ⟨true, true, true, true⟩]).getSpeed
      = F32.half ∧
    (MainController.run (MainController.new ⟨0⟩)
      [.setSpeed F32.half .ok, .start,
       .playThreadInit .ok 0 ⟨0, 0, 0⟩ ⟨48000, 2, 8⟩
         ⟨true, true, true, true⟩]).audio_output.map AudioOutput.GetSpeed
      = some F32.one ∧
    (MainController.run (MainController.new ⟨0⟩)
      [.start, .playThreadInit .ok 0 ⟨0, 0, 0⟩ ⟨48000, 2, 8⟩ ⟨true, true, true, true⟩,
       .setSpeed F32.half .ok]).audio_output.map AudioOutput.GetSpeed
      = some F32.half ∧
    (MainController.run (MainController.new ⟨0⟩)
      [.start, .playThreadInit .ok 0 ⟨0, 0, 0⟩ ⟨48000, 2, 8⟩ ⟨true, true, true, true⟩,
       .setSpeed F32.half .ok, .stop, .start,
       .playThreadInit .ok 0 ⟨0, 0, 0⟩ ⟨48000, 2, 8⟩ ⟨true, true, true, true⟩]).getSpeed
      = F32.half ∧
    (MainController.run (MainController.new ⟨0⟩)
      [.start, .playThreadInit .ok 0 ⟨0, 0, 0⟩ ⟨48000, 2, 8⟩ ⟨true, true, true, true⟩,
       .setSpeed F32.half .ok, .stop, .start,
       .playThreadInit .ok 0 ⟨0, 0, 0⟩ ⟨48000, 2, 8⟩
         ⟨true, true, true, true⟩]).audio_output.map AudioOutput.GetSpeed
      = some F32.one ∧
    F32.half ≠ F32.one := by
  refine ⟨rfl, rfl, ?_, ?_, ?_, ?_⟩
  · simp +decide [MainController.run, MainController.step, MainController.new,
      MainController.setSpeed, MainController.start, MainController.playThreadInit,
      MainController.InitAll, AudioOutput.GetSpeed, AudioOutput.SetSpeed, AudioOutput.new,
      AudioOutput.InitOk, AudioOutput.destroyGraph, AudioOutput.rebuildGraph,
      F32.lt, F32.eq, F32.half, F32.one]
  · simp +decide [MainController.run, MainController.step, MainController.new,
      MainController.setSpeed, MainController.start, MainController.stop,
      MainController.StopAndClean, MainController.playThreadInit, MainController.InitAll,
      MainController.getSpeed, AudioOutput.GetSpeed, AudioOutput.SetSpeed, AudioOutput.new,
      AudioOutput.InitOk, AudioOutput.destroyGraph, AudioOutput.rebuildGraph,
      F32.lt, F32.eq, F32.half, F32.one]
  · simp +decide [MainController.run, MainController.step, MainController.new,
      MainController.setSpeed, MainController.start, MainController.stop,
      MainController.StopAndClean, MainController.playThreadInit, MainController.InitAll,
      MainController.getSpeed, AudioOutput.GetSpeed, AudioOutput.SetSpeed, AudioOutput.new,
      AudioOutput.InitOk, AudioOutput.destroyGraph, AudioOutput.rebuildGraph,
      F32.lt, F32.eq, F32.half, F32.one]
  · norm_num [F32.half, F32.one]

end AVPlayer
